import Mathlib

set_option maxHeartbeats 1000000

/-!
# Verification of the yuzuscn SCN codec

A shallow embedding of the decode/encode layer of the yuzuscn repository
(files src/yuzuscn/models/{types,snapshot,events,scene,scn}.py) together
with proofs about it.

Modelling conventions, stated once here:

* JSON-like trees are the inductive type `Value` below (null, bool, int,
  float as a rational, string, ordered sequence, ordered string-keyed
  mapping).  Input documents are parsed JSON, so their mappings have
  pairwise distinct keys; the legitimacy predicates below require this.
* Each pydantic model becomes a Lean structure keeping the source field
  names.  A pydantic `model_validator(mode="before")` followed by field
  validation becomes a `decode...` function `Value → Except String _`;
  a `model_serializer` (or the default dump with `by_alias=True`,
  `exclude_none=False`, as configured in `Scn.model_dump`) becomes a
  pure `encode...` function.  Decoders look fields up by key, so they
  accept any key order, exactly as pydantic does; they enforce the same
  arity/tag/type checks the source performs and no others.
* `extra="allow"` models carry an explicit `extra` field: the input
  pairs whose key is not a declared field alias (nor a declared field
  name, for `populate_by_name` models), in input order; pydantic dumps
  declared fields first (in declaration order, by alias) and the extras
  after them, which the encoders reproduce.  Models without
  `extra="allow"` silently drop unknown keys (pydantic default
  `extra="ignore"`), which the decoders mirror by never reading them.
* pydantic v2 union resolution ("smart mode") validates members in
  strict mode first; a Python dict is only valid for a `BaseModel`
  member in lax mode, while it is a strict exact match for the
  `Dict[str, Any]` member.  Hence `DataItemDetails.model_validate`
  applied to a raw mapping always yields the `Dict[str, Any]` fallback
  branch; the ten typed detail models are only constructed through the
  `details_map` registry dispatch inside `DataItem.validate_data_item`
  (and survive union validation afterwards by instance match).
  Likewise the `Event` union receives either an already-constructed
  model instance (kept by instance match) or, for unrecognized tags,
  the raw list, which matches the `FallbackEvent = List[Any]` member.
* The source prints a warning (and continues) in exactly two places:
  `Event.parse` on an unknown event tag and `DataItem.validate_data_item`
  on an unknown class name.  These diagnostics are modelled by the
  side-effect-free functions `eventWarnings` and `dataItemWarnings`,
  which return the messages the corresponding decode call would print.
* pydantic lax coercions between scalar kinds (for example a numeric
  string for an `int` field) are not modelled: every input the claims
  quantify over is kind-exact, and every failure the claims assert is
  raised by an explicit length/tag check in the source before any field
  coercion could run.
* Dict-shaped inputs to list-shaped records (possible through the raw
  `model_validate` API because the before-validators pass non-list data
  through) are internal API paths never produced by the document flow;
  the decoders model the document flow and reject such inputs.
-/

/-- The generic JSON-like tree (`types.py` works over plain parsed JSON).
Floats are represented as rationals, which is faithful for every value a
JSON text can denote. -/
inductive Value where
  | null : Value
  | bool : Bool → Value
  | int : Int → Value
  | flt : Rat → Value
  | str : String → Value
  | arr : List Value → Value
  | obj : List (String × Value) → Value
deriving Repr

abbrev Entries := List (String × Value)

/-- Key lookup in an ordered mapping, first match wins (parsed JSON
mappings have unique keys, so this is Python dict access). -/
def getKey (k : String) : Entries → Option Value
  | [] => none
  | (k₁, v) :: rest => if k₁ == k then some v else getKey k rest

/-- The keys a pydantic model with `extra="allow"` stores in
`__pydantic_extra__`: input pairs whose key is not consumed by a
declared field, in input order. -/
def extrasOf (declared : List String) (kvs : Entries) : Entries :=
  kvs.filter (fun p => !(declared.contains p.1))

/-- Required `str` field. -/
def reqStr (k : String) (kvs : Entries) : Except String String :=
  match getKey k kvs with
  | some (.str s) => .ok s
  | some _ => .error (k ++ ": not a string")
  | none => .error (k ++ ": field required")

/-- Required `int` field. -/
def reqInt (k : String) (kvs : Entries) : Except String Int :=
  match getKey k kvs with
  | some (.int n) => .ok n
  | some _ => .error (k ++ ": not an integer")
  | none => .error (k ++ ": field required")

/-- `Optional[str]` field with default `None`: absent and null both give
`none`. -/
def optStr (k : String) (kvs : Entries) : Except String (Option String) :=
  match getKey k kvs with
  | some (.str s) => .ok (some s)
  | some .null => .ok none
  | some _ => .error (k ++ ": not a string")
  | none => .ok none

/-- `Optional[int]` field with default `None`. -/
def optInt (k : String) (kvs : Entries) : Except String (Option Int) :=
  match getKey k kvs with
  | some (.int n) => .ok (some n)
  | some .null => .ok none
  | some _ => .error (k ++ ": not an integer")
  | none => .ok none

/-- `Optional[bool]` field with default `None`. -/
def optBool (k : String) (kvs : Entries) : Except String (Option Bool) :=
  match getKey k kvs with
  | some (.bool b) => .ok (some b)
  | some .null => .ok none
  | some _ => .error (k ++ ": not a boolean")
  | none => .ok none

/-- `Optional[Any]` field with default `None`: pydantic stores `None`
for an absent key and dumps it back as null, so absent collapses to
null. -/
def anyVal (k : String) (kvs : Entries) : Value :=
  (getKey k kvs).getD .null

/-- Encoding of an `Option Int` field value (pydantic dumps `None` as
null). -/
def encOptInt : Option Int → Value
  | some n => .int n
  | none => .null

def encOptStr : Option String → Value
  | some s => .str s
  | none => .null

def encOptBool : Option Bool → Value
  | some b => .bool b
  | none => .null

/-! ## Instruction codec (`events.py` lines 14-151)

Four models with `model_validator(mode="before")` list parsers and
`model_serializer` list dumps.  `NewInstruction` and `RenameInstruction`
have `extra="allow"`, so the structures carry an `extra` bag (reachable
through the dict path of `model_validate`); their list parsers accept
exactly three elements and build a dict with no extra keys, and their
serializers emit the positional fields only. -/

/-- `InitInstruction`: fields after the `action: Literal["init"]`
discriminator. -/
structure InitInstruction where
  status : Int
deriving Repr

/-- `NewInstruction` (`extra="allow"`). -/
structure NewInstruction where
  name : String
  class_name : String
  extra : Entries
deriving Repr

/-- `DeleteInstruction`. -/
structure DeleteInstruction where
  name : String
deriving Repr

/-- `RenameInstruction` (`extra="allow"`). -/
structure RenameInstruction where
  name : String
  new_name : String
  extra : Entries
deriving Repr

/-- The `Instruction` root union. -/
inductive Instruction where
  | init : InitInstruction → Instruction
  | new : NewInstruction → Instruction
  | del : DeleteInstruction → Instruction
  | ren : RenameInstruction → Instruction
deriving Repr

/-- `InitInstruction.parse_list` on a list plus field validation:
exactly 2 elements, `status` an integer (`action` equals the
dispatched tag by construction). -/
def decodeInitInstruction (items : List Value) : Except String Instruction :=
  match items with
  | [_, .int s] => .ok (.init ⟨s⟩)
  | [_, _] => .error "status: not an integer"
  | _ => .error "Invalid length"

/-- `NewInstruction.parse_list`: exactly 3 elements, `name` and
`class_name` strings; the dict it builds has no extra keys. -/
def decodeNewInstruction (items : List Value) : Except String Instruction :=
  match items with
  | [_, .str n, .str c] => .ok (.new ⟨n, c, []⟩)
  | [_, _, _] => .error "name or class: not a string"
  | _ => .error "Invalid length"

/-- `DeleteInstruction.parse_list`: exactly 2 elements. -/
def decodeDeleteInstruction (items : List Value) : Except String Instruction :=
  match items with
  | [_, .str n] => .ok (.del ⟨n⟩)
  | [_, _] => .error "name: not a string"
  | _ => .error "Invalid length"

/-- `RenameInstruction.parse_list`: exactly 3 elements. -/
def decodeRenameInstruction (items : List Value) : Except String Instruction :=
  match items with
  | [_, .str n, .str nn] => .ok (.ren ⟨n, nn, []⟩)
  | [_, _, _] => .error "name or new: not a string"
  | _ => .error "Invalid length"

/-- The `instruction_map` registry as the list of its keys, in source
order. -/
def instructionTags : List String := ["init", "new", "del", "ren"]

/-- `instruction_map[item[0]](item)`: the registry lookup raises
`KeyError` on a miss (there is no fallback for instructions), then the
matching model validates the list.  A non-list or a list whose head is
not a string also raises (`TypeError`/`KeyError`), modelled as an
error. -/
def decodeInstruction (v : Value) : Except String Instruction :=
  match v with
  | .arr items =>
    match items with
    | .str "init" :: _ => decodeInitInstruction items
    | .str "new" :: _ => decodeNewInstruction items
    | .str "del" :: _ => decodeDeleteInstruction items
    | .str "ren" :: _ => decodeRenameInstruction items
    | .str t :: _ => .error ("KeyError: " ++ t)
    | _ => .error "KeyError: non-string instruction tag"
  | _ => .error "TypeError: instruction is not a list"

/-- `dump_as_list` of the four instruction models: the tag followed by
the positional fields, in the order written in the source.  Note the
serializers never emit the `extra` bag. -/
def encodeInstruction : Instruction → Value
  | .init i => .arr [.str "init", .int i.status]
  | .new i => .arr [.str "new", .str i.name, .str i.class_name]
  | .del i => .arr [.str "del", .str i.name]
  | .ren i => .arr [.str "ren", .str i.name, .str i.new_name]

/-! ## Snapshot object codec (`snapshot.py`)

Helper field readers for the recurring pydantic field kinds. -/

/-- Is the value a sequence?  (`KeyValuePair = List[Any]`.) -/
def isArr : Value → Bool
  | .arr _ => true
  | _ => false

/-- Element check for `List[Union[KeyValuePair, None]]`. -/
def isArrOrNull : Value → Bool
  | .arr _ => true
  | .null => true
  | _ => false

/-- Element check for `List[Optional[str]]`. -/
def isStrOrNull : Value → Bool
  | .str _ => true
  | .null => true
  | _ => false

/-- `Optional[List[KeyValuePair]]` field (`action`, `hideact`,
`ImageFileDetails.redraw`): a sequence of sequences, kept verbatim. -/
def optArrOfArr (k : String) (kvs : Entries) : Except String (Option (List Value)) :=
  match getKey k kvs with
  | some (.arr xs) =>
    if xs.all isArr then .ok (some xs) else .error (k ++ ": element not a list")
  | some .null => .ok none
  | some _ => .error (k ++ ": not a list")
  | none => .ok none

/-- `Optional[List[Union[KeyValuePair, None]]]` field
(`FixCaptionDetails.action`). -/
def optArrOfArrOrNull (k : String) (kvs : Entries) : Except String (Option (List Value)) :=
  match getKey k kvs with
  | some (.arr xs) =>
    if xs.all isArrOrNull then .ok (some xs) else .error (k ++ ": bad element")
  | some .null => .ok none
  | some _ => .error (k ++ ": not a list")
  | none => .ok none

/-- `Optional[str] = ""` field (`link`): the default on an absent key is
the empty string, not `None`. -/
def optStrDefEmpty (k : String) (kvs : Entries) : Except String (Option String) :=
  match getKey k kvs with
  | some (.str s) => .ok (some s)
  | some .null => .ok none
  | some _ => .error (k ++ ": not a string")
  | none => .ok (some "")

/-- `Optional[int]` field without a default (`phonechat_showing`): the
key is required but may be null. -/
def reqOptInt (k : String) (kvs : Entries) : Except String (Option Int) :=
  match getKey k kvs with
  | some (.int n) => .ok (some n)
  | some .null => .ok none
  | some _ => .error (k ++ ": not an integer")
  | none => .error (k ++ ": field required")

/-- Optional nested model field: absent and null give `none`, anything
else is validated by the nested model. -/
def optModel {α : Type} (k : String) (dec : Value → Except String α)
    (kvs : Entries) : Except String (Option α) :=
  match getKey k kvs with
  | none => .ok none
  | some .null => .ok none
  | some v => (dec v).map some

/-- Required nested model field. -/
def reqModel {α : Type} (k : String) (dec : Value → Except String α)
    (kvs : Entries) : Except String α :=
  match getKey k kvs with
  | none => .error (k ++ ": field required")
  | some v => dec v

/-- Literal discriminator field: the exact string is required
(`class_name: Literal[...] = Field(..., alias="class")`). -/
def reqLit (k lit : String) (kvs : Entries) : Except String Unit :=
  match getKey k kvs with
  | some (.str s) => if s == lit then .ok () else .error (k ++ ": literal mismatch")
  | some _ => .error (k ++ ": literal mismatch")
  | none => .error (k ++ ": field required")

def encOptArr : Option (List Value) → Value
  | some xs => .arr xs
  | none => .null

/-- `Replay` (`extra="allow"`). -/
structure Replay where
  filename : Option String
  loop : Option Int
  start : Value
  state : Option Int
  volume : Option Int
  extra : Entries
deriving Repr

def decodeReplay (v : Value) : Except String Replay :=
  match v with
  | .obj kvs => do
    let filename ← optStr "filename" kvs
    let loop ← optInt "loop" kvs
    let state ← optInt "state" kvs
    let volume ← optInt "volume" kvs
    .ok ⟨filename, loop, anyVal "start" kvs, state, volume,
      extrasOf ["filename", "loop", "start", "state", "volume"] kvs⟩
  | _ => .error "Replay: not an object"

def encodeReplay (r : Replay) : Value :=
  .obj ([("filename", encOptStr r.filename), ("loop", encOptInt r.loop),
    ("start", r.start), ("state", encOptInt r.state),
    ("volume", encOptInt r.volume)] ++ r.extra)

/-- `Update` (`extra="allow"`). -/
structure Update where
  state : Option Int
  extra : Entries
deriving Repr

def decodeUpdate (v : Value) : Except String Update :=
  match v with
  | .obj kvs => do
    let state ← optInt "state" kvs
    .ok ⟨state, extrasOf ["state"] kvs⟩
  | _ => .error "Update: not an object"

def encodeUpdate (u : Update) : Value :=
  .obj (("state", encOptInt u.state) :: u.extra)

/-- `Transform` (`extra="allow"`; `time` is the only required field). -/
structure Transform where
  method : Option String
  msgoff : Option Bool
  rule : Option String
  time : Int
  extra : Entries
deriving Repr

def decodeTransform (v : Value) : Except String Transform :=
  match v with
  | .obj kvs => do
    let method ← optStr "method" kvs
    let msgoff ← optBool "msgoff" kvs
    let rule ← optStr "rule" kvs
    let time ← reqInt "time" kvs
    .ok ⟨method, msgoff, rule, time,
      extrasOf ["method", "msgoff", "rule", "time"] kvs⟩
  | _ => .error "Transform: not an object"

def encodeTransform (t : Transform) : Value :=
  .obj ([("method", encOptStr t.method), ("msgoff", encOptBool t.msgoff),
    ("rule", encOptStr t.rule), ("time", .int t.time)] ++ t.extra)

/-- `ImageFileOptions` (`extra="allow"`). -/
structure ImageFileOptions where
  dress : Option String
  face : Option String
  pose : Option String
  center : Option Int
  extra : Entries
deriving Repr

def decodeImageFileOptions (v : Value) : Except String ImageFileOptions :=
  match v with
  | .obj kvs => do
    let dress ← optStr "dress" kvs
    let face ← optStr "face" kvs
    let pose ← optStr "pose" kvs
    let center ← optInt "center" kvs
    .ok ⟨dress, face, pose, center,
      extrasOf ["dress", "face", "pose", "center"] kvs⟩
  | _ => .error "ImageFileOptions: not an object"

def encodeImageFileOptions (o : ImageFileOptions) : Value :=
  .obj ([("dress", encOptStr o.dress), ("face", encOptStr o.face),
    ("pose", encOptStr o.pose), ("center", encOptInt o.center)] ++ o.extra)

/-- `ImageFileDetails` (`extra="allow"`). -/
structure ImageFileDetails where
  file : String
  options : Option ImageFileOptions
  redraw : Option (List Value)
  extra : Entries
deriving Repr

def decodeImageFileDetails (v : Value) : Except String ImageFileDetails :=
  match v with
  | .obj kvs => do
    let file ← reqStr "file" kvs
    let options ← optModel "options" decodeImageFileOptions kvs
    let redraw ← optArrOfArr "redraw" kvs
    .ok ⟨file, options, redraw, extrasOf ["file", "options", "redraw"] kvs⟩
  | _ => .error "ImageFileDetails: not an object"

def encodeImageFileDetails (d : ImageFileDetails) : Value :=
  .obj ([("file", .str d.file),
    ("options", match d.options with
      | some o => encodeImageFileOptions o
      | none => .null),
    ("redraw", encOptArr d.redraw)] ++ d.extra)

/-- `Redraw` (`extra="allow"`). -/
structure Redraw where
  disp : Int
  imageFile : ImageFileDetails
  posName : Option String
  extra : Entries
deriving Repr

def decodeRedraw (v : Value) : Except String Redraw :=
  match v with
  | .obj kvs => do
    let disp ← reqInt "disp" kvs
    let imageFile ← reqModel "imageFile" decodeImageFileDetails kvs
    let posName ← optStr "posName" kvs
    .ok ⟨disp, imageFile, posName, extrasOf ["disp", "imageFile", "posName"] kvs⟩
  | _ => .error "Redraw: not an object"

def encodeRedraw (r : Redraw) : Value :=
  .obj ([("disp", .int r.disp), ("imageFile", encodeImageFileDetails r.imageFile),
    ("posName", encOptStr r.posName)] ++ r.extra)

def encOptRedraw : Option Redraw → Value
  | some r => encodeRedraw r
  | none => .null

def encOptTransform : Option Transform → Value
  | some t => encodeTransform t
  | none => .null

/-- `BgmDetails` (`extra="allow"`): `name`, `replay`, `update`. -/
structure BgmDetails where
  name : String
  replay : Replay
  update : Update
  extra : Entries
deriving Repr

def decodeBgmDetails (v : Value) : Except String BgmDetails :=
  match v with
  | .obj kvs => do
    let name ← reqStr "name" kvs
    let replay ← reqModel "replay" decodeReplay kvs
    let update ← reqModel "update" decodeUpdate kvs
    .ok ⟨name, replay, update, extrasOf ["name", "replay", "update"] kvs⟩
  | _ => .error "BgmDetails: not an object"

def encodeBgmDetails (d : BgmDetails) : Value :=
  .obj ([("name", .str d.name), ("replay", encodeReplay d.replay),
    ("update", encodeUpdate d.update)] ++ d.extra)

/-- `LoopSEDetails` (`extra="allow"`). -/
structure LoopSEDetails where
  action : Option (List Value)
  name : String
  replay : Replay
  trans : Option Transform
  update : Update
  extra : Entries
deriving Repr

def decodeLoopSEDetails (v : Value) : Except String LoopSEDetails :=
  match v with
  | .obj kvs => do
    let action ← optArrOfArr "action" kvs
    let name ← reqStr "name" kvs
    let replay ← reqModel "replay" decodeReplay kvs
    let trans ← optModel "trans" decodeTransform kvs
    let update ← reqModel "update" decodeUpdate kvs
    .ok ⟨action, name, replay, trans, update,
      extrasOf ["action", "name", "replay", "trans", "update"] kvs⟩
  | _ => .error "LoopSEDetails: not an object"

def encodeLoopSEDetails (d : LoopSEDetails) : Value :=
  .obj ([("action", encOptArr d.action), ("name", .str d.name),
    ("replay", encodeReplay d.replay), ("trans", encOptTransform d.trans),
    ("update", encodeUpdate d.update)] ++ d.extra)

/-- `StageDetails` (`extra="allow"`, `populate_by_name`; the
`class_name: Literal["stage"]` discriminator is validated on decode and
re-emitted under its alias on encode, so it is not stored). -/
structure StageDetails where
  action : Option (List Value)
  link : Option String
  name : String
  redraw : Redraw
  showmode : Int
  trans : Option Transform
  type : Value
  extra : Entries
deriving Repr

def decodeStageDetails (v : Value) : Except String StageDetails :=
  match v with
  | .obj kvs => do
    let action ← optArrOfArr "action" kvs
    let _ ← reqLit "class" "stage" kvs
    let link ← optStrDefEmpty "link" kvs
    let name ← reqStr "name" kvs
    let redraw ← reqModel "redraw" decodeRedraw kvs
    let showmode ← reqInt "showmode" kvs
    let trans ← optModel "trans" decodeTransform kvs
    .ok ⟨action, link, name, redraw, showmode, trans, anyVal "type" kvs,
      extrasOf ["action", "class", "class_name", "link", "name", "redraw",
        "showmode", "trans", "type"] kvs⟩
  | _ => .error "StageDetails: not an object"

def encodeStageDetails (d : StageDetails) : Value :=
  .obj ([("action", encOptArr d.action), ("class", .str "stage"),
    ("link", encOptStr d.link), ("name", .str d.name),
    ("redraw", encodeRedraw d.redraw), ("showmode", .int d.showmode),
    ("trans", encOptTransform d.trans), ("type", d.type)] ++ d.extra)

/-- `CharacterDetails` (`extra="allow"`, `populate_by_name`). -/
structure CharacterDetails where
  action : Option (List Value)
  hideact : Option (List Value)
  link : Option String
  name : String
  redraw : Option Redraw
  showmode : Int
  trans : Option Transform
  type : Value
  extra : Entries
deriving Repr

def decodeCharacterDetails (v : Value) : Except String CharacterDetails :=
  match v with
  | .obj kvs => do
    let action ← optArrOfArr "action" kvs
    let hideact ← optArrOfArr "hideact" kvs
    let _ ← reqLit "class" "character" kvs
    let link ← optStrDefEmpty "link" kvs
    let name ← reqStr "name" kvs
    let redraw ← optModel "redraw" decodeRedraw kvs
    let showmode ← reqInt "showmode" kvs
    let trans ← optModel "trans" decodeTransform kvs
    .ok ⟨action, hideact, link, name, redraw, showmode, trans, anyVal "type" kvs,
      extrasOf ["action", "hideact", "class", "class_name", "link", "name",
        "redraw", "showmode", "trans", "type"] kvs⟩
  | _ => .error "CharacterDetails: not an object"

def encodeCharacterDetails (d : CharacterDetails) : Value :=
  .obj ([("action", encOptArr d.action), ("hideact", encOptArr d.hideact),
    ("class", .str "character"), ("link", encOptStr d.link),
    ("name", .str d.name), ("redraw", encOptRedraw d.redraw),
    ("showmode", .int d.showmode), ("trans", encOptTransform d.trans),
    ("type", d.type)] ++ d.extra)

/-- `MsgwinDetails` (`extra="allow"`, `populate_by_name`). -/
structure MsgwinDetails where
  action : Option (List Value)
  hideact : Option (List Value)
  link : Option String
  name : String
  redraw : Option Redraw
  showmode : Int
  type : Value
  extra : Entries
deriving Repr

def decodeMsgwinDetails (v : Value) : Except String MsgwinDetails :=
  match v with
  | .obj kvs => do
    let action ← optArrOfArr "action" kvs
    let hideact ← optArrOfArr "hideact" kvs
    let _ ← reqLit "class" "msgwin" kvs
    let link ← optStrDefEmpty "link" kvs
    let name ← reqStr "name" kvs
    let redraw ← optModel "redraw" decodeRedraw kvs
    let showmode ← reqInt "showmode" kvs
    .ok ⟨action, hideact, link, name, redraw, showmode, anyVal "type" kvs,
      extrasOf ["action", "hideact", "class", "class_name", "link", "name",
        "redraw", "showmode", "type"] kvs⟩
  | _ => .error "MsgwinDetails: not an object"

def encodeMsgwinDetails (d : MsgwinDetails) : Value :=
  .obj ([("action", encOptArr d.action), ("hideact", encOptArr d.hideact),
    ("class", .str "msgwin"), ("link", encOptStr d.link),
    ("name", .str d.name), ("redraw", encOptRedraw d.redraw),
    ("showmode", .int d.showmode), ("type", d.type)] ++ d.extra)

/-- `EventDetails` (`extra="allow"`, `populate_by_name`). -/
structure EventDetails where
  action : Option (List Value)
  name : String
  redraw : Option Redraw
  showmode : Int
  type : Value
  extra : Entries
deriving Repr

def decodeEventDetails (v : Value) : Except String EventDetails :=
  match v with
  | .obj kvs => do
    let action ← optArrOfArr "action" kvs
    let _ ← reqLit "class" "event" kvs
    let name ← reqStr "name" kvs
    let redraw ← optModel "redraw" decodeRedraw kvs
    let showmode ← reqInt "showmode" kvs
    .ok ⟨action, name, redraw, showmode, anyVal "type" kvs,
      extrasOf ["action", "class", "class_name", "name", "redraw",
        "showmode", "type"] kvs⟩
  | _ => .error "EventDetails: not an object"

def encodeEventDetails (d : EventDetails) : Value :=
  .obj ([("action", encOptArr d.action), ("class", .str "event"),
    ("name", .str d.name), ("redraw", encOptRedraw d.redraw),
    ("showmode", .int d.showmode), ("type", d.type)] ++ d.extra)

/-- `Event2Details` (`extra="allow"`, `populate_by_name`). -/
structure Event2Details where
  action : Option (List Value)
  name : String
  redraw : Option Redraw
  showmode : Int
  type : Value
  extra : Entries
deriving Repr

def decodeEvent2Details (v : Value) : Except String Event2Details :=
  match v with
  | .obj kvs => do
    let action ← optArrOfArr "action" kvs
    let _ ← reqLit "class" "event2" kvs
    let name ← reqStr "name" kvs
    let redraw ← optModel "redraw" decodeRedraw kvs
    let showmode ← reqInt "showmode" kvs
    .ok ⟨action, name, redraw, showmode, anyVal "type" kvs,
      extrasOf ["action", "class", "class_name", "name", "redraw",
        "showmode", "type"] kvs⟩
  | _ => .error "Event2Details: not an object"

def encodeEvent2Details (d : Event2Details) : Value :=
  .obj ([("action", encOptArr d.action), ("class", .str "event2"),
    ("name", .str d.name), ("redraw", encOptRedraw d.redraw),
    ("showmode", .int d.showmode), ("type", d.type)] ++ d.extra)

/-- `CenterlayerDetails` (`extra="allow"`, `populate_by_name`; `redraw`
is required here). -/
structure CenterlayerDetails where
  action : Option (List Value)
  link : Option String
  name : String
  redraw : Redraw
  showmode : Int
  type : Value
  extra : Entries
deriving Repr

def decodeCenterlayerDetails (v : Value) : Except String CenterlayerDetails :=
  match v with
  | .obj kvs => do
    let action ← optArrOfArr "action" kvs
    let _ ← reqLit "class" "centerlayer" kvs
    let link ← optStrDefEmpty "link" kvs
    let name ← reqStr "name" kvs
    let redraw ← reqModel "redraw" decodeRedraw kvs
    let showmode ← reqInt "showmode" kvs
    .ok ⟨action, link, name, redraw, showmode, anyVal "type" kvs,
      extrasOf ["action", "class", "class_name", "link", "name", "redraw",
        "showmode", "type"] kvs⟩
  | _ => .error "CenterlayerDetails: not an object"

def encodeCenterlayerDetails (d : CenterlayerDetails) : Value :=
  .obj ([("action", encOptArr d.action), ("class", .str "centerlayer"),
    ("link", encOptStr d.link), ("name", .str d.name),
    ("redraw", encodeRedraw d.redraw), ("showmode", .int d.showmode),
    ("type", d.type)] ++ d.extra)

/-- `SEDetails` (`extra="allow"`): only `name` is declared. -/
structure SEDetails where
  name : String
  extra : Entries
deriving Repr

def decodeSEDetails (v : Value) : Except String SEDetails :=
  match v with
  | .obj kvs => do
    let name ← reqStr "name" kvs
    .ok ⟨name, extrasOf ["name"] kvs⟩
  | _ => .error "SEDetails: not an object"

def encodeSEDetails (d : SEDetails) : Value :=
  .obj (("name", .str d.name) :: d.extra)

/-- `FixCaptionDetails`: no `model_config`, so pydantic defaults apply:
unknown keys are ignored (dropped), and only the alias `class` is
accepted for the discriminator. -/
structure FixCaptionDetails where
  action : Option (List Value)
  link : Option String
  name : String
  redraw : Option Redraw
  showmode : Int
  type : Value
deriving Repr

def decodeFixCaptionDetails (v : Value) : Except String FixCaptionDetails :=
  match v with
  | .obj kvs => do
    let action ← optArrOfArrOrNull "action" kvs
    let _ ← reqLit "class" "fixcaption" kvs
    let link ← optStrDefEmpty "link" kvs
    let name ← reqStr "name" kvs
    let redraw ← optModel "redraw" decodeRedraw kvs
    let showmode ← reqInt "showmode" kvs
    .ok ⟨action, link, name, redraw, showmode, anyVal "type" kvs⟩
  | _ => .error "FixCaptionDetails: not an object"

def encodeFixCaptionDetails (d : FixCaptionDetails) : Value :=
  .obj [("action", encOptArr d.action), ("class", .str "fixcaption"),
    ("link", encOptStr d.link), ("name", .str d.name),
    ("redraw", encOptRedraw d.redraw), ("showmode", .int d.showmode),
    ("type", d.type)]

/-- The `DataItemDetails` root union (`snapshot.py` lines 296-311): the
ten typed detail models plus the `Dict[str, Any]` fallback. -/
inductive DataItemDetails where
  | bgm : BgmDetails → DataItemDetails
  | loopse : LoopSEDetails → DataItemDetails
  | stage : StageDetails → DataItemDetails
  | character : CharacterDetails → DataItemDetails
  | msgwin : MsgwinDetails → DataItemDetails
  | event : EventDetails → DataItemDetails
  | event2 : Event2Details → DataItemDetails
  | centerlayer : CenterlayerDetails → DataItemDetails
  | se : SEDetails → DataItemDetails
  | fixcaption : FixCaptionDetails → DataItemDetails
  | fallback : Entries → DataItemDetails
deriving Repr

/-- The keys of the `details_map` registry, in source order. -/
def detailsTags : List String :=
  ["bgm", "loopse", "stage", "character", "msgwin", "event", "event2",
   "centerlayer", "se", "fixcaption"]

/-- `details_map[class_name](details)`: dispatch on a class name known
to be in the registry. -/
def decodeDetailsByClass (c : String) (v : Value) : Except String DataItemDetails :=
  if c == "bgm" then (decodeBgmDetails v).map .bgm
  else if c == "loopse" then (decodeLoopSEDetails v).map .loopse
  else if c == "stage" then (decodeStageDetails v).map .stage
  else if c == "character" then (decodeCharacterDetails v).map .character
  else if c == "msgwin" then (decodeMsgwinDetails v).map .msgwin
  else if c == "event" then (decodeEventDetails v).map .event
  else if c == "event2" then (decodeEvent2Details v).map .event2
  else if c == "centerlayer" then (decodeCenterlayerDetails v).map .centerlayer
  else if c == "se" then (decodeSEDetails v).map .se
  else if c == "fixcaption" then (decodeFixCaptionDetails v).map .fixcaption
  else .error ("KeyError: " ++ c)

/-- `DataItemDetails.model_validate` on a raw value: in pydantic smart
union mode a mapping is a strict match for the `Dict[str, Any]` member
while the model members would only accept it laxly, so every mapping
resolves to the fallback; any other value matches no member. -/
def decodeDataItemDetails (v : Value) : Except String DataItemDetails :=
  match v with
  | .obj kvs => .ok (.fallback kvs)
  | _ => .error "DataItemDetails: no union member matched"

/-- Serialization of the union (`by_alias=True` everywhere): each model
dumps its declared fields then its extras; the fallback dumps its
mapping unchanged. -/
def encodeDataItemDetails : DataItemDetails → Value
  | .bgm d => encodeBgmDetails d
  | .loopse d => encodeLoopSEDetails d
  | .stage d => encodeStageDetails d
  | .character d => encodeCharacterDetails d
  | .msgwin d => encodeMsgwinDetails d
  | .event d => encodeEventDetails d
  | .event2 d => encodeEvent2Details d
  | .centerlayer d => encodeCenterlayerDetails d
  | .se d => encodeSEDetails d
  | .fixcaption d => encodeFixCaptionDetails d
  | .fallback kvs => .obj kvs

/-- `DataItem` (`snapshot.py` lines 314-341).  Its serializer emits the
3-element list `[name, class, details]`, never an extras bag, so the
structure stores only the three fields the list path populates. -/
structure DataItem where
  name : String
  class_name : String
  details : DataItemDetails
deriving Repr

/-- `DataItem.validate_data_item` on a list plus field validation: the
unpacking `name, class_name, details = data` requires exactly three
elements; a class name in the registry dispatches the details through
it, any other class name leaves the details value untouched, after
which the `details: DataItemDetails` field validation turns a mapping
into the fallback (and rejects anything else). -/
def decodeDataItem (v : Value) : Except String DataItem :=
  match v with
  | .arr [n, c, d] =>
    match n, c with
    | .str name, .str cls =>
      if detailsTags.contains cls then do
        let det ← decodeDetailsByClass cls d
        .ok ⟨name, cls, det⟩
      else do
        let det ← decodeDataItemDetails d
        .ok ⟨name, cls, det⟩
    | _, _ => .error "DataItem: name or class is not a string"
  | .arr _ => .error "DataItem: cannot unpack"
  | _ => .error "DataItem: not a list"

/-- The diagnostics `DataItem.validate_data_item` prints for a given
input: exactly one warning, on the unknown-class branch. -/
def dataItemWarnings (v : Value) : List String :=
  match v with
  | .arr [_, c, _] =>
    match c with
    | .str cls =>
      if detailsTags.contains cls then []
      else ["Warning: Unknown class name: " ++ cls]
    | _ => ["Warning: Unknown class name"]
  | _ => []

/-- `DataItem.serialize_data_item`. -/
def encodeDataItem (d : DataItem) : Value :=
  .arr [.str d.name, .str d.class_name, encodeDataItemDetails d.details]

/-- `ShowDate` (`extra="allow"`). -/
structure ShowDate where
  back : Value
  date : Option String
  fore : Value
  nowShow : Option Int
  extra : Entries
deriving Repr

def decodeShowDate (v : Value) : Except String ShowDate :=
  match v with
  | .obj kvs => do
    let date ← optStr "date" kvs
    let nowShow ← optInt "nowShow" kvs
    .ok ⟨anyVal "back" kvs, date, anyVal "fore" kvs, nowShow,
      extrasOf ["back", "date", "fore", "nowShow"] kvs⟩
  | _ => .error "ShowDate: not an object"

def encodeShowDate (d : ShowDate) : Value :=
  .obj ([("back", d.back), ("date", encOptStr d.date), ("fore", d.fore),
    ("nowShow", encOptInt d.nowShow)] ++ d.extra)

/-- `Env` (`extra="allow"`): `name` required, `action` an optional list
of nullable strings. -/
structure Env where
  name : String
  action : Option (List Value)
  extra : Entries
deriving Repr

def decodeEnv (v : Value) : Except String Env :=
  match v with
  | .obj kvs => do
    let name ← reqStr "name" kvs
    let action ←
      match getKey "action" kvs with
      | some (.arr xs) =>
        if xs.all isStrOrNull then Except.ok (some xs)
        else Except.error "action: bad element"
      | some .null => Except.ok none
      | some _ => Except.error "action: not a list"
      | none => Except.ok none
    .ok ⟨name, action, extrasOf ["name", "action"] kvs⟩
  | _ => .error "Env: not an object"

def encodeEnv (e : Env) : Value :=
  .obj ([("name", .str e.name), ("action", encOptArr e.action)] ++ e.extra)

/-- `SnapshotPoint` (`extra="allow"`, `populate_by_name`; the
`_meswinchange` alias is used on dump, and `phonechat_showing` is a
required-but-nullable field). -/
structure SnapshotPoint where
  meswinchange : Option String
  data : List DataItem
  env : Env
  phonechat_showing : Option Int
  scnchart : Option String
  showdate : Option ShowDate
  extra : Entries
deriving Repr

def decodeSnapshotPoint (v : Value) : Except String SnapshotPoint :=
  match v with
  | .obj kvs => do
    let mes ← optStr "_meswinchange" kvs
    let data ←
      match getKey "data" kvs with
      | some (.arr xs) => xs.mapM decodeDataItem
      | some _ => Except.error "data: not a list"
      | none => Except.error "data: field required"
    let env ← reqModel "env" decodeEnv kvs
    let phone ← reqOptInt "phonechat_showing" kvs
    let scnchart ← optStr "scnchart" kvs
    let showdate ← optModel "showdate" decodeShowDate kvs
    .ok ⟨mes, data, env, phone, scnchart, showdate,
      extrasOf ["_meswinchange", "meswinchange", "data", "env",
        "phonechat_showing", "scnchart", "showdate"] kvs⟩
  | _ => .error "SnapshotPoint: not an object"

def encodeSnapshotPoint (p : SnapshotPoint) : Value :=
  .obj ([("_meswinchange", encOptStr p.meswinchange),
    ("data", .arr (p.data.map encodeDataItem)),
    ("env", encodeEnv p.env),
    ("phonechat_showing", encOptInt p.phonechat_showing),
    ("scnchart", encOptStr p.scnchart),
    ("showdate", match p.showdate with
      | some sd => encodeShowDate sd
      | none => .null)] ++ p.extra)

/-! ## Event codec (`events.py` lines 154-891) -/

/-- Scalar reads for positional event fields. -/
def asInt (k : String) (v : Value) : Except String Int :=
  match v with
  | .int n => .ok n
  | _ => .error (k ++ ": not an integer")

def asStr (k : String) (v : Value) : Except String String :=
  match v with
  | .str s => .ok s
  | _ => .error (k ++ ": not a string")

def asOptInt (k : String) (v : Value) : Except String (Option Int) :=
  match v with
  | .int n => .ok (some n)
  | .null => .ok none
  | _ => .error (k ++ ": not an integer")

def asOptStr (k : String) (v : Value) : Except String (Option String) :=
  match v with
  | .str s => .ok (some s)
  | .null => .ok none
  | _ => .error (k ++ ": not a string")

/-- `WaitEntry` (pydantic defaults: unknown keys ignored). -/
structure WaitEntry where
  mode : Int
  name : String
deriving Repr

def decodeWaitEntry (v : Value) : Except String WaitEntry :=
  match v with
  | .obj kvs => do
    let mode ← reqInt "mode" kvs
    let name ← reqStr "name" kvs
    .ok ⟨mode, name⟩
  | _ => .error "WaitEntry: not an object"

def encodeWaitEntry (w : WaitEntry) : Value :=
  .obj [("mode", .int w.mode), ("name", .str w.name)]

/-- `Wait`: a `list` of nullable wait entries. -/
structure Wait where
  list : List (Option WaitEntry)
deriving Repr

def decodeWaitElem (v : Value) : Except String (Option WaitEntry) :=
  match v with
  | .null => .ok none
  | _ => (decodeWaitEntry v).map some

def decodeWait (v : Value) : Except String Wait :=
  match v with
  | .obj kvs =>
    match getKey "list" kvs with
    | some (.arr xs) => (xs.mapM decodeWaitElem).map Wait.mk
    | some _ => .error "list: not a list"
    | none => .error "list: field required"
  | _ => .error "Wait: not an object"

def encodeWaitElem : Option WaitEntry → Value
  | some w => encodeWaitEntry w
  | none => .null

def encodeWait (w : Wait) : Value :=
  .obj [("list", .arr (w.list.map encodeWaitElem))]

/-- `StartlineEvent`: three optional fields.  The list parser accepts
lengths 1 and 7 and reads positions 2, 4 and 6; positions 1, 3 and 5
are not inspected. -/
structure StartlineEvent where
  vflag : Option Int
  name : Option String
  text : Option Int
deriving Repr

def decodeStartlineEvent (items : List Value) : Except String StartlineEvent :=
  match items with
  | [.str "startline"] => .ok ⟨none, none, none⟩
  | [_] => .error "Invalid startline event"
  | [.str "startline", _, v2, _, v4, _, v6] => do
    let vflag ← asOptInt "vflag" v2
    let name ← asOptStr "name" v4
    let text ← asOptInt "text" v6
    .ok ⟨vflag, name, text⟩
  | [_, _, _, _, _, _, _] => .error "Invalid startline event"
  | _ => .error "Invalid length"

/-- `StartlineEvent.dump_as_list`: the dummy form is chosen exactly
when `vflag` is `None`. -/
def encodeStartlineEvent (e : StartlineEvent) : Value :=
  match e.vflag with
  | none => .arr [.str "startline"]
  | some v => .arr [.str "startline", .str "vflag", .int v,
      .str "name", encOptStr e.name, .str "text", encOptInt e.text]

/-- One entry of an `update`/`revupdate` list:
`Union[Instruction, DataItemDetails]`. -/
inductive UpdateEntry where
  | instr : Instruction → UpdateEntry
  | details : DataItemDetails → UpdateEntry
deriving Repr

/-- The per-element classifier inside `EnvUpdateEvent.parse_list`:
`instruction_map[item[0]](item) if isinstance(item, list) else
DataItemDetails.model_validate(item)`. -/
def decodeUpdateEntry (item : Value) : Except String UpdateEntry :=
  match item with
  | .arr _ => (decodeInstruction item).map .instr
  | _ => (decodeDataItemDetails item).map .details

def encodeUpdateEntry : UpdateEntry → Value
  | .instr i => encodeInstruction i
  | .details d => encodeDataItemDetails d

/-- The value stored in `key_value_pairs` for one scanned pair: the
comprehension already replaced list values of the four special keys by
decoded lists; everything else is kept raw. -/
inductive EnvVal where
  | instrs : List Instruction → EnvVal
  | entries : List UpdateEntry → EnvVal
  | raw : Value → EnvVal
deriving Repr

def processEnvPair (k v : Value) : Except String EnvVal :=
  match k with
  | .str s =>
    if s == "update" || s == "revupdate" then
      match v with
      | .arr xs => (xs.mapM decodeUpdateEntry).map .entries
      | _ => .ok (.raw v)
    else if s == "pretrans" || s == "revpretrans" then
      match v with
      | .arr xs => (xs.mapM decodeInstruction).map .instrs
      | _ => .ok (.raw v)
    else .ok (.raw v)
  | _ => .ok (.raw v)

/-- Scan the tail of an `envupdate` array two elements at a time (its
length is even when this is reached). -/
def envPairs : List Value → Except String (List (Value × EnvVal))
  | [] => .ok []
  | [_] => .error "Invalid length"
  | k :: v :: rest => do
    let pv ← processEnvPair k v
    let ps ← envPairs rest
    .ok ((k, pv) :: ps)

/-- Python dict insertion with string key lookup: the last pair whose
key equals the string wins (later insertions overwrite earlier ones). -/
def lastLookupEnv (k : String) : List (Value × EnvVal) → Option EnvVal
  | [] => none
  | (q, ev) :: ps =>
    match lastLookupEnv k ps with
    | some r => some r
    | none =>
      match q with
      | .str s => if s == k then some ev else none
      | _ => none

/-- Field validation of `Optional[List[Instruction]]` over a stored
slot. -/
def envOptInstrs (k : String) : Option EnvVal → Except String (Option (List Instruction))
  | none => .ok none
  | some (.instrs l) => .ok (some l)
  | some (.raw .null) => .ok none
  | some _ => .error (k ++ ": not a list of instructions")

/-- Field validation of the required `update` list. -/
def envReqEntries (k : String) : Option EnvVal → Except String (List UpdateEntry)
  | some (.entries l) => .ok l
  | none => .error (k ++ ": field required")
  | some _ => .error (k ++ ": not a list")

def envOptEntries (k : String) : Option EnvVal → Except String (Option (List UpdateEntry))
  | none => .ok none
  | some (.entries l) => .ok (some l)
  | some (.raw .null) => .ok none
  | some _ => .error (k ++ ": not a list")

def envOptWait : Option EnvVal → Except String (Option Wait)
  | none => .ok none
  | some (.raw .null) => .ok none
  | some (.raw v) => (decodeWait v).map some
  | some _ => .error "wait: not an object"

def envOptTransform : Option EnvVal → Except String (Option Transform)
  | none => .ok none
  | some (.raw .null) => .ok none
  | some (.raw v) => (decodeTransform v).map some
  | some _ => .error "trans: not an object"

def envOptMsgoff : Option EnvVal → Except String (Option Int)
  | none => .ok none
  | some (.raw .null) => .ok none
  | some (.raw (.int n)) => .ok (some n)
  | some _ => .error "msgoff: not an integer"

/-- `EnvUpdateEvent`. -/
structure EnvUpdateEvent where
  pretrans : Option (List Instruction)
  update : List UpdateEntry
  revpretrans : Option (List Instruction)
  revupdate : Option (List UpdateEntry)
  wait : Option Wait
  trans : Option Transform
  msgoff : Option Int
deriving Repr

/-- `EnvUpdateEvent.parse_list` plus field validation: length at least
2, tag check, even remainder scanned as key/value pairs. -/
def decodeEnvUpdateEvent (items : List Value) : Except String EnvUpdateEvent :=
  if items.length < 2 then .error "Invalid length"
  else
    match items with
    | .str "envupdate" :: rest =>
      if rest.length % 2 != 0 then .error "Invalid length"
      else do
        let ps ← envPairs rest
        let pretrans ← envOptInstrs "pretrans" (lastLookupEnv "pretrans" ps)
        let update ← envReqEntries "update" (lastLookupEnv "update" ps)
        let revpretrans ← envOptInstrs "revpretrans" (lastLookupEnv "revpretrans" ps)
        let revupdate ← envOptEntries "revupdate" (lastLookupEnv "revupdate" ps)
        let wait ← envOptWait (lastLookupEnv "wait" ps)
        let trans ← envOptTransform (lastLookupEnv "trans" ps)
        let msgoff ← envOptMsgoff (lastLookupEnv "msgoff" ps)
        .ok ⟨pretrans, update, revpretrans, revupdate, wait, trans, msgoff⟩
    | _ => .error "Invalid envupdate event"

/-- The serialized value of an `envupdate` key/value slot assignment: a
valuation of the canonical keys by seven optional slots. -/
def slotValue (pre : Option (List Instruction)) (upd : Option (List UpdateEntry))
    (rpre : Option (List Instruction)) (rupd : Option (List UpdateEntry))
    (w : Option Wait) (t : Option Transform) (mo : Option Int)
    (k : String) : Option Value :=
  if k == "pretrans" then pre.map (fun l => Value.arr (l.map encodeInstruction))
  else if k == "update" then upd.map (fun l => Value.arr (l.map encodeUpdateEntry))
  else if k == "revpretrans" then rpre.map (fun l => Value.arr (l.map encodeInstruction))
  else if k == "revupdate" then rupd.map (fun l => Value.arr (l.map encodeUpdateEntry))
  else if k == "wait" then w.map encodeWait
  else if k == "trans" then t.map encodeTransform
  else if k == "msgoff" then mo.map Value.int
  else none

/-- The serialized value of each `EnvUpdateEvent` field, `None` when the
field is absent (`update` is required, hence always present). -/
def envFieldValue (e : EnvUpdateEvent) (k : String) : Option Value :=
  slotValue e.pretrans (some e.update) e.revpretrans e.revupdate e.wait
    e.trans e.msgoff k

/-- The fixed canonical key order of `EnvUpdateEvent.dump_as_list`. -/
def envCanonicalKeys : List String :=
  ["pretrans", "update", "revpretrans", "revupdate", "wait", "trans", "msgoff"]

/-- `EnvUpdateEvent.dump_as_list`: the tag, then for each key of the
canonical order whose value is not `None`, the key and the value. -/
def encodeEnvUpdateEvent (e : EnvUpdateEvent) : Value :=
  .arr (.str "envupdate" ::
    (envCanonicalKeys.foldr (fun k acc =>
      match envFieldValue e k with
      | some v => .str k :: v :: acc
      | none => acc) []))

/-- `DelayRunEvent`. -/
structure DelayRunEvent where
  label : String
  delay_event_type : String
  update : List DataItemDetails
  revupdate : List DataItemDetails
  trans : Option Transform
deriving Repr

/-- Pair the tail of a `delayrun` array (even length by the arity
check). -/
def pairList : List Value → List (Value × Value)
  | [] => []
  | [_] => []
  | k :: v :: rest => (k, v) :: pairList rest

def lastLookupV (k : String) : List (Value × Value) → Option Value
  | [] => none
  | (q, w) :: ps =>
    match lastLookupV k ps with
    | some r => some r
    | none =>
      match q with
      | .str s => if s == k then some w else none
      | _ => none

/-- Field validation of a required `List[DataItemDetails]` slot. -/
def delayReqDetails (k : String) : Option Value → Except String (List DataItemDetails)
  | some (.arr xs) => xs.mapM decodeDataItemDetails
  | some _ => .error (k ++ ": not a list")
  | none => .error (k ++ ": field required")

def delayOptTransform : Option Value → Except String (Option Transform)
  | none => .ok none
  | some .null => .ok none
  | some v => (decodeTransform v).map some

/-- `DelayRunEvent.parse_list` plus field validation: length 7 or 9,
tag check, `label` and `delay_event_type` positional, remaining pairs
keyed. -/
def decodeDelayRunEvent (items : List Value) : Except String DelayRunEvent :=
  if items.length = 7 ∨ items.length = 9 then
    match items with
    | .str "delayrun" :: l :: t :: rest => do
      let label ← asStr "label" l
      let det ← asStr "delay_event_type" t
      let ps := pairList rest
      let update ← delayReqDetails "update" (lastLookupV "update" ps)
      let revupdate ← delayReqDetails "revupdate" (lastLookupV "revupdate" ps)
      let trans ← delayOptTransform (lastLookupV "trans" ps)
      .ok ⟨label, det, update, revupdate, trans⟩
    | _ => .error "Invalid delayrun event"
  else .error "Invalid length"

/-- `DelayRunEvent.dump_as_list`: `update` and `revupdate` are required
fields, so only `trans` is conditional. -/
def encodeDelayRunEvent (e : DelayRunEvent) : Value :=
  .arr ([.str "delayrun", .str e.label, .str e.delay_event_type,
    .str "update", .arr (e.update.map encodeDataItemDetails),
    .str "revupdate", .arr (e.revupdate.map encodeDataItemDetails)] ++
    (match e.trans with
     | some t => [.str "trans", encodeTransform t]
     | none => []))

/-- `WaitEvent`: length 3; position 1 is not inspected. -/
structure WaitEvent where
  time : Int
deriving Repr

def decodeWaitEvent (items : List Value) : Except String WaitEvent :=
  match items with
  | [.str "wait", _, v2] => (asInt "time" v2).map WaitEvent.mk
  | [_, _, _] => .error "Invalid wait event"
  | _ => .error "Invalid length"

def encodeWaitEvent (e : WaitEvent) : Value :=
  .arr [.str "wait", .str "time", .int e.time]

/-- `ScnChartEvent`: length 3, positional fields. -/
structure ScnChartEvent where
  action : String
  name : String
deriving Repr

def decodeScnChartEvent (items : List Value) : Except String ScnChartEvent :=
  match items with
  | [.str "scnchart", v1, v2] => do
    let action ← asStr "action" v1
    let name ← asStr "name" v2
    .ok ⟨action, name⟩
  | [_, _, _] => .error "Invalid scnchart event"
  | _ => .error "Invalid length"

def encodeScnChartEvent (e : ScnChartEvent) : Value :=
  .arr [.str "scnchart", .str e.action, .str e.name]

/-- `VoiceEffectEvent`: length 3, positional fields. -/
structure VoiceEffectEvent where
  action : String
  status : String
deriving Repr

def decodeVoiceEffectEvent (items : List Value) : Except String VoiceEffectEvent :=
  match items with
  | [.str "voeff", v1, v2] => do
    let action ← asStr "action" v1
    let status ← asStr "status" v2
    .ok ⟨action, status⟩
  | [_, _, _] => .error "Invalid voice effect event"
  | _ => .error "Invalid length"

def encodeVoiceEffectEvent (e : VoiceEffectEvent) : Value :=
  .arr [.str "voeff", .str e.action, .str e.status]

/-- `ChapterEvent`: length at least 2, tail kept verbatim. -/
structure ChapterEvent where
  values : List Value
deriving Repr

def decodeChapterEvent (items : List Value) : Except String ChapterEvent :=
  match items with
  | .str "chapter" :: v :: rest => .ok ⟨v :: rest⟩
  | _ :: _ :: _ => .error "Invalid chapter event"
  | _ => .error "Invalid length"

def encodeChapterEvent (e : ChapterEvent) : Value :=
  .arr (.str "chapter" :: e.values)

/-- `MsgOffEvent`: length 1; the stored `event_type` is the literal
tag. -/
def decodeMsgOffEvent (items : List Value) : Except String Unit :=
  match items with
  | [.str "msgoff"] => .ok ()
  | [_] => .error "Invalid msgoff event"
  | _ => .error "Invalid length"

/-- `MesWinChangeEvent`: length 3; position 1 is not inspected. -/
structure MesWinChangeEvent where
  type : String
deriving Repr

def decodeMesWinChangeEvent (items : List Value) : Except String MesWinChangeEvent :=
  match items with
  | [.str "_meswinchange", _, v2] => (asStr "type" v2).map MesWinChangeEvent.mk
  | [_, _, _] => .error "Invalid meswinchange event"
  | _ => .error "Invalid length, expected 3"

def encodeMesWinChangeEvent (e : MesWinChangeEvent) : Value :=
  .arr [.str "_meswinchange", .str "type", .str e.type]

/-- `QuickMenuEvent`: length 3, positional fields. -/
structure QuickMenuEvent where
  action : String
  status : String
deriving Repr

def decodeQuickMenuEvent (items : List Value) : Except String QuickMenuEvent :=
  match items with
  | [.str "quickmenu", v1, v2] => do
    let action ← asStr "action" v1
    let status ← asStr "status" v2
    .ok ⟨action, status⟩
  | [_, _, _] => .error "Invalid quickmenu event"
  | _ => .error "Invalid length"

def encodeQuickMenuEvent (e : QuickMenuEvent) : Value :=
  .arr [.str "quickmenu", .str e.action, .str e.status]

/-- `ErEvent`: length at least 2, tail kept verbatim. -/
structure ErEvent where
  values : List Value
deriving Repr

def decodeErEvent (items : List Value) : Except String ErEvent :=
  match items with
  | .str "er" :: v :: rest => .ok ⟨v :: rest⟩
  | _ :: _ :: _ => .error "Invalid er event"
  | _ => .error "Invalid length"

def encodeErEvent (e : ErEvent) : Value :=
  .arr (.str "er" :: e.values)

/-- `EndRecollectionEvent`: length 1. -/
def decodeEndRecollectionEvent (items : List Value) : Except String Unit :=
  match items with
  | [.str "endrecollection"] => .ok ()
  | [_] => .error "Invalid endrecollection event"
  | _ => .error "Invalid length"

/-- `PlayVoiceEvent`: length exactly 9; reads positions 2, 4, 6, 8. -/
structure PlayVoiceEvent where
  loop : Int
  name : String
  type : Int
  voice : String
deriving Repr

def decodePlayVoiceEvent (items : List Value) : Except String PlayVoiceEvent :=
  match items with
  | [.str "playvoice", _, v2, _, v4, _, v6, _, v8] => do
    let loop ← asInt "loop" v2
    let name ← asStr "name" v4
    let type ← asInt "type" v6
    let voice ← asStr "voice" v8
    .ok ⟨loop, name, type, voice⟩
  | [_, _, _, _, _, _, _, _, _] => .error "Invalid playvoice event"
  | _ => .error "Invalid length"

def encodePlayVoiceEvent (e : PlayVoiceEvent) : Value :=
  .arr [.str "playvoice", .str "loop", .int e.loop, .str "name", .str e.name,
    .str "type", .int e.type, .str "voice", .str e.voice]

/-- `StopVoiceEvent`: length 5; reads positions 2 and 4. -/
structure StopVoiceEvent where
  name : String
  type : Int
deriving Repr

def decodeStopVoiceEvent (items : List Value) : Except String StopVoiceEvent :=
  match items with
  | [.str "stopvoice", _, v2, _, v4] => do
    let name ← asStr "name" v2
    let type ← asInt "type" v4
    .ok ⟨name, type⟩
  | [_, _, _, _, _] => .error "Invalid stopvoice event"
  | _ => .error "Invalid length"

def encodeStopVoiceEvent (e : StopVoiceEvent) : Value :=
  .arr [.str "stopvoice", .str "name", .str e.name, .str "type", .int e.type]

/-- `ExitEvent`: length 7; reads positions 2, 4 and 6. -/
structure ExitEvent where
  storage : String
  target : String
  eval : String
deriving Repr

def decodeExitEvent (items : List Value) : Except String ExitEvent :=
  match items with
  | [.str "exit", _, v2, _, v4, _, v6] => do
    let storage ← asStr "storage" v2
    let target ← asStr "target" v4
    let ev ← asStr "eval" v6
    .ok ⟨storage, target, ev⟩
  | [_, _, _, _, _, _, _] => .error "Invalid exit event"
  | _ => .error "Invalid length"

def encodeExitEvent (e : ExitEvent) : Value :=
  .arr [.str "exit", .str "storage", .str e.storage, .str "target",
    .str e.target, .str "eval", .str e.eval]

/-- `BeginSkipEvent`: length 1. -/
def decodeBeginSkipEvent (items : List Value) : Except String Unit :=
  match items with
  | [.str "beginskip"] => .ok ()
  | [_] => .error "Invalid beginskip event"
  | _ => .error "Invalid length"

/-- `EndSkipEvent`: length 1. -/
def decodeEndSkipEvent (items : List Value) : Except String Unit :=
  match items with
  | [.str "endskip"] => .ok ()
  | [_] => .error "Invalid endskip event"
  | _ => .error "Invalid length"

/-- `SysVoiceEvent`: length 7; reads positions 2, 4 and 6. -/
structure SysVoiceEvent where
  eyecatch : String
  name : String
  chara : String
deriving Repr

def decodeSysVoiceEvent (items : List Value) : Except String SysVoiceEvent :=
  match items with
  | [.str "sysvoice", _, v2, _, v4, _, v6] => do
    let eyecatch ← asStr "eyecatch" v2
    let name ← asStr "name" v4
    let chara ← asStr "chara" v6
    .ok ⟨eyecatch, name, chara⟩
  | [_, _, _, _, _, _, _] => .error "Invalid sysvoice event"
  | _ => .error "Invalid length"

def encodeSysVoiceEvent (e : SysVoiceEvent) : Value :=
  .arr [.str "sysvoice", .str "eyecatch", .str e.eyecatch, .str "name",
    .str e.name, .str "chara", .str e.chara]

/-- The `Event` root union: the eighteen typed events plus the raw
`FallbackEvent` passthrough. -/
inductive Event where
  | startline : StartlineEvent → Event
  | envupdate : EnvUpdateEvent → Event
  | delayrun : DelayRunEvent → Event
  | wait : WaitEvent → Event
  | scnchart : ScnChartEvent → Event
  | voeff : VoiceEffectEvent → Event
  | chapter : ChapterEvent → Event
  | msgoff : Event
  | meswinchange : MesWinChangeEvent → Event
  | quickmenu : QuickMenuEvent → Event
  | er : ErEvent → Event
  | endrecollection : Event
  | playvoice : PlayVoiceEvent → Event
  | stopvoice : StopVoiceEvent → Event
  | exit : ExitEvent → Event
  | beginskip : Event
  | endskip : Event
  | sysvoice : SysVoiceEvent → Event
  | fallback : List Value → Event
deriving Repr

/-- The keys of the `event_map` registry, in source order. -/
def eventTags : List String :=
  ["startline", "envupdate", "delayrun", "wait", "scnchart", "voeff",
   "chapter", "msgoff", "_meswinchange", "quickmenu", "er",
   "endrecollection", "playvoice", "stopvoice", "exit", "beginskip",
   "endskip", "sysvoice"]

/-- `event_map[data[0]](data)` for a tag known to be in the registry. -/
def decodeEventByTag (t : String) (items : List Value) : Except String Event :=
  if t == "startline" then (decodeStartlineEvent items).map .startline
  else if t == "envupdate" then (decodeEnvUpdateEvent items).map .envupdate
  else if t == "delayrun" then (decodeDelayRunEvent items).map .delayrun
  else if t == "wait" then (decodeWaitEvent items).map .wait
  else if t == "scnchart" then (decodeScnChartEvent items).map .scnchart
  else if t == "voeff" then (decodeVoiceEffectEvent items).map .voeff
  else if t == "chapter" then (decodeChapterEvent items).map .chapter
  else if t == "msgoff" then (decodeMsgOffEvent items).map (fun _ => .msgoff)
  else if t == "_meswinchange" then (decodeMesWinChangeEvent items).map .meswinchange
  else if t == "quickmenu" then (decodeQuickMenuEvent items).map .quickmenu
  else if t == "er" then (decodeErEvent items).map .er
  else if t == "endrecollection" then (decodeEndRecollectionEvent items).map (fun _ => .endrecollection)
  else if t == "playvoice" then (decodePlayVoiceEvent items).map .playvoice
  else if t == "stopvoice" then (decodeStopVoiceEvent items).map .stopvoice
  else if t == "exit" then (decodeExitEvent items).map .exit
  else if t == "beginskip" then (decodeBeginSkipEvent items).map (fun _ => .beginskip)
  else if t == "endskip" then (decodeEndSkipEvent items).map (fun _ => .endskip)
  else if t == "sysvoice" then (decodeSysVoiceEvent items).map .sysvoice
  else .error ("KeyError: " ++ t)

/-- `Event.parse` plus union validation: an empty list is rejected; a
head that is not a registry key (including a non-string head) keeps the
whole list as the raw fallback; a registry key dispatches and any error
it raises propagates (no fallback for recognized tags). -/
def decodeEvent (v : Value) : Except String Event :=
  match v with
  | .arr [] => .error "Invalid length"
  | .arr (h :: rest) =>
    match h with
    | .str t =>
      if eventTags.contains t then decodeEventByTag t (.str t :: rest)
      else .ok (.fallback (.str t :: rest))
    | _ => .ok (.fallback (h :: rest))
  | _ => .error "Event: no union member matched"

/-- The diagnostics `Event.parse` prints for a given input: exactly one
warning, on the unknown-tag branch. -/
def eventWarnings (v : Value) : List String :=
  match v with
  | .arr (h :: _) =>
    match h with
    | .str t =>
      if eventTags.contains t then []
      else ["Warning: Unknown event type: " ++ t]
    | _ => ["Warning: Unknown event type"]
  | _ => []

/-- Serialization of the `Event` union: each model serializer, and the
raw list for the fallback. -/
def encodeEvent : Event → Value
  | .startline e => encodeStartlineEvent e
  | .envupdate e => encodeEnvUpdateEvent e
  | .delayrun e => encodeDelayRunEvent e
  | .wait e => encodeWaitEvent e
  | .scnchart e => encodeScnChartEvent e
  | .voeff e => encodeVoiceEffectEvent e
  | .chapter e => encodeChapterEvent e
  | .msgoff => .arr [.str "msgoff"]
  | .meswinchange e => encodeMesWinChangeEvent e
  | .quickmenu e => encodeQuickMenuEvent e
  | .er e => encodeErEvent e
  | .endrecollection => .arr [.str "endrecollection"]
  | .playvoice e => encodePlayVoiceEvent e
  | .stopvoice e => encodeStopVoiceEvent e
  | .exit e => encodeExitEvent e
  | .beginskip => .arr [.str "beginskip"]
  | .endskip => .arr [.str "endskip"]
  | .sysvoice e => encodeSysVoiceEvent e
  | .fallback items => .arr items

/-! ## Line / Scene codec (`scene.py`) and document assembler (`scn.py`) -/

/-- The `Union[int, SnapshotPoint]` stored in `text_index_a`. -/
inductive TextIndexA where
  | int : Int → TextIndexA
  | point : SnapshotPoint → TextIndexA
deriving Repr

def encodeTextIndexA : TextIndexA → Value
  | .int n => .int n
  | .point p => encodeSnapshotPoint p

/-- `SnapshotPointLine`: a 5- or 8-element array zipped against the
fixed key list, the missing positions padded with `None`; a mapping in
position 1 is decoded as a `SnapshotPoint`. -/
structure SnapshotPointLine where
  index : Int
  text_index_a : TextIndexA
  text_index_b : Option Int
  flag : Option Int
  original_line : Int
  voice_tag : Option Int
  unused_a : Value
  unused_b : Value
deriving Repr

def decodeTextIndexA (v : Value) : Except String TextIndexA :=
  match v with
  | .int n => .ok (.int n)
  | .obj _ => (decodeSnapshotPoint v).map .point
  | _ => .error "text_index_a: no union member matched"

def decodeSnapshotPointLine (items : List Value) : Except String SnapshotPointLine :=
  match items with
  | [e0, e1, e2, e3, e4] => do
    let index ← asInt "index" e0
    let tia ← decodeTextIndexA e1
    let tib ← asOptInt "text_index_b" e2
    let flag ← asOptInt "flag" e3
    let ol ← asInt "original_line" e4
    .ok ⟨index, tia, tib, flag, ol, none, .null, .null⟩
  | [e0, e1, e2, e3, e4, e5, e6, e7] => do
    let index ← asInt "index" e0
    let tia ← decodeTextIndexA e1
    let tib ← asOptInt "text_index_b" e2
    let flag ← asOptInt "flag" e3
    let ol ← asInt "original_line" e4
    let vt ← asOptInt "voice_tag" e5
    .ok ⟨index, tia, tib, flag, ol, vt, e6, e7⟩
  | _ => .error "Line must have 5 or 8 elements"

/-- `SnapshotPointLine.dump_as_list`: the three trailing positions are
emitted exactly when `text_index_b` is not `None`. -/
def encodeSnapshotPointLine (l : SnapshotPointLine) : Value :=
  .arr ([.int l.index, encodeTextIndexA l.text_index_a,
    encOptInt l.text_index_b, encOptInt l.flag, .int l.original_line] ++
    (if l.text_index_b ≠ none then
      [encOptInt l.voice_tag, l.unused_a, l.unused_b]
    else []))

/-- The `Line` root union: snapshot point line, event, bare integer
(`TextIndexLine`), bare string (`ResourceLine`). -/
inductive Line where
  | snapshotPointLine : SnapshotPointLine → Line
  | event : Event → Line
  | textIndex : Int → Line
  | resource : String → Line
deriving Repr

/-- `Line.parse_list` plus union validation: a bare integer or string
passes through; a non-empty list dispatches on the Python type of its
head (a string head goes to the event codec, an integer head — and a
boolean head, since Python `bool` is an `int` subtype — goes to the
snapshot point line codec, whose integer field validation then rejects
the boolean). -/
def decodeLine (v : Value) : Except String Line :=
  match v with
  | .int n => .ok (.textIndex n)
  | .str s => .ok (.resource s)
  | .arr [] => .error "Line must have at least 1 element"
  | .arr (h :: rest) =>
    match h with
    | .str _ => (decodeEvent (.arr (h :: rest))).map .event
    | .int _ => (decodeSnapshotPointLine (h :: rest)).map .snapshotPointLine
    | .bool _ => (decodeSnapshotPointLine (h :: rest)).map .snapshotPointLine
    | _ => .error "Line must be a list of strings or integers"
  | _ => .error "Line: no union member matched"

def encodeLine : Line → Value
  | .snapshotPointLine l => encodeSnapshotPointLine l
  | .event e => encodeEvent e
  | .textIndex n => .int n
  | .resource s => .str s

/-- `Dialogue`: a list of length at least 2, zipped against three keys
(elements past position 2 are discarded by the zip), position 2 padded
with `None` for a 2-element list. -/
structure Dialogue where
  display_name : Option String
  content : String
  length : Option Int
deriving Repr

def decodeDialogue (v : Value) : Except String Dialogue :=
  match v with
  | .arr (e0 :: e1 :: rest) => do
    let dn ← asOptStr "display_name" e0
    let content ← asStr "content" e1
    let length ← asOptInt "length" (rest.headD .null)
    .ok ⟨dn, content, length⟩
  | .arr _ => .error "A dialogue must have at least 2 elements"
  | _ => .error "Dialogue: not a list"

/-- `Dialogue.dump_as_list`: `length` is appended exactly when it is not
`None`. -/
def encodeDialogue (d : Dialogue) : Value :=
  .arr ([encOptStr d.display_name, .str d.content] ++
    (match d.length with
     | some n => [Value.int n]
     | none => []))

/-- `VoiceData` (plain object model, no list form). -/
structure VoiceData where
  name : String
  pan : Int
  type : Int
  voice : String
deriving Repr

def decodeVoiceData (v : Value) : Except String VoiceData :=
  match v with
  | .obj kvs => do
    let name ← reqStr "name" kvs
    let pan ← reqInt "pan" kvs
    let type ← reqInt "type" kvs
    let voice ← reqStr "voice" kvs
    .ok ⟨name, pan, type, voice⟩
  | _ => .error "VoiceData: not an object"

def encodeVoiceData (d : VoiceData) : Value :=
  .obj [("name", .str d.name), ("pan", .int d.pan), ("type", .int d.type),
    ("voice", .str d.voice)]

/-- `Text`: a list of exactly 5 elements zipped against the field
keys. -/
structure Text where
  character : Option String
  dialogues : List Dialogue
  voices : Option (List VoiceData)
  value : Int
  snapshot_point : SnapshotPoint
deriving Repr

def decodeText (v : Value) : Except String Text :=
  match v with
  | .arr [e0, e1, e2, e3, e4] => do
    let character ← asOptStr "character" e0
    let dialogues ←
      match e1 with
      | .arr xs => xs.mapM decodeDialogue
      | _ => Except.error "dialogues: not a list"
    let voices ←
      match e2 with
      | .null => Except.ok none
      | .arr xs => (xs.mapM decodeVoiceData).map some
      | _ => Except.error "voices: not a list"
    let value ← asInt "value" e3
    let sp ← decodeSnapshotPoint e4
    .ok ⟨character, dialogues, voices, value, sp⟩
  | .arr _ => .error "Line must have 5 elements"
  | _ => .error "Text: not a list"

def encodeText (t : Text) : Value :=
  .arr [encOptStr t.character, .arr (t.dialogues.map encodeDialogue),
    (match t.voices with
     | some vs => .arr (vs.map encodeVoiceData)
     | none => .null),
    .int t.value, encodeSnapshotPoint t.snapshot_point]

/-- `Next` (plain object model). -/
structure Next where
  storage : String
  target : String
  type : Int
deriving Repr

def decodeNext (v : Value) : Except String Next :=
  match v with
  | .obj kvs => do
    let storage ← reqStr "storage" kvs
    let target ← reqStr "target" kvs
    let type ← reqInt "type" kvs
    .ok ⟨storage, target, type⟩
  | _ => .error "Next: not an object"

def encodeNext (n : Next) : Value :=
  .obj [("storage", .str n.storage), ("target", .str n.target),
    ("type", .int n.type)]

/-- `title: Union[List[str], str]`. -/
inductive SceneTitle where
  | multi : List String → SceneTitle
  | single : String → SceneTitle
deriving Repr

def decodeSceneTitle (v : Value) : Except String SceneTitle :=
  match v with
  | .str s => .ok (.single s)
  | .arr xs => (xs.mapM (asStr "title")).map .multi
  | _ => .error "title: no union member matched"

def encodeSceneTitle : SceneTitle → Value
  | .multi xs => .arr (xs.map Value.str)
  | .single s => .str s

/-- Element check for `Union[KeyValuePair, str]`
(`preevals`/`postevals` entries). -/
def isArrOrStr : Value → Bool
  | .arr _ => true
  | .str _ => true
  | _ => false

/-- `Scene` (pydantic defaults: unknown keys ignored). -/
structure Scene where
  firstLine : Int
  jumplabels : Option (List (String × Int))
  label : String
  lines : List Line
  nexts : List Next
  preevals : Option (List Value)
  postevals : Option (List Value)
  spCount : Int
  texts : Option (List Text)
  title : SceneTitle
  version : Int
deriving Repr

/-- `Optional[Dict[str, int]]` field. -/
def optIntDict (k : String) (kvs : Entries) :
    Except String (Option (List (String × Int))) :=
  match getKey k kvs with
  | none => .ok none
  | some .null => .ok none
  | some (.obj pairs) =>
    (pairs.mapM (fun (p : String × Value) =>
      match p.2 with
      | .int n => Except.ok (p.1, n)
      | _ => Except.error (k ++ ": value not an integer"))).map some
  | some _ => .error (k ++ ": not an object")

/-- `Optional[List[Union[KeyValuePair, str]]]` field. -/
def optEvalList (k : String) (kvs : Entries) : Except String (Option (List Value)) :=
  match getKey k kvs with
  | none => .ok none
  | some .null => .ok none
  | some (.arr xs) =>
    if xs.all isArrOrStr then .ok (some xs) else .error (k ++ ": bad element")
  | some _ => .error (k ++ ": not a list")

def decodeScene (v : Value) : Except String Scene :=
  match v with
  | .obj kvs => do
    let firstLine ← reqInt "firstLine" kvs
    let jumplabels ← optIntDict "jumplabels" kvs
    let label ← reqStr "label" kvs
    let lines ←
      match getKey "lines" kvs with
      | some (.arr xs) => xs.mapM decodeLine
      | some _ => Except.error "lines: not a list"
      | none => Except.error "lines: field required"
    let nexts ←
      match getKey "nexts" kvs with
      | some (.arr xs) => xs.mapM decodeNext
      | some _ => Except.error "nexts: not a list"
      | none => Except.error "nexts: field required"
    let preevals ← optEvalList "preevals" kvs
    let postevals ← optEvalList "postevals" kvs
    let spCount ← reqInt "spCount" kvs
    let texts ←
      match getKey "texts" kvs with
      | none => Except.ok none
      | some .null => Except.ok none
      | some (.arr xs) => (xs.mapM decodeText).map some
      | some _ => Except.error "texts: not a list"
    let title ← reqModel "title" decodeSceneTitle kvs
    let version ← reqInt "version" kvs
    .ok ⟨firstLine, jumplabels, label, lines, nexts, preevals, postevals,
      spCount, texts, title, version⟩
  | _ => .error "Scene: not an object"

/-- `Scene.dump_without_none`: the eleven keys in declaration order,
skipping every field whose value is `None`. -/
def encodeScene (s : Scene) : Value :=
  .obj ([("firstLine", Value.int s.firstLine)] ++
    (match s.jumplabels with
     | some js => [("jumplabels", Value.obj (js.map (fun p => (p.1, Value.int p.2))))]
     | none => []) ++
    [("label", Value.str s.label),
     ("lines", Value.arr (s.lines.map encodeLine)),
     ("nexts", Value.arr (s.nexts.map encodeNext))] ++
    (match s.preevals with
     | some xs => [("preevals", Value.arr xs)]
     | none => []) ++
    (match s.postevals with
     | some xs => [("postevals", Value.arr xs)]
     | none => []) ++
    [("spCount", Value.int s.spCount)] ++
    (match s.texts with
     | some ts => [("texts", Value.arr (ts.map encodeText))]
     | none => []) ++
    [("title", encodeSceneTitle s.title),
     ("version", Value.int s.version)])

/-- `Language: Literal["en", "cn", "tw"]`. -/
def languageTags : List String := ["en", "cn", "tw"]

def decodeLanguage (v : Value) : Except String String :=
  match v with
  | .str s => if languageTags.contains s then .ok s else .error "language: bad literal"
  | _ => .error "language: not a string"

/-- Value check for `Union[str, List[int]]` (`llmap` entry values). -/
def isLLMapVal : Value → Bool
  | .str _ => true
  | .arr xs => xs.all (fun x => match x with | .int _ => true | _ => false)
  | _ => false

def decodeLLMapEntry (v : Value) : Except String Entries :=
  match v with
  | .obj kvs =>
    if kvs.all (fun p => isLLMapVal p.2) then .ok kvs
    else .error "llmap: bad value"
  | _ => .error "llmap: not an object"

/-- `Scn` (pydantic defaults: unknown keys ignored; `model_dump` is
called with `by_alias=True` and `exclude_none=False`). -/
structure Scn where
  hash : String
  languages : List String
  llmap : List Entries
  name : String
  outlines : List Value
  scenes : List Scene
deriving Repr

def decodeScn (v : Value) : Except String Scn :=
  match v with
  | .obj kvs => do
    let hash ← reqStr "hash" kvs
    let languages ←
      match getKey "languages" kvs with
      | some (.arr xs) => xs.mapM decodeLanguage
      | some _ => Except.error "languages: not a list"
      | none => Except.error "languages: field required"
    let llmap ←
      match getKey "llmap" kvs with
      | some (.arr xs) => xs.mapM decodeLLMapEntry
      | some _ => Except.error "llmap: not a list"
      | none => Except.error "llmap: field required"
    let name ← reqStr "name" kvs
    let outlines ←
      match getKey "outlines" kvs with
      | some (.arr xs) => Except.ok xs
      | some _ => Except.error "outlines: not a list"
      | none => Except.error "outlines: field required"
    let scenes ←
      match getKey "scenes" kvs with
      | some (.arr xs) => xs.mapM decodeScene
      | some _ => Except.error "scenes: not a list"
      | none => Except.error "scenes: field required"
    .ok ⟨hash, languages, llmap, name, outlines, scenes⟩
  | _ => .error "Scn: not an object"

def encodeScn (d : Scn) : Value :=
  .obj [("hash", .str d.hash),
    ("languages", .arr (d.languages.map Value.str)),
    ("llmap", .arr (d.llmap.map Value.obj)),
    ("name", .str d.name),
    ("outlines", .arr d.outlines),
    ("scenes", .arr (d.scenes.map encodeScene))]

/-! ## Legitimate instances of the format

A value is a *legitimate instance* of the SCN format when it is shaped
the way a legitimately produced document is: every record carries its
required keys with kind-correct values, open records may carry extra
keys (after the declared ones, with no duplicates and no collision with
declared names), arrays have one of their permitted arities with the
conditional-presence invariants satisfied, object keys appear in the
canonical (declaration) order the engine and this codec emit, and
optional object fields of closed-dump records are present exactly when
they carry a value (no null placeholders where the encoder omits the
key).  Unrecognized event tags, unrecognized snapshot-object class
names and extra object keys are all allowed, as the format is
forward-compatible at those points. -/

def isOptStrV : Value → Bool
  | .str _ => true
  | .null => true
  | _ => false

def isOptIntV : Value → Bool
  | .int _ => true
  | .null => true
  | _ => false

def isOptBoolV : Value → Bool
  | .bool _ => true
  | .null => true
  | _ => false

/-- Decoded form of an `Optional[str]` value. -/
def vOptStr : Value → Option String
  | .str s => some s
  | _ => none

def vOptInt : Value → Option Int
  | .int n => some n
  | _ => none

def vOptBool : Value → Option Bool
  | .bool b => some b
  | _ => none

def distinctKeys : List String → Bool
  | [] => true
  | k :: rest => !(rest.contains k) && distinctKeys rest

/-- Legitimate extras bag: keys distinct and disjoint from the declared
names of the enclosing model. -/
def legitExtras (forbidden : List String) (extras : Entries) : Bool :=
  extras.all (fun p => !(forbidden.contains p.1)) && distinctKeys (extras.map Prod.fst)

/-- Optional-model field value: null or a legitimate instance. -/
def legitOpt (p : Value → Bool) : Value → Bool
  | .null => true
  | v => p v

/-- `Optional[List[KeyValuePair]]` value. -/
def isOptArrOfArr : Value → Bool
  | .null => true
  | .arr xs => xs.all isArr
  | _ => false

def isOptArrOfArrOrNull : Value → Bool
  | .null => true
  | .arr xs => xs.all isArrOrNull
  | _ => false

def isOptActionList : Value → Bool
  | .null => true
  | .arr xs => xs.all isStrOrNull
  | _ => false

def legitReplay : Value → Bool
  | .obj (("filename", f) :: ("loop", l) :: ("start", _) :: ("state", s) ::
      ("volume", vo) :: extras) =>
    isOptStrV f && isOptIntV l && isOptIntV s && isOptIntV vo &&
    legitExtras ["filename", "loop", "start", "state", "volume"] extras
  | _ => false

def legitUpdate : Value → Bool
  | .obj (("state", s) :: extras) =>
    isOptIntV s && legitExtras ["state"] extras
  | _ => false

def legitTransform : Value → Bool
  | .obj (("method", m) :: ("msgoff", mo) :: ("rule", r) :: ("time", .int _) ::
      extras) =>
    isOptStrV m && isOptBoolV mo && isOptStrV r &&
    legitExtras ["method", "msgoff", "rule", "time"] extras
  | _ => false

def legitImageFileOptions : Value → Bool
  | .obj (("dress", d) :: ("face", f) :: ("pose", p) :: ("center", c) :: extras) =>
    isOptStrV d && isOptStrV f && isOptStrV p && isOptIntV c &&
    legitExtras ["dress", "face", "pose", "center"] extras
  | _ => false

def legitImageFileDetails : Value → Bool
  | .obj (("file", .str _) :: ("options", o) :: ("redraw", r) :: extras) =>
    legitOpt legitImageFileOptions o && isOptArrOfArr r &&
    legitExtras ["file", "options", "redraw"] extras
  | _ => false

def legitRedraw : Value → Bool
  | .obj (("disp", .int _) :: ("imageFile", i) :: ("posName", p) :: extras) =>
    legitImageFileDetails i && isOptStrV p &&
    legitExtras ["disp", "imageFile", "posName"] extras
  | _ => false

def legitBgmDetails : Value → Bool
  | .obj (("name", .str _) :: ("replay", r) :: ("update", u) :: extras) =>
    legitReplay r && legitUpdate u && legitExtras ["name", "replay", "update"] extras
  | _ => false

def legitLoopSEDetails : Value → Bool
  | .obj (("action", a) :: ("name", .str _) :: ("replay", r) :: ("trans", t) ::
      ("update", u) :: extras) =>
    isOptArrOfArr a && legitReplay r && legitOpt legitTransform t && legitUpdate u &&
    legitExtras ["action", "name", "replay", "trans", "update"] extras
  | _ => false

def legitStageDetails : Value → Bool
  | .obj (("action", a) :: ("class", .str "stage") :: ("link", lk) ::
      ("name", .str _) :: ("redraw", rd) :: ("showmode", .int _) :: ("trans", t) ::
      ("type", _) :: extras) =>
    isOptArrOfArr a && isOptStrV lk && legitRedraw rd && legitOpt legitTransform t &&
    legitExtras ["action", "class", "class_name", "link", "name", "redraw",
      "showmode", "trans", "type"] extras
  | _ => false

def legitCharacterDetails : Value → Bool
  | .obj (("action", a) :: ("hideact", ha) :: ("class", .str "character") ::
      ("link", lk) :: ("name", .str _) :: ("redraw", rd) :: ("showmode", .int _) ::
      ("trans", t) :: ("type", _) :: extras) =>
    isOptArrOfArr a && isOptArrOfArr ha && isOptStrV lk && legitOpt legitRedraw rd &&
    legitOpt legitTransform t &&
    legitExtras ["action", "hideact", "class", "class_name", "link", "name",
      "redraw", "showmode", "trans", "type"] extras
  | _ => false

def legitMsgwinDetails : Value → Bool
  | .obj (("action", a) :: ("hideact", ha) :: ("class", .str "msgwin") ::
      ("link", lk) :: ("name", .str _) :: ("redraw", rd) :: ("showmode", .int _) ::
      ("type", _) :: extras) =>
    isOptArrOfArr a && isOptArrOfArr ha && isOptStrV lk && legitOpt legitRedraw rd &&
    legitExtras ["action", "hideact", "class", "class_name", "link", "name",
      "redraw", "showmode", "type"] extras
  | _ => false

def legitEventDetails : Value → Bool
  | .obj (("action", a) :: ("class", .str "event") :: ("name", .str _) ::
      ("redraw", rd) :: ("showmode", .int _) :: ("type", _) :: extras) =>
    isOptArrOfArr a && legitOpt legitRedraw rd &&
    legitExtras ["action", "class", "class_name", "name", "redraw",
      "showmode", "type"] extras
  | _ => false

def legitEvent2Details : Value → Bool
  | .obj (("action", a) :: ("class", .str "event2") :: ("name", .str _) ::
      ("redraw", rd) :: ("showmode", .int _) :: ("type", _) :: extras) =>
    isOptArrOfArr a && legitOpt legitRedraw rd &&
    legitExtras ["action", "class", "class_name", "name", "redraw",
      "showmode", "type"] extras
  | _ => false

def legitCenterlayerDetails : Value → Bool
  | .obj (("action", a) :: ("class", .str "centerlayer") :: ("link", lk) ::
      ("name", .str _) :: ("redraw", rd) :: ("showmode", .int _) :: ("type", _) ::
      extras) =>
    isOptArrOfArr a && isOptStrV lk && legitRedraw rd &&
    legitExtras ["action", "class", "class_name", "link", "name", "redraw",
      "showmode", "type"] extras
  | _ => false

def legitSEDetails : Value → Bool
  | .obj (("name", .str _) :: extras) => legitExtras ["name"] extras
  | _ => false

/-- `FixCaptionDetails` ignores unknown keys, so a legitimate (exactly
reproducible) instance has none. -/
def legitFixCaptionDetails : Value → Bool
  | .obj [("action", a), ("class", .str "fixcaption"), ("link", lk),
      ("name", .str _), ("redraw", rd), ("showmode", .int _), ("type", _)] =>
    isOptArrOfArrOrNull a && isOptStrV lk && legitOpt legitRedraw rd
  | _ => false

/-- Dispatch of the legitimacy check for a class known to the
registry. -/
def legitDetailsFor (c : String) (v : Value) : Bool :=
  if c == "bgm" then legitBgmDetails v
  else if c == "loopse" then legitLoopSEDetails v
  else if c == "stage" then legitStageDetails v
  else if c == "character" then legitCharacterDetails v
  else if c == "msgwin" then legitMsgwinDetails v
  else if c == "event" then legitEventDetails v
  else if c == "event2" then legitEvent2Details v
  else if c == "centerlayer" then legitCenterlayerDetails v
  else if c == "se" then legitSEDetails v
  else if c == "fixcaption" then legitFixCaptionDetails v
  else false

/-- A legitimate `DataItem` array: a known class dispatches its details
schema; an unknown class carries any mapping, which is preserved
verbatim. -/
def legitDataItem : Value → Bool
  | .arr [.str _, .str c, d] =>
    if detailsTags.contains c then legitDetailsFor c d
    else
      match d with
      | .obj _ => true
      | _ => false
  | _ => false

def legitEnv : Value → Bool
  | .obj (("name", .str _) :: ("action", a) :: extras) =>
    isOptActionList a && legitExtras ["name", "action"] extras
  | _ => false

def legitShowDate : Value → Bool
  | .obj (("back", _) :: ("date", d) :: ("fore", _) :: ("nowShow", n) :: extras) =>
    isOptStrV d && isOptIntV n && legitExtras ["back", "date", "fore", "nowShow"] extras
  | _ => false

def legitSnapshotPoint : Value → Bool
  | .obj (("_meswinchange", m) :: ("data", .arr ds) :: ("env", e) ::
      ("phonechat_showing", ph) :: ("scnchart", sc) :: ("showdate", sd) :: extras) =>
    isOptStrV m && ds.all legitDataItem && legitEnv e && isOptIntV ph &&
    isOptStrV sc && legitOpt legitShowDate sd &&
    legitExtras ["_meswinchange", "meswinchange", "data", "env",
      "phonechat_showing", "scnchart", "showdate"] extras
  | _ => false

/-- A legitimate instruction array: a known tag with its exact arity and
kind-correct fields. -/
def legitInstruction : Value → Bool
  | .arr [.str "init", .int _] => true
  | .arr [.str "new", .str _, .str _] => true
  | .arr [.str "del", .str _] => true
  | .arr [.str "ren", .str _, .str _] => true
  | _ => false

/-- A legitimate `update`/`revupdate` entry: an instruction array or any
mapping (the mapping is kept verbatim by the fallback member). -/
def legitUpdateEntry : Value → Bool
  | .arr items => legitInstruction (.arr items)
  | .obj _ => true
  | _ => false

/-- A legitimate `WaitEntry` object: exactly the two declared keys
(unknown keys would be dropped). -/
def legitWaitEntry : Value → Bool
  | .obj [("mode", .int _), ("name", .str _)] => true
  | _ => false

def legitWaitElem : Value → Bool
  | .null => true
  | v => legitWaitEntry v

def legitWait : Value → Bool
  | .obj [("list", .arr xs)] => xs.all legitWaitElem
  | _ => false

/-- Legitimate value for one canonical `envupdate` key. -/
def legitEnvPairValue (k : String) (v : Value) : Bool :=
  if k == "pretrans" then
    match v with
    | .arr xs => xs.all legitInstruction
    | _ => false
  else if k == "update" then
    match v with
    | .arr xs => xs.all legitUpdateEntry
    | _ => false
  else if k == "revpretrans" then
    match v with
    | .arr xs => xs.all legitInstruction
    | _ => false
  else if k == "revupdate" then
    match v with
    | .arr xs => xs.all legitUpdateEntry
    | _ => false
  else if k == "wait" then legitWait v
  else if k == "trans" then legitTransform v
  else if k == "msgoff" then
    match v with
    | .int _ => true
    | _ => false
  else false

/-- The tail of a legitimate `envupdate` array: key/value pairs whose
keys follow the canonical order (each key used at most once, in
template order). -/
def legitEnvPairs : List String → List Value → Bool
  | _, [] => true
  | [], _ :: _ => false
  | k₀ :: keys, .str k :: v :: rest =>
    if k₀ == k then legitEnvPairValue k v && legitEnvPairs keys rest
    else legitEnvPairs keys (.str k :: v :: rest)
  | _ :: _, _ => false

/-- Does the pair list carry the given key? -/
def containsKeyPair (k : String) : List Value → Bool
  | .str k₁ :: _ :: rest => k₁ == k || containsKeyPair k rest
  | _ => false

def legitEnvUpdateEvent : List Value → Bool
  | .str "envupdate" :: rest =>
    legitEnvPairs envCanonicalKeys rest && containsKeyPair "update" rest
  | _ => false

def legitStartlineEvent : List Value → Bool
  | [.str "startline"] => true
  | [.str "startline", .str "vflag", .int _, .str "name", nm, .str "text", tx] =>
    isOptStrV nm && isOptIntV tx
  | _ => false

def isObjV : Value → Bool
  | .obj _ => true
  | _ => false

def legitDelayRunEvent : List Value → Bool
  | [.str "delayrun", .str _, .str _, .str "update", .arr us,
      .str "revupdate", .arr rs] =>
    us.all isObjV && rs.all isObjV
  | [.str "delayrun", .str _, .str _, .str "update", .arr us,
      .str "revupdate", .arr rs, .str "trans", t] =>
    us.all isObjV && rs.all isObjV && legitTransform t
  | _ => false

def legitWaitEvent : List Value → Bool
  | [.str "wait", .str "time", .int _] => true
  | _ => false

def legitScnChartEvent : List Value → Bool
  | [.str "scnchart", .str _, .str _] => true
  | _ => false

def legitVoiceEffectEvent : List Value → Bool
  | [.str "voeff", .str _, .str _] => true
  | _ => false

def legitChapterEvent : List Value → Bool
  | .str "chapter" :: _ :: _ => true
  | _ => false

def legitMsgOffEvent : List Value → Bool
  | [.str "msgoff"] => true
  | _ => false

def legitMesWinChangeEvent : List Value → Bool
  | [.str "_meswinchange", .str "type", .str _] => true
  | _ => false

def legitQuickMenuEvent : List Value → Bool
  | [.str "quickmenu", .str _, .str _] => true
  | _ => false

def legitErEvent : List Value → Bool
  | .str "er" :: _ :: _ => true
  | _ => false

def legitEndRecollectionEvent : List Value → Bool
  | [.str "endrecollection"] => true
  | _ => false

def legitPlayVoiceEvent : List Value → Bool
  | [.str "playvoice", .str "loop", .int _, .str "name", .str _,
      .str "type", .int _, .str "voice", .str _] => true
  | _ => false

def legitStopVoiceEvent : List Value → Bool
  | [.str "stopvoice", .str "name", .str _, .str "type", .int _] => true
  | _ => false

def legitExitEvent : List Value → Bool
  | [.str "exit", .str "storage", .str _, .str "target", .str _,
      .str "eval", .str _] => true
  | _ => false

def legitBeginSkipEvent : List Value → Bool
  | [.str "beginskip"] => true
  | _ => false

def legitEndSkipEvent : List Value → Bool
  | [.str "endskip"] => true
  | _ => false

def legitSysVoiceEvent : List Value → Bool
  | [.str "sysvoice", .str "eyecatch", .str _, .str "name", .str _,
      .str "chara", .str _] => true
  | _ => false

def legitEventByTag (t : String) (items : List Value) : Bool :=
  if t == "startline" then legitStartlineEvent items
  else if t == "envupdate" then legitEnvUpdateEvent items
  else if t == "delayrun" then legitDelayRunEvent items
  else if t == "wait" then legitWaitEvent items
  else if t == "scnchart" then legitScnChartEvent items
  else if t == "voeff" then legitVoiceEffectEvent items
  else if t == "chapter" then legitChapterEvent items
  else if t == "msgoff" then legitMsgOffEvent items
  else if t == "_meswinchange" then legitMesWinChangeEvent items
  else if t == "quickmenu" then legitQuickMenuEvent items
  else if t == "er" then legitErEvent items
  else if t == "endrecollection" then legitEndRecollectionEvent items
  else if t == "playvoice" then legitPlayVoiceEvent items
  else if t == "stopvoice" then legitStopVoiceEvent items
  else if t == "exit" then legitExitEvent items
  else if t == "beginskip" then legitBeginSkipEvent items
  else if t == "endskip" then legitEndSkipEvent items
  else if t == "sysvoice" then legitSysVoiceEvent items
  else false

/-- A legitimate event array: a known tag with its variant shape, or an
unrecognized tag (including a non-string head) with any tail, kept
verbatim by the fallback. -/
def legitEvent : Value → Bool
  | .arr (h :: rest) =>
    match h with
    | .str t =>
      if eventTags.contains t then legitEventByTag t (.str t :: rest)
      else true
    | _ => true
  | _ => false

def legitTextIndexA : Value → Bool
  | .int _ => true
  | .obj kvs => legitSnapshotPoint (.obj kvs)
  | _ => false

/-- A legitimate `SnapshotPointLine` array: arity 5 with a null
position 2, or arity 8 with an integer position 2 (the
conditional-presence predicate of the trailing fields). -/
def legitSnapshotPointLine : List Value → Bool
  | [.int _, a, .null, f, .int _] => legitTextIndexA a && isOptIntV f
  | [.int _, a, .int _, f, .int _, vt, _, _] =>
    legitTextIndexA a && isOptIntV f && isOptIntV vt
  | _ => false

def legitLine : Value → Bool
  | .int _ => true
  | .str _ => true
  | .arr (h :: rest) =>
    match h with
    | .str _ => legitEvent (.arr (h :: rest))
    | .int _ => legitSnapshotPointLine (h :: rest)
    | _ => false
  | _ => false

def legitDialogue : Value → Bool
  | .arr [dn, .str _] => isOptStrV dn
  | .arr [dn, .str _, .int _] => isOptStrV dn
  | _ => false

def legitVoiceData : Value → Bool
  | .obj [("name", .str _), ("pan", .int _), ("type", .int _), ("voice", .str _)] =>
    true
  | _ => false

def legitText : Value → Bool
  | .arr [ch, .arr ds, vs, .int _, sp] =>
    isOptStrV ch && ds.all legitDialogue &&
    (match vs with
     | .null => true
     | .arr xs => xs.all legitVoiceData
     | _ => false) &&
    legitSnapshotPoint sp
  | _ => false

def legitNext : Value → Bool
  | .obj [("storage", .str _), ("target", .str _), ("type", .int _)] => true
  | _ => false

def isStrV : Value → Bool
  | .str _ => true
  | _ => false

def legitTitle : Value → Bool
  | .str _ => true
  | .arr xs => xs.all isStrV
  | _ => false

/-- The legitimate `Scene` object: the eleven keys in declaration order,
optional fields present exactly when non-null (the scene dump omits
`None` fields). -/
def legitSceneTail10 : Entries → Bool
  | [("title", t), ("version", .int _)] => legitTitle t
  | _ => false

def legitSceneTail9 : Entries → Bool
  | ("texts", .arr ts) :: rest => ts.all legitText && legitSceneTail10 rest
  | rest => legitSceneTail10 rest

def legitSceneTail8 : Entries → Bool
  | ("spCount", .int _) :: rest => legitSceneTail9 rest
  | _ => false

def legitSceneTail7 : Entries → Bool
  | ("postevals", .arr xs) :: rest => xs.all isArrOrStr && legitSceneTail8 rest
  | rest => legitSceneTail8 rest

def legitSceneTail6 : Entries → Bool
  | ("preevals", .arr xs) :: rest => xs.all isArrOrStr && legitSceneTail7 rest
  | rest => legitSceneTail7 rest

def legitSceneTail5 : Entries → Bool
  | ("nexts", .arr ns) :: rest => ns.all legitNext && legitSceneTail6 rest
  | _ => false

def legitSceneTail4 : Entries → Bool
  | ("lines", .arr ls) :: rest => ls.all legitLine && legitSceneTail5 rest
  | _ => false

def legitSceneTail3 : Entries → Bool
  | ("label", .str _) :: rest => legitSceneTail4 rest
  | _ => false

def isIntV : Value → Bool
  | .int _ => true
  | _ => false

def legitSceneTail2 : Entries → Bool
  | ("jumplabels", .obj js) :: rest =>
    js.all (fun p => isIntV p.2) && legitSceneTail3 rest
  | rest => legitSceneTail3 rest

def legitScene : Value → Bool
  | .obj (("firstLine", .int _) :: rest) => legitSceneTail2 rest
  | _ => false

def legitLanguage : Value → Bool
  | .str s => languageTags.contains s
  | _ => false

def legitLLMapEntry : Value → Bool
  | .obj kvs => kvs.all (fun p => isLLMapVal p.2)
  | _ => false

/-- The legitimate top-level document object: exactly the six keys in
declaration order. -/
def legitScn : Value → Bool
  | .obj [("hash", .str _), ("languages", .arr ls), ("llmap", .arr ms),
      ("name", .str _), ("outlines", .arr _), ("scenes", .arr ss)] =>
    ls.all legitLanguage && ms.all legitLLMapEntry && ss.all legitScene
  | _ => false

/-- The key/value tail an `envupdate` serializer emits for a template
suffix under a slot valuation. -/
def encodeSlots (keys : List String) (pre : Option (List Instruction))
    (upd : Option (List UpdateEntry)) (rpre : Option (List Instruction))
    (rupd : Option (List UpdateEntry)) (w : Option Wait) (t : Option Transform)
    (mo : Option Int) : List Value :=
  keys.foldr (fun k acc =>
    match slotValue pre upd rpre rupd w t mo k with
    | some v => .str k :: v :: acc
    | none => acc) []

/-! ## Fixtures -/

/-- A stage details object for the known-class registry path. -/
def fixStageDet : Value :=
  .obj [("action", .null), ("class", .str "stage"), ("link", .str ""),
    ("name", .str "bg"),
    ("redraw", .obj [("disp", .int 2),
      ("imageFile", .obj [("file", .str "bg01"), ("options", .null),
        ("redraw", .null)]),
      ("posName", .null)]),
    ("showmode", .int 3), ("trans", .null), ("type", .null)]

/-- The unknown-class snapshot object of the specification. -/
def fixDet : Value :=
  .obj [("class", .str "newwidget"), ("name", .str "x"), ("foo", .int 1)]

def fixInstr : Value := .arr [.str "new", .str "o1", .str "stage"]

/-- An `envupdate` whose `update` list mixes an Instruction array and a
`DataItemDetails` object. -/
def fixEnv : Value :=
  .arr [.str "envupdate", .str "update", .arr [fixInstr, fixDet]]

def fixSPL5 : Value := .arr [.int 3, .int 12, .null, .null, .int 40]

def fixSPL8 : Value :=
  .arr [.int 3, .int 12, .int 7, .int 1, .int 40, .int 2, .null, .null]

def fixFall : Value := .arr [.str "zzzfuturetag", .int 1, .int 2]

def fixStart7 : Value :=
  .arr [.str "startline", .str "vflag", .int 2, .str "name", .str "Yuki",
    .str "text", .int 1]

def fixSP : Value := .obj [
  ("_meswinchange", .null),
  ("data", .arr [.arr [.str "bg", .str "stage", fixStageDet]]),
  ("env", .obj [("name", .str "e"), ("action", .null)]),
  ("phonechat_showing", .int 0),
  ("scnchart", .null),
  ("showdate", .null)]

def fixScene1 : Value := .obj [
  ("firstLine", .int 1),
  ("label", .str "s1"),
  ("lines", .arr [.arr [.str "startline"], fixStart7, fixEnv, .int 0, fixSPL5,
    fixSPL8, fixFall, .str "res.png"]),
  ("nexts", .arr [.obj [("storage", .str "x"), ("target", .str "s2"),
    ("type", .int 0)]]),
  ("spCount", .int 2),
  ("title", .str ""),
  ("version", .int 1)]

def fixScene2 : Value := .obj [
  ("firstLine", .int 5),
  ("jumplabels", .obj [("j1", .int 3)]),
  ("label", .str "s2"),
  ("lines", .arr [.arr [.int 1, fixSP, .null, .int 1, .int 40]]),
  ("nexts", .arr []),
  ("preevals", .arr [.str "a=1", .arr [.str "b", .int 2]]),
  ("spCount", .int 1),
  ("texts", .arr [.arr [.str "Yuki",
    .arr [.arr [.null, .str "hello"], .arr [.str "Y", .str "hi", .int 2]],
    .null, .int 0, fixSP]]),
  ("title", .arr [.str "t1", .str "t2"]),
  ("version", .int 1)]

/-- A multi-scene document with an `envupdate` carrying a mixed
Instruction/DataItemDetails update list, an unknown event tag, an
unknown snapshot-object class and both snapshot-point-line arities. -/
def fixDoc : Value := .obj [
  ("hash", .str "h"),
  ("languages", .arr [.str "en", .str "cn"]),
  ("llmap", .arr [.obj [("s1", .arr [.int 7]), ("name", .str "x_en.ks")]]),
  ("name", .str "x"),
  ("outlines", .arr []),
  ("scenes", .arr [fixScene1, fixScene2])]

/-! ## Round-trip lemmas -/

theorem legitExtras_prop (forbidden : List String) (extras : Entries)
    (h : legitExtras forbidden extras = true) :
    ∀ a b, (a, b) ∈ extras → (forbidden.contains a) = false := by
  intro a b hab
  have h1 := ((Bool.and_eq_true _ _).mp h).1
  rw [List.all_eq_true] at h1
  have h2 := h1 (a, b) hab
  simpa using h2

theorem filter_extras (forbidden : List String) (extras : Entries)
    (h : legitExtras forbidden extras = true) :
    extras.filter (fun p => !(forbidden.contains p.1)) = extras := by
  rw [List.filter_eq_self]
  intro p hp
  have := legitExtras_prop forbidden extras h p.1 p.2 hp
  simp [this]
  intro hmem
  rw [List.contains_eq_any_beq] at this
  simp [List.any_eq_true] at this
  exact this p.1 hmem rfl

theorem optStr_eval (k : String) (kvs : Entries) (v : Value)
    (hget : getKey k kvs = some v) (hv : isOptStrV v = true) :
    optStr k kvs = .ok (vOptStr v) := by
  unfold optStr
  rw [hget]
  cases v <;> simp_all [isOptStrV, vOptStr]

theorem encOptStr_vOptStr (v : Value) (hv : isOptStrV v = true) :
    encOptStr (vOptStr v) = v := by
  cases v <;> simp_all [isOptStrV, vOptStr, encOptStr]

theorem optInt_eval (k : String) (kvs : Entries) (v : Value)
    (hget : getKey k kvs = some v) (hv : isOptIntV v = true) :
    optInt k kvs = .ok (vOptInt v) := by
  unfold optInt
  rw [hget]
  cases v <;> simp_all [isOptIntV, vOptInt]

theorem encOptInt_vOptInt (v : Value) (hv : isOptIntV v = true) :
    encOptInt (vOptInt v) = v := by
  cases v <;> simp_all [isOptIntV, vOptInt, encOptInt]

theorem optBool_eval (k : String) (kvs : Entries) (v : Value)
    (hget : getKey k kvs = some v) (hv : isOptBoolV v = true) :
    optBool k kvs = .ok (vOptBool v) := by
  unfold optBool
  rw [hget]
  cases v <;> simp_all [isOptBoolV, vOptBool]

theorem encOptBool_vOptBool (v : Value) (hv : isOptBoolV v = true) :
    encOptBool (vOptBool v) = v := by
  cases v <;> simp_all [isOptBoolV, vOptBool, encOptBool]

/-- `Optional[str] = ""` fields behave like `Optional[str]` fields on a
present key. -/
theorem optStrDefEmpty_eval (k : String) (kvs : Entries) (v : Value)
    (hget : getKey k kvs = some v) (hv : isOptStrV v = true) :
    optStrDefEmpty k kvs = .ok (vOptStr v) := by
  unfold optStrDefEmpty
  rw [hget]
  cases v <;> simp_all [isOptStrV, vOptStr]

/-- The generic list round trip: elementwise round trips lift through
`mapM` and `map`. -/
theorem mapM_rt {α : Type} (dec : Value → Except String α) (enc : α → Value)
    (p : Value → Bool)
    (hrt : ∀ v, p v = true → ∃ t, dec v = .ok t ∧ enc t = v) :
    ∀ xs : List Value, xs.all p = true →
      ∃ ts, xs.mapM dec = .ok ts ∧ ts.map enc = xs := by
  intro xs
  induction xs with
  | nil => intro _; exact ⟨[], rfl, rfl⟩
  | cons x xs ih =>
    intro h
    rw [List.all_cons, Bool.and_eq_true] at h
    obtain ⟨t, ht, ht2⟩ := hrt x h.1
    obtain ⟨ts, hts, hts2⟩ := ih h.2
    refine ⟨t :: ts, ?_, by simp [ht2, hts2]⟩
    rw [List.mapM_cons, ht, hts]
    rfl

/-- Optional-model field round trip. -/
theorem optModel_rt {α : Type} (k : String) (dec : Value → Except String α)
    (enc : α → Value) (p : Value → Bool) (kvs : Entries) (v : Value)
    (hrt : ∀ w, p w = true → ∃ t, dec w = .ok t ∧ enc t = w)
    (hget : getKey k kvs = some v) (hv : legitOpt p v = true) :
    ∃ o, optModel k dec kvs = .ok o ∧
      (match o with | some t => enc t | none => Value.null) = v := by
  unfold optModel
  rw [hget]
  match v, hv with
  | .null, _ => exact ⟨none, rfl, rfl⟩
  | .bool b, hv =>
    obtain ⟨t, ht, ht2⟩ := hrt _ (by simpa [legitOpt] using hv)
    exact ⟨some t, by simp [ht, Except.map], ht2⟩
  | .int n, hv =>
    obtain ⟨t, ht, ht2⟩ := hrt _ (by simpa [legitOpt] using hv)
    exact ⟨some t, by simp [ht, Except.map], ht2⟩
  | .flt q, hv =>
    obtain ⟨t, ht, ht2⟩ := hrt _ (by simpa [legitOpt] using hv)
    exact ⟨some t, by simp [ht, Except.map], ht2⟩
  | .str s, hv =>
    obtain ⟨t, ht, ht2⟩ := hrt _ (by simpa [legitOpt] using hv)
    exact ⟨some t, by simp [ht, Except.map], ht2⟩
  | .arr xs, hv =>
    obtain ⟨t, ht, ht2⟩ := hrt _ (by simpa [legitOpt] using hv)
    exact ⟨some t, by simp [ht, Except.map], ht2⟩
  | .obj kvs₁, hv =>
    obtain ⟨t, ht, ht2⟩ := hrt _ (by simpa [legitOpt] using hv)
    exact ⟨some t, by simp [ht, Except.map], ht2⟩

theorem replay_rt (v : Value) (h : legitReplay v = true) :
    ∃ r, decodeReplay v = .ok r ∧ encodeReplay r = v := by
  unfold legitReplay at h
  split at h
  case _ f l st s vo extras =>
    simp only [Bool.and_eq_true] at h
    obtain ⟨⟨⟨⟨hf, hl⟩, hs⟩, hvo⟩, hex⟩ := h
    refine ⟨⟨vOptStr f, vOptInt l, st, vOptInt s, vOptInt vo, extras⟩, ?_, ?_⟩
    · simp only [decodeReplay]
      rw [optStr_eval _ _ f (by simp [getKey]) hf]
      rw [optInt_eval _ _ l (by simp [getKey]) hl]
      rw [optInt_eval _ _ s (by simp [getKey]) hs]
      rw [optInt_eval _ _ vo (by simp [getKey]) hvo]
      simp only [Bind.bind, Except.bind, anyVal, getKey, extrasOf]
      simp [List.filter_eq_self]
      intro a b hab
      have := legitExtras_prop _ _ hex a b hab
      simpa using this
    · simp [encodeReplay, encOptStr_vOptStr _ hf, encOptInt_vOptInt _ hl,
        encOptInt_vOptInt _ hs, encOptInt_vOptInt _ hvo]
  case _ =>
    simp at h

theorem update_rt (v : Value) (h : legitUpdate v = true) :
    ∃ r, decodeUpdate v = .ok r ∧ encodeUpdate r = v := by
  unfold legitUpdate at h
  split at h
  case _ s extras =>
    simp only [Bool.and_eq_true] at h
    obtain ⟨hs, hex⟩ := h
    refine ⟨⟨vOptInt s, extras⟩, ?_, ?_⟩
    · simp only [decodeUpdate]
      rw [optInt_eval _ _ s (by simp [getKey]) hs]
      simp only [Bind.bind, Except.bind, extrasOf]
      simp [List.filter_eq_self]
      intro a b hab
      have := legitExtras_prop _ _ hex a b hab
      simpa using this
    · simp [encodeUpdate, encOptInt_vOptInt _ hs]
  case _ =>
    simp at h

theorem transform_rt (v : Value) (h : legitTransform v = true) :
    ∃ r, decodeTransform v = .ok r ∧ encodeTransform r = v := by
  unfold legitTransform at h
  split at h
  case _ m mo r n extras =>
    simp only [Bool.and_eq_true] at h
    obtain ⟨⟨⟨hm, hmo⟩, hr⟩, hex⟩ := h
    refine ⟨⟨vOptStr m, vOptBool mo, vOptStr r, n, extras⟩, ?_, ?_⟩
    · simp only [decodeTransform]
      rw [optStr_eval _ _ m (by simp [getKey]) hm]
      rw [optBool_eval _ _ mo (by simp [getKey]) hmo]
      rw [optStr_eval _ _ r (by simp [getKey]) hr]
      simp only [Bind.bind, Except.bind, reqInt, getKey, extrasOf]
      simp [List.filter_eq_self]
      intro a b hab
      have := legitExtras_prop _ _ hex a b hab
      simpa using this
    · simp [encodeTransform, encOptStr_vOptStr _ hm, encOptBool_vOptBool _ hmo,
        encOptStr_vOptStr _ hr]
  case _ =>
    simp at h

theorem imageFileOptions_rt (v : Value) (h : legitImageFileOptions v = true) :
    ∃ r, decodeImageFileOptions v = .ok r ∧ encodeImageFileOptions r = v := by
  unfold legitImageFileOptions at h
  split at h
  case _ d f p c extras =>
    simp only [Bool.and_eq_true] at h
    obtain ⟨⟨⟨⟨hd, hf⟩, hp⟩, hc⟩, hex⟩ := h
    refine ⟨⟨vOptStr d, vOptStr f, vOptStr p, vOptInt c, extras⟩, ?_, ?_⟩
    · simp only [decodeImageFileOptions]
      rw [optStr_eval _ _ d (by simp [getKey]) hd]
      rw [optStr_eval _ _ f (by simp [getKey]) hf]
      rw [optStr_eval _ _ p (by simp [getKey]) hp]
      rw [optInt_eval _ _ c (by simp [getKey]) hc]
      simp only [Bind.bind, Except.bind, extrasOf]
      simp [List.filter_eq_self]
      intro a b hab
      have := legitExtras_prop _ _ hex a b hab
      simpa using this
    · simp [encodeImageFileOptions, encOptStr_vOptStr _ hd,
        encOptStr_vOptStr _ hf, encOptStr_vOptStr _ hp, encOptInt_vOptInt _ hc]
  case _ =>
    simp at h

theorem optArrOfArr_eval (k : String) (kvs : Entries) (v : Value)
    (hget : getKey k kvs = some v) (hv : isOptArrOfArr v = true) :
    ∃ o, optArrOfArr k kvs = .ok o ∧ encOptArr o = v := by
  unfold optArrOfArr
  rw [hget]
  match v, hv with
  | .null, _ => exact ⟨none, rfl, rfl⟩
  | .arr xs, hv =>
    refine ⟨some xs, ?_, rfl⟩
    simp only [isOptArrOfArr] at hv
    simp [hv]

theorem optArrOfArrOrNull_eval (k : String) (kvs : Entries) (v : Value)
    (hget : getKey k kvs = some v) (hv : isOptArrOfArrOrNull v = true) :
    ∃ o, optArrOfArrOrNull k kvs = .ok o ∧ encOptArr o = v := by
  unfold optArrOfArrOrNull
  rw [hget]
  match v, hv with
  | .null, _ => exact ⟨none, rfl, rfl⟩
  | .arr xs, hv =>
    refine ⟨some xs, ?_, rfl⟩
    simp only [isOptArrOfArrOrNull] at hv
    simp [hv]

theorem imageFileDetails_rt (v : Value) (h : legitImageFileDetails v = true) :
    ∃ r, decodeImageFileDetails v = .ok r ∧ encodeImageFileDetails r = v := by
  unfold legitImageFileDetails at h
  split at h
  case _ f o r extras =>
    simp only [Bool.and_eq_true] at h
    obtain ⟨⟨ho, hr⟩, hex⟩ := h
    obtain ⟨oo, hoo, hoo2⟩ := optModel_rt "options" decodeImageFileOptions
      encodeImageFileOptions legitImageFileOptions
      (("file", Value.str f) :: ("options", o) :: ("redraw", r) :: extras) o
      imageFileOptions_rt (by simp [getKey]) ho
    obtain ⟨or, hor, hor2⟩ := optArrOfArr_eval "redraw"
      (("file", Value.str f) :: ("options", o) :: ("redraw", r) :: extras) r
      (by simp [getKey]) hr
    refine ⟨⟨f, oo, or, extras⟩, ?_, ?_⟩
    · simp only [decodeImageFileDetails]
      simp [Bind.bind, Except.bind, reqStr, getKey, extrasOf, hoo, hor,
        List.filter_eq_self]
      intro a b hab
      have := legitExtras_prop _ _ hex a b hab
      simpa using this
    · simp only [encodeImageFileDetails, hor2]
      cases oo with
      | none => simp_all
      | some t => simp_all
  case _ =>
    simp at h

theorem redraw_rt (v : Value) (h : legitRedraw v = true) :
    ∃ r, decodeRedraw v = .ok r ∧ encodeRedraw r = v := by
  unfold legitRedraw at h
  split at h
  case _ d i p extras =>
    simp only [Bool.and_eq_true] at h
    obtain ⟨⟨hi, hp⟩, hex⟩ := h
    obtain ⟨ri, hri, hri2⟩ := imageFileDetails_rt i hi
    refine ⟨⟨d, ri, vOptStr p, extras⟩, ?_, ?_⟩
    · simp only [decodeRedraw]
      rw [optStr_eval "posName"
        (("disp", Value.int d) :: ("imageFile", i) :: ("posName", p) :: extras) p
        (by simp [getKey]) hp]
      simp [Bind.bind, Except.bind, reqInt, reqModel, getKey, extrasOf, hri,
        List.filter_eq_self]
      intro a b hab
      have := legitExtras_prop _ _ hex a b hab
      simpa using this
    · simp [encodeRedraw, hri2, encOptStr_vOptStr _ hp]
  case _ =>
    simp at h
theorem bgmDetails_rt (v : Value) (h : legitBgmDetails v = true) :
    ∃ r, decodeBgmDetails v = .ok r ∧ encodeBgmDetails r = v := by
  unfold legitBgmDetails at h
  split at h
  case _ nm rp up extras =>
    simp only [Bool.and_eq_true] at h
    obtain ⟨⟨hvrp, hvup⟩, hvex⟩ := h
    obtain ⟨rrp, hrrp, hrrp2⟩ := replay_rt rp hvrp
    obtain ⟨rup, hrup, hrup2⟩ := update_rt up hvup
    refine ⟨⟨nm, rrp, rup, extras⟩, ?_, ?_⟩
    · simp only [decodeBgmDetails]
      simp [Bind.bind, Except.bind, reqStr, reqInt, reqLit, reqModel, anyVal, getKey, extrasOf, hrrp, hrup, List.filter_eq_self]
      intro a b hab
      have := legitExtras_prop _ _ hvex a b hab
      simpa using this
    · simp [encodeBgmDetails, hrrp2, hrup2]
  case _ =>
    simp at h

theorem loopSEDetails_rt (v : Value) (h : legitLoopSEDetails v = true) :
    ∃ r, decodeLoopSEDetails v = .ok r ∧ encodeLoopSEDetails r = v := by
  unfold legitLoopSEDetails at h
  split at h
  case _ a nm rp t up extras =>
    simp only [Bool.and_eq_true] at h
    obtain ⟨⟨⟨⟨ha, hvrp⟩, ht⟩, hvup⟩, hvex⟩ := h
    obtain ⟨oa, hoa, hoa2⟩ := optArrOfArr_eval "action"
      (("action", a) :: ("name", Value.str nm) :: ("replay", rp) :: ("trans", t) :: ("update", up) :: extras) a (by simp [getKey]) ha
    obtain ⟨rrp, hrrp, hrrp2⟩ := replay_rt rp hvrp
    obtain ⟨ot, hot, hot2⟩ := optModel_rt "trans" decodeTransform
      encodeTransform legitTransform
      (("action", a) :: ("name", Value.str nm) :: ("replay", rp) :: ("trans", t) :: ("update", up) :: extras) t transform_rt (by simp [getKey]) ht
    obtain ⟨rup, hrup, hrup2⟩ := update_rt up hvup
    refine ⟨⟨oa, nm, rrp, ot, rup, extras⟩, ?_, ?_⟩
    · simp only [decodeLoopSEDetails]
      simp [Bind.bind, Except.bind, reqStr, reqInt, reqLit, reqModel, anyVal, getKey, extrasOf, hoa, hrrp, hot, hrup, List.filter_eq_self]
      intro a b hab
      have := legitExtras_prop _ _ hvex a b hab
      simpa using this
    · cases ot <;> simp_all [encodeLoopSEDetails, hoa2, hrrp2, hrup2, encOptRedraw, encOptTransform, hot2]
  case _ =>
    simp at h

theorem stageDetails_rt (v : Value) (h : legitStageDetails v = true) :
    ∃ r, decodeStageDetails v = .ok r ∧ encodeStageDetails r = v := by
  unfold legitStageDetails at h
  split at h
  case _ a lk nm rd sm t ty extras =>
    simp only [Bool.and_eq_true] at h
    obtain ⟨⟨⟨⟨ha, hvlk⟩, hvrd⟩, ht⟩, hvex⟩ := h
    obtain ⟨oa, hoa, hoa2⟩ := optArrOfArr_eval "action"
      (("action", a) :: ("class", Value.str "stage") :: ("link", lk) :: ("name", Value.str nm) :: ("redraw", rd) :: ("showmode", Value.int sm) :: ("trans", t) :: ("type", ty) :: extras) a (by simp [getKey]) ha
    obtain ⟨rrd, hrrd, hrrd2⟩ := redraw_rt rd hvrd
    obtain ⟨ot, hot, hot2⟩ := optModel_rt "trans" decodeTransform
      encodeTransform legitTransform
      (("action", a) :: ("class", Value.str "stage") :: ("link", lk) :: ("name", Value.str nm) :: ("redraw", rd) :: ("showmode", Value.int sm) :: ("trans", t) :: ("type", ty) :: extras) t transform_rt (by simp [getKey]) ht
    refine ⟨⟨oa, vOptStr lk, nm, rrd, sm, ot, ty, extras⟩, ?_, ?_⟩
    · simp only [decodeStageDetails]
      simp [Bind.bind, Except.bind, reqStr, reqInt, reqLit, reqModel, anyVal, getKey, extrasOf, hoa, optStrDefEmpty_eval "link" (("action", a) :: ("class", Value.str "stage") :: ("link", lk) :: ("name", Value.str nm) :: ("redraw", rd) :: ("showmode", Value.int sm) :: ("trans", t) :: ("type", ty) :: extras) lk (by simp [getKey]) hvlk, hrrd, hot, List.filter_eq_self]
      intro a b hab
      have := legitExtras_prop _ _ hvex a b hab
      simpa using this
    · cases ot <;> simp_all [encodeStageDetails, hoa2, encOptStr_vOptStr _ hvlk, hrrd2, encOptRedraw, encOptTransform, hot2]
  case _ =>
    simp at h

theorem characterDetails_rt (v : Value) (h : legitCharacterDetails v = true) :
    ∃ r, decodeCharacterDetails v = .ok r ∧ encodeCharacterDetails r = v := by
  unfold legitCharacterDetails at h
  split at h
  case _ a hact lk nm rd sm t ty extras =>
    simp only [Bool.and_eq_true] at h
    obtain ⟨⟨⟨⟨⟨ha, hvha⟩, hvlk⟩, hvrd⟩, ht⟩, hvex⟩ := h
    obtain ⟨oa, hoa, hoa2⟩ := optArrOfArr_eval "action"
      (("action", a) :: ("hideact", hact) :: ("class", Value.str "character") :: ("link", lk) :: ("name", Value.str nm) :: ("redraw", rd) :: ("showmode", Value.int sm) :: ("trans", t) :: ("type", ty) :: extras) a (by simp [getKey]) ha
    obtain ⟨oha, hoha, hoha2⟩ := optArrOfArr_eval "hideact"
      (("action", a) :: ("hideact", hact) :: ("class", Value.str "character") :: ("link", lk) :: ("name", Value.str nm) :: ("redraw", rd) :: ("showmode", Value.int sm) :: ("trans", t) :: ("type", ty) :: extras) hact (by simp [getKey]) hvha
    obtain ⟨ord, hord, hord2⟩ := optModel_rt "redraw" decodeRedraw
      encodeRedraw legitRedraw
      (("action", a) :: ("hideact", hact) :: ("class", Value.str "character") :: ("link", lk) :: ("name", Value.str nm) :: ("redraw", rd) :: ("showmode", Value.int sm) :: ("trans", t) :: ("type", ty) :: extras) rd redraw_rt (by simp [getKey]) hvrd
    obtain ⟨ot, hot, hot2⟩ := optModel_rt "trans" decodeTransform
      encodeTransform legitTransform
      (("action", a) :: ("hideact", hact) :: ("class", Value.str "character") :: ("link", lk) :: ("name", Value.str nm) :: ("redraw", rd) :: ("showmode", Value.int sm) :: ("trans", t) :: ("type", ty) :: extras) t transform_rt (by simp [getKey]) ht
    refine ⟨⟨oa, oha, vOptStr lk, nm, ord, sm, ot, ty, extras⟩, ?_, ?_⟩
    · simp only [decodeCharacterDetails]
      simp [Bind.bind, Except.bind, reqStr, reqInt, reqLit, reqModel, anyVal, getKey, extrasOf, hoa, hoha, optStrDefEmpty_eval "link" (("action", a) :: ("hideact", hact) :: ("class", Value.str "character") :: ("link", lk) :: ("name", Value.str nm) :: ("redraw", rd) :: ("showmode", Value.int sm) :: ("trans", t) :: ("type", ty) :: extras) lk (by simp [getKey]) hvlk, hord, hot, List.filter_eq_self]
      intro a b hab
      have := legitExtras_prop _ _ hvex a b hab
      simpa using this
    · cases ord <;> cases ot <;> simp_all [encodeCharacterDetails, hoa2, hoha2, encOptStr_vOptStr _ hvlk, encOptRedraw, encOptTransform, hord2, hot2]
  case _ =>
    simp at h

theorem msgwinDetails_rt (v : Value) (h : legitMsgwinDetails v = true) :
    ∃ r, decodeMsgwinDetails v = .ok r ∧ encodeMsgwinDetails r = v := by
  unfold legitMsgwinDetails at h
  split at h
  case _ a hact lk nm rd sm ty extras =>
    simp only [Bool.and_eq_true] at h
    obtain ⟨⟨⟨⟨ha, hvha⟩, hvlk⟩, hvrd⟩, hvex⟩ := h
    obtain ⟨oa, hoa, hoa2⟩ := optArrOfArr_eval "action"
      (("action", a) :: ("hideact", hact) :: ("class", Value.str "msgwin") :: ("link", lk) :: ("name", Value.str nm) :: ("redraw", rd) :: ("showmode", Value.int sm) :: ("type", ty) :: extras) a (by simp [getKey]) ha
    obtain ⟨oha, hoha, hoha2⟩ := optArrOfArr_eval "hideact"
      (("action", a) :: ("hideact", hact) :: ("class", Value.str "msgwin") :: ("link", lk) :: ("name", Value.str nm) :: ("redraw", rd) :: ("showmode", Value.int sm) :: ("type", ty) :: extras) hact (by simp [getKey]) hvha
    obtain ⟨ord, hord, hord2⟩ := optModel_rt "redraw" decodeRedraw
      encodeRedraw legitRedraw
      (("action", a) :: ("hideact", hact) :: ("class", Value.str "msgwin") :: ("link", lk) :: ("name", Value.str nm) :: ("redraw", rd) :: ("showmode", Value.int sm) :: ("type", ty) :: extras) rd redraw_rt (by simp [getKey]) hvrd
    refine ⟨⟨oa, oha, vOptStr lk, nm, ord, sm, ty, extras⟩, ?_, ?_⟩
    · simp only [decodeMsgwinDetails]
      simp [Bind.bind, Except.bind, reqStr, reqInt, reqLit, reqModel, anyVal, getKey, extrasOf, hoa, hoha, optStrDefEmpty_eval "link" (("action", a) :: ("hideact", hact) :: ("class", Value.str "msgwin") :: ("link", lk) :: ("name", Value.str nm) :: ("redraw", rd) :: ("showmode", Value.int sm) :: ("type", ty) :: extras) lk (by simp [getKey]) hvlk, hord, List.filter_eq_self]
      intro a b hab
      have := legitExtras_prop _ _ hvex a b hab
      simpa using this
    · cases ord <;> simp_all [encodeMsgwinDetails, hoa2, hoha2, encOptStr_vOptStr _ hvlk, encOptRedraw, encOptTransform, hord2]
  case _ =>
    simp at h

theorem eventDetails_rt (v : Value) (h : legitEventDetails v = true) :
    ∃ r, decodeEventDetails v = .ok r ∧ encodeEventDetails r = v := by
  unfold legitEventDetails at h
  split at h
  case _ a nm rd sm ty extras =>
    simp only [Bool.and_eq_true] at h
    obtain ⟨⟨ha, hvrd⟩, hvex⟩ := h
    obtain ⟨oa, hoa, hoa2⟩ := optArrOfArr_eval "action"
      (("action", a) :: ("class", Value.str "event") :: ("name", Value.str nm) :: ("redraw", rd) :: ("showmode", Value.int sm) :: ("type", ty) :: extras) a (by simp [getKey]) ha
    obtain ⟨ord, hord, hord2⟩ := optModel_rt "redraw" decodeRedraw
      encodeRedraw legitRedraw
      (("action", a) :: ("class", Value.str "event") :: ("name", Value.str nm) :: ("redraw", rd) :: ("showmode", Value.int sm) :: ("type", ty) :: extras) rd redraw_rt (by simp [getKey]) hvrd
    refine ⟨⟨oa, nm, ord, sm, ty, extras⟩, ?_, ?_⟩
    · simp only [decodeEventDetails]
      simp [Bind.bind, Except.bind, reqStr, reqInt, reqLit, reqModel, anyVal, getKey, extrasOf, hoa, hord, List.filter_eq_self]
      intro a b hab
      have := legitExtras_prop _ _ hvex a b hab
      simpa using this
    · cases ord <;> simp_all [encodeEventDetails, hoa2, encOptRedraw, encOptTransform, hord2]
  case _ =>
    simp at h

theorem event2Details_rt (v : Value) (h : legitEvent2Details v = true) :
    ∃ r, decodeEvent2Details v = .ok r ∧ encodeEvent2Details r = v := by
  unfold legitEvent2Details at h
  split at h
  case _ a nm rd sm ty extras =>
    simp only [Bool.and_eq_true] at h
    obtain ⟨⟨ha, hvrd⟩, hvex⟩ := h
    obtain ⟨oa, hoa, hoa2⟩ := optArrOfArr_eval "action"
      (("action", a) :: ("class", Value.str "event2") :: ("name", Value.str nm) :: ("redraw", rd) :: ("showmode", Value.int sm) :: ("type", ty) :: extras) a (by simp [getKey]) ha
    obtain ⟨ord, hord, hord2⟩ := optModel_rt "redraw" decodeRedraw
      encodeRedraw legitRedraw
      (("action", a) :: ("class", Value.str "event2") :: ("name", Value.str nm) :: ("redraw", rd) :: ("showmode", Value.int sm) :: ("type", ty) :: extras) rd redraw_rt (by simp [getKey]) hvrd
    refine ⟨⟨oa, nm, ord, sm, ty, extras⟩, ?_, ?_⟩
    · simp only [decodeEvent2Details]
      simp [Bind.bind, Except.bind, reqStr, reqInt, reqLit, reqModel, anyVal, getKey, extrasOf, hoa, hord, List.filter_eq_self]
      intro a b hab
      have := legitExtras_prop _ _ hvex a b hab
      simpa using this
    · cases ord <;> simp_all [encodeEvent2Details, hoa2, encOptRedraw, encOptTransform, hord2]
  case _ =>
    simp at h

theorem centerlayerDetails_rt (v : Value) (h : legitCenterlayerDetails v = true) :
    ∃ r, decodeCenterlayerDetails v = .ok r ∧ encodeCenterlayerDetails r = v := by
  unfold legitCenterlayerDetails at h
  split at h
  case _ a lk nm rd sm ty extras =>
    simp only [Bool.and_eq_true] at h
    obtain ⟨⟨⟨ha, hvlk⟩, hvrd⟩, hvex⟩ := h
    obtain ⟨oa, hoa, hoa2⟩ := optArrOfArr_eval "action"
      (("action", a) :: ("class", Value.str "centerlayer") :: ("link", lk) :: ("name", Value.str nm) :: ("redraw", rd) :: ("showmode", Value.int sm) :: ("type", ty) :: extras) a (by simp [getKey]) ha
    obtain ⟨rrd, hrrd, hrrd2⟩ := redraw_rt rd hvrd
    refine ⟨⟨oa, vOptStr lk, nm, rrd, sm, ty, extras⟩, ?_, ?_⟩
    · simp only [decodeCenterlayerDetails]
      simp [Bind.bind, Except.bind, reqStr, reqInt, reqLit, reqModel, anyVal, getKey, extrasOf, hoa, optStrDefEmpty_eval "link" (("action", a) :: ("class", Value.str "centerlayer") :: ("link", lk) :: ("name", Value.str nm) :: ("redraw", rd) :: ("showmode", Value.int sm) :: ("type", ty) :: extras) lk (by simp [getKey]) hvlk, hrrd, List.filter_eq_self]
      intro a b hab
      have := legitExtras_prop _ _ hvex a b hab
      simpa using this
    · simp [encodeCenterlayerDetails, hoa2, encOptStr_vOptStr _ hvlk, hrrd2]
  case _ =>
    simp at h

theorem seDetails_rt (v : Value) (h : legitSEDetails v = true) :
    ∃ r, decodeSEDetails v = .ok r ∧ encodeSEDetails r = v := by
  unfold legitSEDetails at h
  split at h
  case _ nm extras =>
    have hvex := h
    refine ⟨⟨nm, extras⟩, ?_, ?_⟩
    · simp only [decodeSEDetails]
      simp [Bind.bind, Except.bind, reqStr, reqInt, reqLit, reqModel, anyVal, getKey, extrasOf, List.filter_eq_self]
      intro a b hab
      have := legitExtras_prop _ _ hvex a b hab
      simpa using this
    · simp [encodeSEDetails]
  case _ =>
    simp at h

theorem fixCaptionDetails_rt (v : Value) (h : legitFixCaptionDetails v = true) :
    ∃ r, decodeFixCaptionDetails v = .ok r ∧ encodeFixCaptionDetails r = v := by
  unfold legitFixCaptionDetails at h
  split at h
  case _ a lk nm rd sm ty =>
    simp only [Bool.and_eq_true] at h
    obtain ⟨⟨ha, hvlk⟩, hvrd⟩ := h
    obtain ⟨oa, hoa, hoa2⟩ := optArrOfArrOrNull_eval "action"
      ([("action", a), ("class", Value.str "fixcaption"), ("link", lk), ("name", Value.str nm), ("redraw", rd), ("showmode", Value.int sm), ("type", ty)]) a (by simp [getKey]) ha
    obtain ⟨ord, hord, hord2⟩ := optModel_rt "redraw" decodeRedraw
      encodeRedraw legitRedraw
      ([("action", a), ("class", Value.str "fixcaption"), ("link", lk), ("name", Value.str nm), ("redraw", rd), ("showmode", Value.int sm), ("type", ty)]) rd redraw_rt (by simp [getKey]) hvrd
    refine ⟨⟨oa, vOptStr lk, nm, ord, sm, ty⟩, ?_, ?_⟩
    · simp only [decodeFixCaptionDetails]
      simp [Bind.bind, Except.bind, reqStr, reqInt, reqLit, reqModel, anyVal, getKey, extrasOf, hoa, optStrDefEmpty_eval "link" ([("action", a), ("class", Value.str "fixcaption"), ("link", lk), ("name", Value.str nm), ("redraw", rd), ("showmode", Value.int sm), ("type", ty)]) lk (by simp [getKey]) hvlk, hord, List.filter_eq_self]
    · cases ord <;> simp_all [encodeFixCaptionDetails, hoa2, encOptStr_vOptStr _ hvlk, encOptRedraw, encOptTransform, hord2]
  case _ =>
    simp at h

theorem detailsByClass_rt (c : String) (v : Value) (h : legitDetailsFor c v = true) :
    ∃ d, decodeDetailsByClass c v = .ok d ∧ encodeDataItemDetails d = v := by
  unfold legitDetailsFor at h
  unfold decodeDetailsByClass
  split_ifs at h ⊢
  · obtain ⟨r, hr, hr2⟩ := bgmDetails_rt v h
    exact ⟨.bgm r, by simp [hr, Except.map], by simp [encodeDataItemDetails, hr2]⟩
  · obtain ⟨r, hr, hr2⟩ := loopSEDetails_rt v h
    exact ⟨.loopse r, by simp [hr, Except.map], by simp [encodeDataItemDetails, hr2]⟩
  · obtain ⟨r, hr, hr2⟩ := stageDetails_rt v h
    exact ⟨.stage r, by simp [hr, Except.map], by simp [encodeDataItemDetails, hr2]⟩
  · obtain ⟨r, hr, hr2⟩ := characterDetails_rt v h
    exact ⟨.character r, by simp [hr, Except.map], by simp [encodeDataItemDetails, hr2]⟩
  · obtain ⟨r, hr, hr2⟩ := msgwinDetails_rt v h
    exact ⟨.msgwin r, by simp [hr, Except.map], by simp [encodeDataItemDetails, hr2]⟩
  · obtain ⟨r, hr, hr2⟩ := eventDetails_rt v h
    exact ⟨.event r, by simp [hr, Except.map], by simp [encodeDataItemDetails, hr2]⟩
  · obtain ⟨r, hr, hr2⟩ := event2Details_rt v h
    exact ⟨.event2 r, by simp [hr, Except.map], by simp [encodeDataItemDetails, hr2]⟩
  · obtain ⟨r, hr, hr2⟩ := centerlayerDetails_rt v h
    exact ⟨.centerlayer r, by simp [hr, Except.map], by simp [encodeDataItemDetails, hr2]⟩
  · obtain ⟨r, hr, hr2⟩ := seDetails_rt v h
    exact ⟨.se r, by simp [hr, Except.map], by simp [encodeDataItemDetails, hr2]⟩
  · obtain ⟨r, hr, hr2⟩ := fixCaptionDetails_rt v h
    exact ⟨.fixcaption r, by simp [hr, Except.map], by simp [encodeDataItemDetails, hr2]⟩

theorem dataItem_rt (v : Value) (h : legitDataItem v = true) :
    ∃ d, decodeDataItem v = .ok d ∧ encodeDataItem d = v := by
  unfold legitDataItem at h
  split at h
  case _ nm c d =>
    by_cases hc : detailsTags.contains c = true
    · rw [if_pos hc] at h
      obtain ⟨r, hr, hr2⟩ := detailsByClass_rt c d h
      refine ⟨⟨nm, c, r⟩, ?_, ?_⟩
      · simp only [decodeDataItem]
        rw [if_pos hc]
        simp [hr, Bind.bind, Except.bind]
      · simp [encodeDataItem, hr2]
    · rw [if_neg hc] at h
      match d, h with
      | .obj kvs, _ =>
        refine ⟨⟨nm, c, .fallback kvs⟩, ?_, rfl⟩
        simp only [decodeDataItem]
        rw [if_neg hc]
        simp [decodeDataItemDetails, Bind.bind, Except.bind]
  case _ =>
    simp at h

theorem env_rt (v : Value) (h : legitEnv v = true) :
    ∃ r, decodeEnv v = .ok r ∧ encodeEnv r = v := by
  unfold legitEnv at h
  split at h
  case _ nm a extras =>
    simp only [Bool.and_eq_true] at h
    obtain ⟨ha, hex⟩ := h
    refine ⟨⟨nm, (match a with | .arr xs => some xs | _ => none), extras⟩, ?_, ?_⟩
    · simp only [decodeEnv]
      match a, ha with
      | .null, _ =>
        simp [Bind.bind, Except.bind, reqStr, getKey, extrasOf, List.filter_eq_self]
        intro a b hab
        have := legitExtras_prop _ _ hex a b hab
        simpa using this
      | .arr xs, ha =>
        simp only [isOptActionList] at ha
        simp [Bind.bind, Except.bind, reqStr, getKey, extrasOf, ha,
          List.filter_eq_self]
        intro a b hab
        have := legitExtras_prop _ _ hex a b hab
        simpa using this
    · match a, ha with
      | .null, _ => simp [encodeEnv, encOptArr]
      | .arr xs, _ => simp [encodeEnv, encOptArr]
  case _ =>
    simp at h

theorem showDate_rt (v : Value) (h : legitShowDate v = true) :
    ∃ r, decodeShowDate v = .ok r ∧ encodeShowDate r = v := by
  unfold legitShowDate at h
  split at h
  case _ bk d fo n extras =>
    simp only [Bool.and_eq_true] at h
    obtain ⟨⟨hd, hn⟩, hex⟩ := h
    refine ⟨⟨bk, vOptStr d, fo, vOptInt n, extras⟩, ?_, ?_⟩
    · simp only [decodeShowDate]
      rw [optStr_eval "date"
        (("back", bk) :: ("date", d) :: ("fore", fo) :: ("nowShow", n) :: extras) d
        (by simp [getKey]) hd]
      rw [optInt_eval "nowShow"
        (("back", bk) :: ("date", d) :: ("fore", fo) :: ("nowShow", n) :: extras) n
        (by simp [getKey]) hn]
      simp [Bind.bind, Except.bind, anyVal, getKey, extrasOf, List.filter_eq_self]
      intro a b hab
      have := legitExtras_prop _ _ hex a b hab
      simpa using this
    · simp [encodeShowDate, encOptStr_vOptStr _ hd, encOptInt_vOptInt _ hn]
  case _ =>
    simp at h

theorem reqOptInt_eval (k : String) (kvs : Entries) (v : Value)
    (hget : getKey k kvs = some v) (hv : isOptIntV v = true) :
    reqOptInt k kvs = .ok (vOptInt v) := by
  unfold reqOptInt
  rw [hget]
  cases v <;> simp_all [isOptIntV, vOptInt]

theorem snapshotPoint_rt (v : Value) (h : legitSnapshotPoint v = true) :
    ∃ r, decodeSnapshotPoint v = .ok r ∧ encodeSnapshotPoint r = v := by
  unfold legitSnapshotPoint at h
  split at h
  case _ m ds e ph sc sd extras =>
    simp only [Bool.and_eq_true] at h
    obtain ⟨⟨⟨⟨⟨⟨hm, hds⟩, he⟩, hph⟩, hsc⟩, hsd⟩, hex⟩ := h
    obtain ⟨rds, hrds, hrds2⟩ := mapM_rt decodeDataItem encodeDataItem
      legitDataItem dataItem_rt ds hds
    obtain ⟨re, hre, hre2⟩ := env_rt e he
    obtain ⟨osd, hosd, hosd2⟩ := optModel_rt "showdate" decodeShowDate
      encodeShowDate legitShowDate
      (("_meswinchange", m) :: ("data", Value.arr ds) :: ("env", e) ::
        ("phonechat_showing", ph) :: ("scnchart", sc) :: ("showdate", sd) :: extras)
      sd showDate_rt (by simp [getKey]) hsd
    refine ⟨⟨vOptStr m, rds, re, vOptInt ph, vOptStr sc, osd, extras⟩, ?_, ?_⟩
    · simp only [decodeSnapshotPoint]
      rw [optStr_eval "_meswinchange"
        (("_meswinchange", m) :: ("data", Value.arr ds) :: ("env", e) ::
          ("phonechat_showing", ph) :: ("scnchart", sc) :: ("showdate", sd) :: extras)
        m (by simp [getKey]) hm]
      rw [optStr_eval "scnchart"
        (("_meswinchange", m) :: ("data", Value.arr ds) :: ("env", e) ::
          ("phonechat_showing", ph) :: ("scnchart", sc) :: ("showdate", sd) :: extras)
        sc (by simp [getKey]) hsc]
      rw [reqOptInt_eval "phonechat_showing"
        (("_meswinchange", m) :: ("data", Value.arr ds) :: ("env", e) ::
          ("phonechat_showing", ph) :: ("scnchart", sc) :: ("showdate", sd) :: extras)
        ph (by simp [getKey]) hph]
      have hrds1 : List.mapM.loop decodeDataItem ds [] = Except.ok rds := by
        simpa [List.mapM] using hrds
      simp only [Bind.bind, Except.bind, reqModel, getKey, extrasOf]
      simp [hrds1, hre, hosd, List.filter_eq_self]
      intro a b hab
      have := legitExtras_prop _ _ hex a b hab
      simpa using this
    · have hph2 : encOptInt (vOptInt ph) = ph := encOptInt_vOptInt ph hph
      simp only [encodeSnapshotPoint, encOptStr_vOptStr _ hm,
        encOptStr_vOptStr _ hsc, hph2, hre2, hrds2]
      cases osd with
      | none => simp_all
      | some t => simp_all
  case _ =>
    simp at h

theorem instruction_rt (v : Value) (h : legitInstruction v = true) :
    ∃ i, decodeInstruction v = .ok i ∧ encodeInstruction i = v := by
  unfold legitInstruction at h
  split at h
  case _ n =>
    exact ⟨.init ⟨n⟩, rfl, rfl⟩
  case _ nm c =>
    exact ⟨.new ⟨nm, c, []⟩, rfl, rfl⟩
  case _ nm =>
    exact ⟨.del ⟨nm⟩, rfl, rfl⟩
  case _ nm nn =>
    exact ⟨.ren ⟨nm, nn, []⟩, rfl, rfl⟩
  case _ =>
    simp at h

theorem updateEntry_rt (v : Value) (h : legitUpdateEntry v = true) :
    ∃ u, decodeUpdateEntry v = .ok u ∧ encodeUpdateEntry u = v := by
  unfold legitUpdateEntry at h
  split at h
  case _ items =>
    obtain ⟨i, hi, hi2⟩ := instruction_rt (.arr items) h
    exact ⟨.instr i, by simp [decodeUpdateEntry, hi, Except.map],
      by simp [encodeUpdateEntry, hi2]⟩
  case _ kvs =>
    exact ⟨.details (.fallback kvs), rfl, rfl⟩
  case _ =>
    simp at h

/-- `mapM_rt` in the unfolded accumulator form of `List.mapM`. -/
theorem mapM_rt_loop {α : Type} (dec : Value → Except String α) (enc : α → Value)
    (p : Value → Bool)
    (hrt : ∀ v, p v = true → ∃ t, dec v = .ok t ∧ enc t = v)
    (xs : List Value) (h : xs.all p = true) :
    ∃ ts, List.mapM.loop dec xs [] = .ok ts ∧ ts.map enc = xs := by
  obtain ⟨ts, hts, hts2⟩ := mapM_rt dec enc p hrt xs h
  exact ⟨ts, by simpa [List.mapM] using hts, hts2⟩

theorem waitElem_rt (v : Value) (h : legitWaitElem v = true) :
    ∃ w, decodeWaitElem v = .ok w ∧ encodeWaitElem w = v := by
  unfold legitWaitElem at h
  split at h
  case _ =>
    exact ⟨none, rfl, rfl⟩
  case _ hne =>
    unfold legitWaitEntry at h
    split at h
    case _ mo nm =>
      exact ⟨some ⟨mo, nm⟩, rfl, rfl⟩
    case _ =>
      simp at h

theorem wait_rt (v : Value) (h : legitWait v = true) :
    ∃ w, decodeWait v = .ok w ∧ encodeWait w = v := by
  unfold legitWait at h
  split at h
  case _ xs =>
    obtain ⟨ws, hws, hws2⟩ := mapM_rt_loop decodeWaitElem encodeWaitElem
      legitWaitElem waitElem_rt xs h
    refine ⟨⟨ws⟩, ?_, ?_⟩
    · simp [decodeWait, getKey, hws, Except.map, List.mapM]
    · simp [encodeWait, hws2]
  case _ =>
    simp at h

theorem startlineEvent_rt (items : List Value) (h : legitStartlineEvent items = true) :
    ∃ e, decodeStartlineEvent items = .ok e ∧ encodeStartlineEvent e = .arr items := by
  unfold legitStartlineEvent at h
  split at h
  case _ =>
    exact ⟨⟨none, none, none⟩, rfl, rfl⟩
  case _ vf nm tx =>
    simp only [Bool.and_eq_true] at h
    obtain ⟨hnm, htx⟩ := h
    refine ⟨⟨some vf, vOptStr nm, vOptInt tx⟩, ?_, ?_⟩
    · simp only [decodeStartlineEvent]
      match nm, hnm, tx, htx with
      | .null, _, .null, _ => simp [asOptInt, asOptStr, Bind.bind, Except.bind, vOptStr, vOptInt]
      | .null, _, .int t₁, _ => simp [asOptInt, asOptStr, Bind.bind, Except.bind, vOptStr, vOptInt]
      | .str s₁, _, .null, _ => simp [asOptInt, asOptStr, Bind.bind, Except.bind, vOptStr, vOptInt]
      | .str s₁, _, .int t₁, _ => simp [asOptInt, asOptStr, Bind.bind, Except.bind, vOptStr, vOptInt]
    · simp [encodeStartlineEvent, encOptStr_vOptStr _ hnm, encOptInt_vOptInt _ htx]
  case _ =>
    simp at h

theorem waitEvent_rt (items : List Value) (h : legitWaitEvent items = true) :
    ∃ e, decodeWaitEvent items = .ok e ∧ encodeWaitEvent e = .arr items := by
  unfold legitWaitEvent at h
  split at h
  case _ n =>
    exact ⟨⟨n⟩, rfl, rfl⟩
  case _ =>
    simp at h

theorem scnChartEvent_rt (items : List Value) (h : legitScnChartEvent items = true) :
    ∃ e, decodeScnChartEvent items = .ok e ∧ encodeScnChartEvent e = .arr items := by
  unfold legitScnChartEvent at h
  split at h
  case _ a n =>
    exact ⟨⟨a, n⟩, rfl, rfl⟩
  case _ =>
    simp at h

theorem voiceEffectEvent_rt (items : List Value) (h : legitVoiceEffectEvent items = true) :
    ∃ e, decodeVoiceEffectEvent items = .ok e ∧ encodeVoiceEffectEvent e = .arr items := by
  unfold legitVoiceEffectEvent at h
  split at h
  case _ a s =>
    exact ⟨⟨a, s⟩, rfl, rfl⟩
  case _ =>
    simp at h

theorem chapterEvent_rt (items : List Value) (h : legitChapterEvent items = true) :
    ∃ e, decodeChapterEvent items = .ok e ∧ encodeChapterEvent e = .arr items := by
  unfold legitChapterEvent at h
  split at h
  case _ v rest =>
    exact ⟨⟨v :: rest⟩, rfl, rfl⟩
  case _ =>
    simp at h

theorem msgOffEvent_rt (items : List Value) (h : legitMsgOffEvent items = true) :
    decodeMsgOffEvent items = .ok () ∧ items = [.str "msgoff"] := by
  unfold legitMsgOffEvent at h
  split at h
  case _ =>
    exact ⟨rfl, rfl⟩
  case _ =>
    simp at h

theorem mesWinChangeEvent_rt (items : List Value) (h : legitMesWinChangeEvent items = true) :
    ∃ e, decodeMesWinChangeEvent items = .ok e ∧ encodeMesWinChangeEvent e = .arr items := by
  unfold legitMesWinChangeEvent at h
  split at h
  case _ t =>
    exact ⟨⟨t⟩, rfl, rfl⟩
  case _ =>
    simp at h

theorem quickMenuEvent_rt (items : List Value) (h : legitQuickMenuEvent items = true) :
    ∃ e, decodeQuickMenuEvent items = .ok e ∧ encodeQuickMenuEvent e = .arr items := by
  unfold legitQuickMenuEvent at h
  split at h
  case _ a s =>
    exact ⟨⟨a, s⟩, rfl, rfl⟩
  case _ =>
    simp at h

theorem erEvent_rt (items : List Value) (h : legitErEvent items = true) :
    ∃ e, decodeErEvent items = .ok e ∧ encodeErEvent e = .arr items := by
  unfold legitErEvent at h
  split at h
  case _ v rest =>
    exact ⟨⟨v :: rest⟩, rfl, rfl⟩
  case _ =>
    simp at h

theorem endRecollectionEvent_rt (items : List Value)
    (h : legitEndRecollectionEvent items = true) :
    decodeEndRecollectionEvent items = .ok () ∧ items = [.str "endrecollection"] := by
  unfold legitEndRecollectionEvent at h
  split at h
  case _ =>
    exact ⟨rfl, rfl⟩
  case _ =>
    simp at h

theorem playVoiceEvent_rt (items : List Value) (h : legitPlayVoiceEvent items = true) :
    ∃ e, decodePlayVoiceEvent items = .ok e ∧ encodePlayVoiceEvent e = .arr items := by
  unfold legitPlayVoiceEvent at h
  split at h
  case _ l n t vo =>
    exact ⟨⟨l, n, t, vo⟩, rfl, rfl⟩
  case _ =>
    simp at h

theorem stopVoiceEvent_rt (items : List Value) (h : legitStopVoiceEvent items = true) :
    ∃ e, decodeStopVoiceEvent items = .ok e ∧ encodeStopVoiceEvent e = .arr items := by
  unfold legitStopVoiceEvent at h
  split at h
  case _ n t =>
    exact ⟨⟨n, t⟩, rfl, rfl⟩
  case _ =>
    simp at h

theorem exitEvent_rt (items : List Value) (h : legitExitEvent items = true) :
    ∃ e, decodeExitEvent items = .ok e ∧ encodeExitEvent e = .arr items := by
  unfold legitExitEvent at h
  split at h
  case _ s t ev =>
    exact ⟨⟨s, t, ev⟩, rfl, rfl⟩
  case _ =>
    simp at h

theorem beginSkipEvent_rt (items : List Value) (h : legitBeginSkipEvent items = true) :
    decodeBeginSkipEvent items = .ok () ∧ items = [.str "beginskip"] := by
  unfold legitBeginSkipEvent at h
  split at h
  case _ =>
    exact ⟨rfl, rfl⟩
  case _ =>
    simp at h

theorem endSkipEvent_rt (items : List Value) (h : legitEndSkipEvent items = true) :
    decodeEndSkipEvent items = .ok () ∧ items = [.str "endskip"] := by
  unfold legitEndSkipEvent at h
  split at h
  case _ =>
    exact ⟨rfl, rfl⟩
  case _ =>
    simp at h

theorem sysVoiceEvent_rt (items : List Value) (h : legitSysVoiceEvent items = true) :
    ∃ e, decodeSysVoiceEvent items = .ok e ∧ encodeSysVoiceEvent e = .arr items := by
  unfold legitSysVoiceEvent at h
  split at h
  case _ ey n c =>
    exact ⟨⟨ey, n, c⟩, rfl, rfl⟩
  case _ =>
    simp at h

theorem dataItemDetailsObj_rt (v : Value) (h : isObjV v = true) :
    ∃ d, decodeDataItemDetails v = .ok d ∧ encodeDataItemDetails d = v := by
  match v, h with
  | .obj kvs, _ => exact ⟨.fallback kvs, rfl, rfl⟩

theorem delayRunEvent_rt (items : List Value) (h : legitDelayRunEvent items = true) :
    ∃ e, decodeDelayRunEvent items = .ok e ∧ encodeDelayRunEvent e = .arr items := by
  unfold legitDelayRunEvent at h
  split at h
  case _ l t us rs =>
    simp only [Bool.and_eq_true] at h
    obtain ⟨hus, hrs⟩ := h
    obtain ⟨dus, hdus, hdus2⟩ := mapM_rt_loop decodeDataItemDetails
      encodeDataItemDetails isObjV dataItemDetailsObj_rt us hus
    obtain ⟨drs, hdrs, hdrs2⟩ := mapM_rt_loop decodeDataItemDetails
      encodeDataItemDetails isObjV dataItemDetailsObj_rt rs hrs
    refine ⟨⟨l, t, dus, drs, none⟩, ?_, ?_⟩
    · simp [decodeDelayRunEvent, asStr, pairList, lastLookupV, delayReqDetails,
        delayOptTransform, Bind.bind, Except.bind, List.mapM, hdus, hdrs]
    · simp [encodeDelayRunEvent, hdus2, hdrs2]
  case _ l t us rs tv =>
    simp only [Bool.and_eq_true] at h
    obtain ⟨⟨hus, hrs⟩, htv⟩ := h
    obtain ⟨dus, hdus, hdus2⟩ := mapM_rt_loop decodeDataItemDetails
      encodeDataItemDetails isObjV dataItemDetailsObj_rt us hus
    obtain ⟨drs, hdrs, hdrs2⟩ := mapM_rt_loop decodeDataItemDetails
      encodeDataItemDetails isObjV dataItemDetailsObj_rt rs hrs
    obtain ⟨dt, hdt, hdt2⟩ := transform_rt tv htv
    refine ⟨⟨l, t, dus, drs, some dt⟩, ?_, ?_⟩
    · match tv, htv with
      | .obj kvs1, _ =>
        simp [decodeDelayRunEvent, asStr, pairList, lastLookupV, delayReqDetails,
          delayOptTransform, Bind.bind, Except.bind, List.mapM, hdus, hdrs, hdt,
          Except.map]
    · simp [encodeDelayRunEvent, hdus2, hdrs2, hdt2]
  case _ =>
    simp at h

theorem slotValue_all_none (k : String) :
    slotValue none none none none none none none k = none := by
  unfold slotValue
  split_ifs <;> rfl

theorem encodeSlots_all_none (keys : List String) :
    encodeSlots keys none none none none none none none = [] := by
  induction keys with
  | nil => rfl
  | cons k keys ih =>
    simp [encodeSlots, slotValue_all_none, ih]

theorem lastLookupEnv_cons_self (k : String) (ev : EnvVal)
    (ps : List (Value × EnvVal)) (h : lastLookupEnv k ps = none) :
    lastLookupEnv k ((Value.str k, ev) :: ps) = some ev := by
  simp [lastLookupEnv, h]

theorem lastLookupEnv_cons_ne (k k₁ : String) (ev : EnvVal)
    (ps : List (Value × EnvVal)) (h : (k₁ == k) = false) :
    lastLookupEnv k ((Value.str k₁, ev) :: ps) = lastLookupEnv k ps := by
  match hh : lastLookupEnv k ps with
  | some r => simp [lastLookupEnv, hh]
  | none => simp [lastLookupEnv, hh, h]

theorem envOptEntries_req (k : String) (s : Option EnvVal) (l : List UpdateEntry)
    (h : envOptEntries k s = .ok (some l)) : envReqEntries k s = .ok l := by
  match s with
  | none => simp [envOptEntries] at h
  | some (.entries l₁) =>
    simp [envOptEntries] at h
    simp [envReqEntries, h]
  | some (.instrs l₁) => simp [envOptEntries] at h
  | some (.raw .null) => simp [envOptEntries] at h
  | some (.raw (.bool b)) => simp [envOptEntries] at h
  | some (.raw (.int n)) => simp [envOptEntries] at h
  | some (.raw (.flt q)) => simp [envOptEntries] at h
  | some (.raw (.str s₁)) => simp [envOptEntries] at h
  | some (.raw (.arr xs)) => simp [envOptEntries] at h
  | some (.raw (.obj kvs)) => simp [envOptEntries] at h

theorem legitEnvPairs_even (keys : List String) (rest : List Value)
    (h : legitEnvPairs keys rest = true) : rest.length % 2 = 0 := by
  induction keys, rest using legitEnvPairs.induct with
  | case1 keys => simp
  | case2 v rest => simp [legitEnvPairs] at h
  | case3 k₀ keys k v rest hif ih =>
    rw [legitEnvPairs] at h
    rw [if_pos hif] at h
    simp only [Bool.and_eq_true] at h
    have := ih h.2
    simp [List.length]
    omega
  | case4 k₀ keys k v rest hif ih =>
    rw [legitEnvPairs] at h
    rw [if_neg hif] at h
    exact ih h
  | case5 k₀ keys rest h1 h2 =>
    rw [legitEnvPairs.eq_def] at h
    split at h
    · exact absurd rfl (fun hh => h1 hh)
    · simp at h
    · exact (h2 _ _ _ rfl).elim
    · simp at h

theorem slotValue_irrel_pre (p₁ p₂ : Option (List Instruction))
    (u : Option (List UpdateEntry)) (r₁ : Option (List Instruction))
    (r₂ : Option (List UpdateEntry)) (w : Option Wait) (t : Option Transform)
    (m : Option Int) (k : String) (h : (k == "pretrans") = false) :
    slotValue p₁ u r₁ r₂ w t m k = slotValue p₂ u r₁ r₂ w t m k := by
  simp [slotValue, h]

theorem slotValue_irrel_upd (p : Option (List Instruction))
    (u₁ u₂ : Option (List UpdateEntry)) (r₁ : Option (List Instruction))
    (r₂ : Option (List UpdateEntry)) (w : Option Wait) (t : Option Transform)
    (m : Option Int) (k : String) (h : (k == "update") = false) :
    slotValue p u₁ r₁ r₂ w t m k = slotValue p u₂ r₁ r₂ w t m k := by
  simp [slotValue, h]

theorem slotValue_irrel_rpre (p : Option (List Instruction))
    (u : Option (List UpdateEntry)) (r₁ r₃ : Option (List Instruction))
    (r₂ : Option (List UpdateEntry)) (w : Option Wait) (t : Option Transform)
    (m : Option Int) (k : String) (h : (k == "revpretrans") = false) :
    slotValue p u r₁ r₂ w t m k = slotValue p u r₃ r₂ w t m k := by
  simp [slotValue, h]

theorem slotValue_irrel_rupd (p : Option (List Instruction))
    (u : Option (List UpdateEntry)) (r₁ : Option (List Instruction))
    (r₂ r₄ : Option (List UpdateEntry)) (w : Option Wait) (t : Option Transform)
    (m : Option Int) (k : String) (h : (k == "revupdate") = false) :
    slotValue p u r₁ r₂ w t m k = slotValue p u r₁ r₄ w t m k := by
  simp [slotValue, h]

theorem slotValue_irrel_wait (p : Option (List Instruction))
    (u : Option (List UpdateEntry)) (r₁ : Option (List Instruction))
    (r₂ : Option (List UpdateEntry)) (w₁ w₂ : Option Wait) (t : Option Transform)
    (m : Option Int) (k : String) (h : (k == "wait") = false) :
    slotValue p u r₁ r₂ w₁ t m k = slotValue p u r₁ r₂ w₂ t m k := by
  simp [slotValue, h]

theorem slotValue_irrel_trans (p : Option (List Instruction))
    (u : Option (List UpdateEntry)) (r₁ : Option (List Instruction))
    (r₂ : Option (List UpdateEntry)) (w : Option Wait) (t₁ t₂ : Option Transform)
    (m : Option Int) (k : String) (h : (k == "trans") = false) :
    slotValue p u r₁ r₂ w t₁ m k = slotValue p u r₁ r₂ w t₂ m k := by
  simp [slotValue, h]

theorem slotValue_irrel_msgoff (p : Option (List Instruction))
    (u : Option (List UpdateEntry)) (r₁ : Option (List Instruction))
    (r₂ : Option (List UpdateEntry)) (w : Option Wait) (t : Option Transform)
    (m₁ m₂ : Option Int) (k : String) (h : (k == "msgoff") = false) :
    slotValue p u r₁ r₂ w t m₁ k = slotValue p u r₁ r₂ w t m₂ k := by
  simp [slotValue, h]

theorem encodeSlots_congr (keys : List String)
    (p₁ p₂ : Option (List Instruction)) (u₁ u₂ : Option (List UpdateEntry))
    (q₁ q₂ : Option (List Instruction)) (s₁ s₂ : Option (List UpdateEntry))
    (w₁ w₂ : Option Wait) (t₁ t₂ : Option Transform) (m₁ m₂ : Option Int)
    (h : ∀ k, k ∈ keys →
      slotValue p₁ u₁ q₁ s₁ w₁ t₁ m₁ k = slotValue p₂ u₂ q₂ s₂ w₂ t₂ m₂ k) :
    encodeSlots keys p₁ u₁ q₁ s₁ w₁ t₁ m₁ = encodeSlots keys p₂ u₂ q₂ s₂ w₂ t₂ m₂ := by
  induction keys with
  | nil => rfl
  | cons k keys ih =>
    have hk := h k (by simp)
    have ih2 := ih (fun k₁ hk₁ => h k₁ (by simp [hk₁]))
    simp only [encodeSlots] at ih2 ⊢
    rw [List.foldr_cons, List.foldr_cons, hk, ih2]

theorem envPairs_rt (keys : List String) (rest : List Value)
    (hsuf : keys.IsSuffix envCanonicalKeys)
    (h : legitEnvPairs keys rest = true) :
    ∃ ps, envPairs rest = .ok ps ∧
      (∀ k, keys.contains k = false → lastLookupEnv k ps = none) ∧
      ∃ pre upd rpre rupd w t mo,
        envOptInstrs "pretrans" (lastLookupEnv "pretrans" ps) = .ok pre ∧
        envOptEntries "update" (lastLookupEnv "update" ps) = .ok upd ∧
        envOptInstrs "revpretrans" (lastLookupEnv "revpretrans" ps) = .ok rpre ∧
        envOptEntries "revupdate" (lastLookupEnv "revupdate" ps) = .ok rupd ∧
        envOptWait (lastLookupEnv "wait" ps) = .ok w ∧
        envOptTransform (lastLookupEnv "trans" ps) = .ok t ∧
        envOptMsgoff (lastLookupEnv "msgoff" ps) = .ok mo ∧
        (containsKeyPair "update" rest = true → upd.isSome = true) ∧
        encodeSlots keys pre upd rpre rupd w t mo = rest := by
  induction keys, rest using legitEnvPairs.induct with
  | case1 keys =>
    refine ⟨[], rfl, fun k _ => rfl, none, none, none, none, none, none, none,
      rfl, rfl, rfl, rfl, rfl, rfl, rfl, by simp [containsKeyPair], ?_⟩
    exact encodeSlots_all_none keys
  | case2 v rest =>
    simp [legitEnvPairs] at h
  | case3 k₀ keys k v rest hif ih =>
    rw [legitEnvPairs] at h
    rw [if_pos hif] at h
    simp only [Bool.and_eq_true] at h
    obtain ⟨hval, hrest⟩ := h
    have hk : k₀ = k := eq_of_beq hif
    subst hk
    have hsuf2 : keys.IsSuffix envCanonicalKeys := by
      obtain ⟨t₁, ht₁⟩ := hsuf
      exact ⟨t₁ ++ [k₀], by simp [ht₁]⟩
    obtain ⟨ps, hps, hnone, pre, upd, rpre, rupd, w, t, mo, h1, h2, h3, h4, h5,
      h6, h7, hupdsome, henc⟩ := ih hsuf2 hrest
    have hnodup : (k₀ :: keys).Nodup := by
      have hnd : envCanonicalKeys.Nodup := by decide
      exact hnd.sublist hsuf.sublist
    have hk₀nin : k₀ ∉ keys := by
      simp [List.nodup_cons] at hnodup
      exact hnodup.1
    have hk₀mem : k₀ ∈ envCanonicalKeys :=
      hsuf.sublist.subset (List.mem_cons_self _ _)
    have hk₀none : lastLookupEnv k₀ ps = none := by
      apply hnone
      simpa using hk₀nin
    have hkeysne : ∀ k₁, k₁ ∈ keys → (k₁ == k₀) = false := by
      intro k₁ hk₁
      have : k₁ ≠ k₀ := fun hh => hk₀nin (hh ▸ hk₁)
      simpa using this
    simp [envCanonicalKeys] at hk₀mem
    rcases hk₀mem with h₀ | h₀ | h₀ | h₀ | h₀ | h₀ | h₀ <;> subst h₀
    · -- pretrans
      simp only [legitEnvPairValue] at hval
      rw [if_pos (by rfl)] at hval
      match v, hval with
      | .arr xs, hval =>
        have hpre : pre = none := by
          rw [hk₀none] at h1
          simpa [envOptInstrs] using h1.symm
        subst hpre
        obtain ⟨is, his, his2⟩ := mapM_rt_loop decodeInstruction
          encodeInstruction legitInstruction instruction_rt xs hval
        refine ⟨(Value.str "pretrans", EnvVal.instrs is) :: ps, ?_,
          ?_, some is, upd, rpre, rupd, w, t, mo, ?_, ?_, ?_, ?_, ?_, ?_, ?_,
          ?_, ?_⟩
        · simp [envPairs, processEnvPair, List.mapM, his, Except.map, hps,
            Bind.bind, Except.bind]
        · intro k₁ hk₁
          simp only [List.contains, List.elem_cons] at hk₁
          split at hk₁
          · simp at hk₁
          · rw [lastLookupEnv_cons_ne _ _ _ _ (by simp_all [BEq.comm])]
            exact hnone k₁ hk₁
        · rw [lastLookupEnv_cons_self _ _ _ hk₀none]
          rfl
        · rw [lastLookupEnv_cons_ne _ _ _ _ (by rfl)]
          exact h2
        · rw [lastLookupEnv_cons_ne _ _ _ _ (by rfl)]
          exact h3
        · rw [lastLookupEnv_cons_ne _ _ _ _ (by rfl)]
          exact h4
        · rw [lastLookupEnv_cons_ne _ _ _ _ (by rfl)]
          exact h5
        · rw [lastLookupEnv_cons_ne _ _ _ _ (by rfl)]
          exact h6
        · rw [lastLookupEnv_cons_ne _ _ _ _ (by rfl)]
          exact h7
        · intro hc
          apply hupdsome
          simpa [containsKeyPair] using hc
        · simp only [encodeSlots, List.foldr_cons]
          have hsv : slotValue (some is) upd rpre rupd w t mo "pretrans" =
              some (Value.arr xs) := by
            simp [slotValue, his2]
          rw [hsv]
          have hcongr := encodeSlots_congr keys (some is) none upd upd rpre rpre
            rupd rupd w w t t mo mo (fun k₁ hk₁ =>
              slotValue_irrel_pre _ _ _ _ _ _ _ _ _ (hkeysne k₁ hk₁))
          simp only [encodeSlots] at hcongr henc
          rw [hcongr, henc]
    · -- update
      simp only [legitEnvPairValue] at hval
      rw [if_neg (by simp)] at hval
      rw [if_pos (by rfl)] at hval
      match v, hval with
      | .arr xs, hval =>
        have hprev : upd = none := by
          rw [hk₀none] at h2
          simpa [envOptEntries] using h2.symm
        subst hprev
        obtain ⟨us, hus, hus2⟩ := mapM_rt_loop decodeUpdateEntry
          encodeUpdateEntry legitUpdateEntry updateEntry_rt xs hval
        refine ⟨(Value.str "update", EnvVal.entries us) :: ps, ?_,
          ?_, pre, some us, rpre, rupd, w, t, mo, ?_, ?_, ?_, ?_, ?_, ?_, ?_,
          ?_, ?_⟩
        · simp [envPairs, processEnvPair, List.mapM, hus, Except.map, hps,
            Bind.bind, Except.bind]
        · intro k₁ hk₁
          simp only [List.contains, List.elem_cons] at hk₁
          split at hk₁
          · simp at hk₁
          · rw [lastLookupEnv_cons_ne _ _ _ _ (by simp_all [BEq.comm])]
            exact hnone k₁ hk₁
        · rw [lastLookupEnv_cons_ne _ _ _ _ (by rfl)]
          exact h1
        · rw [lastLookupEnv_cons_self _ _ _ hk₀none]
          rfl
        · rw [lastLookupEnv_cons_ne _ _ _ _ (by rfl)]
          exact h3
        · rw [lastLookupEnv_cons_ne _ _ _ _ (by rfl)]
          exact h4
        · rw [lastLookupEnv_cons_ne _ _ _ _ (by rfl)]
          exact h5
        · rw [lastLookupEnv_cons_ne _ _ _ _ (by rfl)]
          exact h6
        · rw [lastLookupEnv_cons_ne _ _ _ _ (by rfl)]
          exact h7
        · intro hc
          rfl
        · simp only [encodeSlots, List.foldr_cons]
          have hsv : slotValue pre (some us) rpre rupd w t mo "update" =
              some (Value.arr xs) := by
            simp [slotValue, hus2]
          rw [hsv]
          have hcongr := encodeSlots_congr keys pre pre (some us) none rpre rpre rupd rupd w w t t mo mo (fun k₁ hk₁ =>
            slotValue_irrel_upd _ _ _ _ _ _ _ _ _ (hkeysne k₁ hk₁))
          simp only [encodeSlots] at hcongr henc
          rw [hcongr, henc]
    · -- revpretrans
      simp only [legitEnvPairValue] at hval
      rw [if_neg (by simp)] at hval
      rw [if_neg (by simp)] at hval
      rw [if_pos (by rfl)] at hval
      match v, hval with
      | .arr xs, hval =>
        have hprev : rpre = none := by
          rw [hk₀none] at h3
          simpa [envOptInstrs] using h3.symm
        subst hprev
        obtain ⟨is, his, his2⟩ := mapM_rt_loop decodeInstruction
          encodeInstruction legitInstruction instruction_rt xs hval
        refine ⟨(Value.str "revpretrans", EnvVal.instrs is) :: ps, ?_,
          ?_, pre, upd, some is, rupd, w, t, mo, ?_, ?_, ?_, ?_, ?_, ?_, ?_,
          ?_, ?_⟩
        · simp [envPairs, processEnvPair, List.mapM, his, Except.map, hps,
            Bind.bind, Except.bind]
        · intro k₁ hk₁
          simp only [List.contains, List.elem_cons] at hk₁
          split at hk₁
          · simp at hk₁
          · rw [lastLookupEnv_cons_ne _ _ _ _ (by simp_all [BEq.comm])]
            exact hnone k₁ hk₁
        · rw [lastLookupEnv_cons_ne _ _ _ _ (by rfl)]
          exact h1
        · rw [lastLookupEnv_cons_ne _ _ _ _ (by rfl)]
          exact h2
        · rw [lastLookupEnv_cons_self _ _ _ hk₀none]
          rfl
        · rw [lastLookupEnv_cons_ne _ _ _ _ (by rfl)]
          exact h4
        · rw [lastLookupEnv_cons_ne _ _ _ _ (by rfl)]
          exact h5
        · rw [lastLookupEnv_cons_ne _ _ _ _ (by rfl)]
          exact h6
        · rw [lastLookupEnv_cons_ne _ _ _ _ (by rfl)]
          exact h7
        · intro hc
          apply hupdsome
          simpa [containsKeyPair] using hc
        · simp only [encodeSlots, List.foldr_cons]
          have hsv : slotValue pre upd (some is) rupd w t mo "revpretrans" =
              some (Value.arr xs) := by
            simp [slotValue, his2]
          rw [hsv]
          have hcongr := encodeSlots_congr keys pre pre upd upd (some is) none rupd rupd w w t t mo mo (fun k₁ hk₁ =>
            slotValue_irrel_rpre _ _ _ _ _ _ _ _ _ (hkeysne k₁ hk₁))
          simp only [encodeSlots] at hcongr henc
          rw [hcongr, henc]
    · -- revupdate
      simp only [legitEnvPairValue] at hval
      rw [if_neg (by simp)] at hval
      rw [if_neg (by simp)] at hval
      rw [if_neg (by simp)] at hval
      rw [if_pos (by rfl)] at hval
      match v, hval with
      | .arr xs, hval =>
        have hprev : rupd = none := by
          rw [hk₀none] at h4
          simpa [envOptEntries] using h4.symm
        subst hprev
        obtain ⟨us, hus, hus2⟩ := mapM_rt_loop decodeUpdateEntry
          encodeUpdateEntry legitUpdateEntry updateEntry_rt xs hval
        refine ⟨(Value.str "revupdate", EnvVal.entries us) :: ps, ?_,
          ?_, pre, upd, rpre, some us, w, t, mo, ?_, ?_, ?_, ?_, ?_, ?_, ?_,
          ?_, ?_⟩
        · simp [envPairs, processEnvPair, List.mapM, hus, Except.map, hps,
            Bind.bind, Except.bind]
        · intro k₁ hk₁
          simp only [List.contains, List.elem_cons] at hk₁
          split at hk₁
          · simp at hk₁
          · rw [lastLookupEnv_cons_ne _ _ _ _ (by simp_all [BEq.comm])]
            exact hnone k₁ hk₁
        · rw [lastLookupEnv_cons_ne _ _ _ _ (by rfl)]
          exact h1
        · rw [lastLookupEnv_cons_ne _ _ _ _ (by rfl)]
          exact h2
        · rw [lastLookupEnv_cons_ne _ _ _ _ (by rfl)]
          exact h3
        · rw [lastLookupEnv_cons_self _ _ _ hk₀none]
          rfl
        · rw [lastLookupEnv_cons_ne _ _ _ _ (by rfl)]
          exact h5
        · rw [lastLookupEnv_cons_ne _ _ _ _ (by rfl)]
          exact h6
        · rw [lastLookupEnv_cons_ne _ _ _ _ (by rfl)]
          exact h7
        · intro hc
          apply hupdsome
          simpa [containsKeyPair] using hc
        · simp only [encodeSlots, List.foldr_cons]
          have hsv : slotValue pre upd rpre (some us) w t mo "revupdate" =
              some (Value.arr xs) := by
            simp [slotValue, hus2]
          rw [hsv]
          have hcongr := encodeSlots_congr keys pre pre upd upd rpre rpre (some us) none w w t t mo mo (fun k₁ hk₁ =>
            slotValue_irrel_rupd _ _ _ _ _ _ _ _ _ (hkeysne k₁ hk₁))
          simp only [encodeSlots] at hcongr henc
          rw [hcongr, henc]
    · -- wait
      simp only [legitEnvPairValue] at hval
      rw [if_neg (by simp)] at hval
      rw [if_neg (by simp)] at hval
      rw [if_neg (by simp)] at hval
      rw [if_neg (by simp)] at hval
      rw [if_pos (by rfl)] at hval
      match v, hval with
      | .obj kvs₁, hval =>
        have hprev : w = none := by
          rw [hk₀none] at h5
          simpa [envOptWait] using h5.symm
        subst hprev
        obtain ⟨rw₁, hrw, hrw2⟩ := wait_rt (.obj kvs₁) hval
        refine ⟨(Value.str "wait", EnvVal.raw (Value.obj kvs₁)) :: ps, ?_,
          ?_, pre, upd, rpre, rupd, some rw₁, t, mo, ?_, ?_, ?_, ?_, ?_, ?_, ?_,
          ?_, ?_⟩
        · simp [envPairs, processEnvPair, hps, Bind.bind, Except.bind]
        · intro k₁ hk₁
          simp only [List.contains, List.elem_cons] at hk₁
          split at hk₁
          · simp at hk₁
          · rw [lastLookupEnv_cons_ne _ _ _ _ (by simp_all [BEq.comm])]
            exact hnone k₁ hk₁
        · rw [lastLookupEnv_cons_ne _ _ _ _ (by rfl)]
          exact h1
        · rw [lastLookupEnv_cons_ne _ _ _ _ (by rfl)]
          exact h2
        · rw [lastLookupEnv_cons_ne _ _ _ _ (by rfl)]
          exact h3
        · rw [lastLookupEnv_cons_ne _ _ _ _ (by rfl)]
          exact h4
        · rw [lastLookupEnv_cons_self _ _ _ hk₀none]
          simp [envOptWait, hrw, Except.map]
        · rw [lastLookupEnv_cons_ne _ _ _ _ (by rfl)]
          exact h6
        · rw [lastLookupEnv_cons_ne _ _ _ _ (by rfl)]
          exact h7
        · intro hc
          apply hupdsome
          simpa [containsKeyPair] using hc
        · simp only [encodeSlots, List.foldr_cons]
          have hsv : slotValue pre upd rpre rupd (some rw₁) t mo "wait" =
              some (Value.obj kvs₁) := by
            simp [slotValue, hrw2]
          rw [hsv]
          have hcongr := encodeSlots_congr keys pre pre upd upd rpre rpre rupd rupd (some rw₁) none t t mo mo (fun k₁ hk₁ =>
            slotValue_irrel_wait _ _ _ _ _ _ _ _ _ (hkeysne k₁ hk₁))
          simp only [encodeSlots] at hcongr henc
          rw [hcongr, henc]
    · -- trans
      simp only [legitEnvPairValue] at hval
      rw [if_neg (by simp)] at hval
      rw [if_neg (by simp)] at hval
      rw [if_neg (by simp)] at hval
      rw [if_neg (by simp)] at hval
      rw [if_neg (by simp)] at hval
      rw [if_pos (by rfl)] at hval
      match v, hval with
      | .obj kvs₁, hval =>
        have hprev : t = none := by
          rw [hk₀none] at h6
          simpa [envOptTransform] using h6.symm
        subst hprev
        obtain ⟨rt₁, hrt, hrt2⟩ := transform_rt (.obj kvs₁) hval
        refine ⟨(Value.str "trans", EnvVal.raw (Value.obj kvs₁)) :: ps, ?_,
          ?_, pre, upd, rpre, rupd, w, some rt₁, mo, ?_, ?_, ?_, ?_, ?_, ?_, ?_,
          ?_, ?_⟩
        · simp [envPairs, processEnvPair, hps, Bind.bind, Except.bind]
        · intro k₁ hk₁
          simp only [List.contains, List.elem_cons] at hk₁
          split at hk₁
          · simp at hk₁
          · rw [lastLookupEnv_cons_ne _ _ _ _ (by simp_all [BEq.comm])]
            exact hnone k₁ hk₁
        · rw [lastLookupEnv_cons_ne _ _ _ _ (by rfl)]
          exact h1
        · rw [lastLookupEnv_cons_ne _ _ _ _ (by rfl)]
          exact h2
        · rw [lastLookupEnv_cons_ne _ _ _ _ (by rfl)]
          exact h3
        · rw [lastLookupEnv_cons_ne _ _ _ _ (by rfl)]
          exact h4
        · rw [lastLookupEnv_cons_ne _ _ _ _ (by rfl)]
          exact h5
        · rw [lastLookupEnv_cons_self _ _ _ hk₀none]
          simp [envOptTransform, hrt, Except.map]
        · rw [lastLookupEnv_cons_ne _ _ _ _ (by rfl)]
          exact h7
        · intro hc
          apply hupdsome
          simpa [containsKeyPair] using hc
        · simp only [encodeSlots, List.foldr_cons]
          have hsv : slotValue pre upd rpre rupd w (some rt₁) mo "trans" =
              some (Value.obj kvs₁) := by
            simp [slotValue, hrt2]
          rw [hsv]
          have hcongr := encodeSlots_congr keys pre pre upd upd rpre rpre rupd rupd w w (some rt₁) none mo mo (fun k₁ hk₁ =>
            slotValue_irrel_trans _ _ _ _ _ _ _ _ _ (hkeysne k₁ hk₁))
          simp only [encodeSlots] at hcongr henc
          rw [hcongr, henc]
    · -- msgoff
      simp only [legitEnvPairValue] at hval
      rw [if_neg (by simp)] at hval
      rw [if_neg (by simp)] at hval
      rw [if_neg (by simp)] at hval
      rw [if_neg (by simp)] at hval
      rw [if_neg (by simp)] at hval
      rw [if_neg (by simp)] at hval
      rw [if_pos (by rfl)] at hval
      match v, hval with
      | .int n₁, hval =>
        have hprev : mo = none := by
          rw [hk₀none] at h7
          simpa [envOptMsgoff] using h7.symm
        subst hprev
        refine ⟨(Value.str "msgoff", EnvVal.raw (Value.int n₁)) :: ps, ?_,
          ?_, pre, upd, rpre, rupd, w, t, some n₁, ?_, ?_, ?_, ?_, ?_, ?_, ?_,
          ?_, ?_⟩
        · simp [envPairs, processEnvPair, hps, Bind.bind, Except.bind]
        · intro k₁ hk₁
          simp only [List.contains, List.elem_cons] at hk₁
          split at hk₁
          · simp at hk₁
          · rw [lastLookupEnv_cons_ne _ _ _ _ (by simp_all [BEq.comm])]
            exact hnone k₁ hk₁
        · rw [lastLookupEnv_cons_ne _ _ _ _ (by rfl)]
          exact h1
        · rw [lastLookupEnv_cons_ne _ _ _ _ (by rfl)]
          exact h2
        · rw [lastLookupEnv_cons_ne _ _ _ _ (by rfl)]
          exact h3
        · rw [lastLookupEnv_cons_ne _ _ _ _ (by rfl)]
          exact h4
        · rw [lastLookupEnv_cons_ne _ _ _ _ (by rfl)]
          exact h5
        · rw [lastLookupEnv_cons_ne _ _ _ _ (by rfl)]
          exact h6
        · rw [lastLookupEnv_cons_self _ _ _ hk₀none]
          rfl
        · intro hc
          apply hupdsome
          simpa [containsKeyPair] using hc
        · simp only [encodeSlots, List.foldr_cons]
          have hsv : slotValue pre upd rpre rupd w t (some n₁) "msgoff" =
              some (Value.int n₁) := by
            simp [slotValue]
          rw [hsv]
          have hcongr := encodeSlots_congr keys pre pre upd upd rpre rpre rupd rupd w w t t (some n₁) none (fun k₁ hk₁ =>
            slotValue_irrel_msgoff _ _ _ _ _ _ _ _ _ (hkeysne k₁ hk₁))
          simp only [encodeSlots] at hcongr henc
          rw [hcongr, henc]
  | case4 k₀ keys k v rest hif ih =>
    rw [legitEnvPairs] at h
    rw [if_neg hif] at h
    have hsuf2 : keys.IsSuffix envCanonicalKeys := by
      obtain ⟨t₁, ht₁⟩ := hsuf
      exact ⟨t₁ ++ [k₀], by simp [ht₁]⟩
    obtain ⟨ps, hps, hnone, pre, upd, rpre, rupd, w, t, mo, h1, h2, h3, h4, h5,
      h6, h7, hupdsome, henc⟩ := ih hsuf2 h
    have hnodup : (k₀ :: keys).Nodup := by
      have : envCanonicalKeys.Nodup := by decide
      exact this.sublist hsuf.sublist
    have hk₀nin : k₀ ∉ keys := by
      simp [List.nodup_cons] at hnodup
      exact hnodup.1
    have hk₀mem : k₀ ∈ envCanonicalKeys :=
      hsuf.sublist.subset (List.mem_cons_self _ _)
    have hk₀none : lastLookupEnv k₀ ps = none := by
      apply hnone
      simpa using hk₀nin
    refine ⟨ps, hps, ?_, pre, upd, rpre, rupd, w, t, mo, h1, h2, h3, h4, h5,
      h6, h7, hupdsome, ?_⟩
    · intro k₁ hk₁
      apply hnone
      simp at hk₁
      simpa using hk₁.2
    · have hslot : slotValue pre upd rpre rupd w t mo k₀ = none := by
        simp [envCanonicalKeys] at hk₀mem
        rcases hk₀mem with h₀ | h₀ | h₀ | h₀ | h₀ | h₀ | h₀ <;> subst h₀
        · have : pre = none := by
            rw [hk₀none] at h1
            simpa [envOptInstrs] using h1.symm
          simp [slotValue, this]
        · have : upd = none := by
            rw [hk₀none] at h2
            simpa [envOptEntries] using h2.symm
          simp [slotValue, this]
        · have : rpre = none := by
            rw [hk₀none] at h3
            simpa [envOptInstrs] using h3.symm
          simp [slotValue, this]
        · have : rupd = none := by
            rw [hk₀none] at h4
            simpa [envOptEntries] using h4.symm
          simp [slotValue, this]
        · have : w = none := by
            rw [hk₀none] at h5
            simpa [envOptWait] using h5.symm
          simp [slotValue, this]
        · have : t = none := by
            rw [hk₀none] at h6
            simpa [envOptTransform] using h6.symm
          simp [slotValue, this]
        · have : mo = none := by
            rw [hk₀none] at h7
            simpa [envOptMsgoff] using h7.symm
          simp [slotValue, this]
      simp only [encodeSlots, List.foldr_cons] at henc ⊢
      rw [hslot]
      exact henc
  | case5 k₀ keys rest h1 h2 =>
    rw [legitEnvPairs.eq_def] at h
    split at h
    · exact absurd rfl (fun hh => h1 hh)
    · simp at h
    · exact (h2 _ _ _ rfl).elim
    · simp at h

theorem envUpdateEvent_rt (items : List Value) (h : legitEnvUpdateEvent items = true) :
    ∃ e, decodeEnvUpdateEvent items = .ok e ∧ encodeEnvUpdateEvent e = .arr items := by
  unfold legitEnvUpdateEvent at h
  split at h
  case _ rest =>
    simp only [Bool.and_eq_true] at h
    obtain ⟨hpairs, hcont⟩ := h
    obtain ⟨ps, hps, hnone, pre, upd, rpre, rupd, w, t, mo, h1, h2, h3, h4, h5,
      h6, h7, hupdsome, henc⟩ := envPairs_rt envCanonicalKeys rest ⟨[], rfl⟩ hpairs
    have hus := hupdsome hcont
    match upd, hus with
    | some u, _ =>
      have hreq : envReqEntries "update" (lastLookupEnv "update" ps) = .ok u :=
        envOptEntries_req _ _ _ h2
      have heven : rest.length % 2 = 0 := legitEnvPairs_even _ _ hpairs
      have hne : rest ≠ [] := by
        intro hh
        subst hh
        simp [containsKeyPair] at hcont
      have hlen : ¬((Value.str "envupdate" :: rest).length < 2) := by
        cases rest with
        | nil => exact absurd rfl hne
        | cons a rest₁ => simp
      refine ⟨⟨pre, u, rpre, rupd, w, t, mo⟩, ?_, ?_⟩
      · rw [decodeEnvUpdateEvent.eq_def]
        rw [if_neg hlen]
        have hpar : ((rest.length % 2 != 0) = false) := by simp [heven]
        simp only [hpar]
        simp [hps, h1, hreq, h3, h4, h5, h6, h7, Bind.bind, Except.bind]
      · have hb : encodeEnvUpdateEvent ⟨pre, u, rpre, rupd, w, t, mo⟩ =
            .arr (.str "envupdate" ::
              encodeSlots envCanonicalKeys pre (some u) rpre rupd w t mo) := rfl
        rw [hb, henc]
  case _ =>
    simp at h

theorem eventByTag_rt (t : String) (items : List Value)
    (h : legitEventByTag t items = true) :
    ∃ e, decodeEventByTag t items = .ok e ∧ encodeEvent e = .arr items := by
  unfold legitEventByTag at h
  unfold decodeEventByTag
  by_cases h0 : (t == "startline") = true
  · rw [if_pos h0] at h ⊢
    obtain ⟨e, he, he2⟩ := startlineEvent_rt items h
    exact ⟨.startline e, by simp [he, Except.map], by simp [encodeEvent, he2]⟩
  · rw [if_neg h0] at h ⊢
    by_cases h1 : (t == "envupdate") = true
    · rw [if_pos h1] at h ⊢
      obtain ⟨e, he, he2⟩ := envUpdateEvent_rt items h
      exact ⟨.envupdate e, by simp [he, Except.map], by simp [encodeEvent, he2]⟩
    · rw [if_neg h1] at h ⊢
      by_cases h2 : (t == "delayrun") = true
      · rw [if_pos h2] at h ⊢
        obtain ⟨e, he, he2⟩ := delayRunEvent_rt items h
        exact ⟨.delayrun e, by simp [he, Except.map], by simp [encodeEvent, he2]⟩
      · rw [if_neg h2] at h ⊢
        by_cases h3 : (t == "wait") = true
        · rw [if_pos h3] at h ⊢
          obtain ⟨e, he, he2⟩ := waitEvent_rt items h
          exact ⟨.wait e, by simp [he, Except.map], by simp [encodeEvent, he2]⟩
        · rw [if_neg h3] at h ⊢
          by_cases h4 : (t == "scnchart") = true
          · rw [if_pos h4] at h ⊢
            obtain ⟨e, he, he2⟩ := scnChartEvent_rt items h
            exact ⟨.scnchart e, by simp [he, Except.map], by simp [encodeEvent, he2]⟩
          · rw [if_neg h4] at h ⊢
            by_cases h5 : (t == "voeff") = true
            · rw [if_pos h5] at h ⊢
              obtain ⟨e, he, he2⟩ := voiceEffectEvent_rt items h
              exact ⟨.voeff e, by simp [he, Except.map], by simp [encodeEvent, he2]⟩
            · rw [if_neg h5] at h ⊢
              by_cases h6 : (t == "chapter") = true
              · rw [if_pos h6] at h ⊢
                obtain ⟨e, he, he2⟩ := chapterEvent_rt items h
                exact ⟨.chapter e, by simp [he, Except.map], by simp [encodeEvent, he2]⟩
              · rw [if_neg h6] at h ⊢
                by_cases h7 : (t == "msgoff") = true
                · rw [if_pos h7] at h ⊢
                  obtain ⟨hd, hitems⟩ := msgOffEvent_rt items h
                  exact ⟨.msgoff, by simp [hd, Except.map], by simp [encodeEvent, hitems]⟩
                · rw [if_neg h7] at h ⊢
                  by_cases h8 : (t == "_meswinchange") = true
                  · rw [if_pos h8] at h ⊢
                    obtain ⟨e, he, he2⟩ := mesWinChangeEvent_rt items h
                    exact ⟨.meswinchange e, by simp [he, Except.map], by simp [encodeEvent, he2]⟩
                  · rw [if_neg h8] at h ⊢
                    by_cases h9 : (t == "quickmenu") = true
                    · rw [if_pos h9] at h ⊢
                      obtain ⟨e, he, he2⟩ := quickMenuEvent_rt items h
                      exact ⟨.quickmenu e, by simp [he, Except.map], by simp [encodeEvent, he2]⟩
                    · rw [if_neg h9] at h ⊢
                      by_cases h10 : (t == "er") = true
                      · rw [if_pos h10] at h ⊢
                        obtain ⟨e, he, he2⟩ := erEvent_rt items h
                        exact ⟨.er e, by simp [he, Except.map], by simp [encodeEvent, he2]⟩
                      · rw [if_neg h10] at h ⊢
                        by_cases h11 : (t == "endrecollection") = true
                        · rw [if_pos h11] at h ⊢
                          obtain ⟨hd, hitems⟩ := endRecollectionEvent_rt items h
                          exact ⟨.endrecollection, by simp [hd, Except.map], by simp [encodeEvent, hitems]⟩
                        · rw [if_neg h11] at h ⊢
                          by_cases h12 : (t == "playvoice") = true
                          · rw [if_pos h12] at h ⊢
                            obtain ⟨e, he, he2⟩ := playVoiceEvent_rt items h
                            exact ⟨.playvoice e, by simp [he, Except.map], by simp [encodeEvent, he2]⟩
                          · rw [if_neg h12] at h ⊢
                            by_cases h13 : (t == "stopvoice") = true
                            · rw [if_pos h13] at h ⊢
                              obtain ⟨e, he, he2⟩ := stopVoiceEvent_rt items h
                              exact ⟨.stopvoice e, by simp [he, Except.map], by simp [encodeEvent, he2]⟩
                            · rw [if_neg h13] at h ⊢
                              by_cases h14 : (t == "exit") = true
                              · rw [if_pos h14] at h ⊢
                                obtain ⟨e, he, he2⟩ := exitEvent_rt items h
                                exact ⟨.exit e, by simp [he, Except.map], by simp [encodeEvent, he2]⟩
                              · rw [if_neg h14] at h ⊢
                                by_cases h15 : (t == "beginskip") = true
                                · rw [if_pos h15] at h ⊢
                                  obtain ⟨hd, hitems⟩ := beginSkipEvent_rt items h
                                  exact ⟨.beginskip, by simp [hd, Except.map], by simp [encodeEvent, hitems]⟩
                                · rw [if_neg h15] at h ⊢
                                  by_cases h16 : (t == "endskip") = true
                                  · rw [if_pos h16] at h ⊢
                                    obtain ⟨hd, hitems⟩ := endSkipEvent_rt items h
                                    exact ⟨.endskip, by simp [hd, Except.map], by simp [encodeEvent, hitems]⟩
                                  · rw [if_neg h16] at h ⊢
                                    by_cases h17 : (t == "sysvoice") = true
                                    · rw [if_pos h17] at h ⊢
                                      obtain ⟨e, he, he2⟩ := sysVoiceEvent_rt items h
                                      exact ⟨.sysvoice e, by simp [he, Except.map], by simp [encodeEvent, he2]⟩
                                    · rw [if_neg h17] at h ⊢
                                      simp at h

theorem event_rt (v : Value) (h : legitEvent v = true) :
    ∃ e, decodeEvent v = .ok e ∧ encodeEvent e = v := by
  unfold legitEvent at h
  split at h
  case _ h₁ rest =>
    match h₁, h with
    | .str t, h =>
      have h' : (if eventTags.contains t = true then
          legitEventByTag t (Value.str t :: rest) else true) = true := h
      by_cases hc : eventTags.contains t = true
      · rw [if_pos hc] at h'
        obtain ⟨e, he, he2⟩ := eventByTag_rt t (.str t :: rest) h'
        refine ⟨e, ?_, he2⟩
        show decodeEvent (Value.arr (Value.str t :: rest)) = Except.ok e
        have hd : decodeEvent (Value.arr (Value.str t :: rest)) =
            (if eventTags.contains t = true then decodeEventByTag t (.str t :: rest)
             else .ok (.fallback (.str t :: rest))) := rfl
        rw [hd, if_pos hc]
        exact he
      · refine ⟨.fallback (.str t :: rest), ?_, rfl⟩
        have hd : decodeEvent (Value.arr (Value.str t :: rest)) =
            (if eventTags.contains t = true then decodeEventByTag t (.str t :: rest)
             else .ok (.fallback (.str t :: rest))) := rfl
        rw [hd, if_neg hc]
    | .null, h => exact ⟨.fallback (.null :: rest), rfl, rfl⟩
    | .bool b, h => exact ⟨.fallback (.bool b :: rest), rfl, rfl⟩
    | .int n, h => exact ⟨.fallback (.int n :: rest), rfl, rfl⟩
    | .flt q, h => exact ⟨.fallback (.flt q :: rest), rfl, rfl⟩
    | .arr xs, h => exact ⟨.fallback (.arr xs :: rest), rfl, rfl⟩
    | .obj kvs, h => exact ⟨.fallback (.obj kvs :: rest), rfl, rfl⟩
  case _ =>
    simp at h

theorem textIndexA_rt (v : Value) (h : legitTextIndexA v = true) :
    ∃ a, decodeTextIndexA v = .ok a ∧ encodeTextIndexA a = v := by
  unfold legitTextIndexA at h
  split at h
  case _ n =>
    exact ⟨.int n, rfl, rfl⟩
  case _ kvs =>
    obtain ⟨p, hp, hp2⟩ := snapshotPoint_rt (.obj kvs) h
    exact ⟨.point p, by simp [decodeTextIndexA, hp, Except.map],
      by simp [encodeTextIndexA, hp2]⟩
  case _ =>
    simp at h

theorem snapshotPointLine_rt (items : List Value)
    (h : legitSnapshotPointLine items = true) :
    ∃ l, decodeSnapshotPointLine items = .ok l ∧
      encodeSnapshotPointLine l = .arr items := by
  unfold legitSnapshotPointLine at h
  split at h
  case _ i a f o =>
    simp only [Bool.and_eq_true] at h
    obtain ⟨ha, hf⟩ := h
    obtain ⟨ta, hta, hta2⟩ := textIndexA_rt a ha
    refine ⟨⟨i, ta, none, vOptInt f, o, none, .null, .null⟩, ?_, ?_⟩
    · match f, hf with
      | .null, _ =>
        simp [decodeSnapshotPointLine, asInt, asOptInt, hta, vOptInt,
          Bind.bind, Except.bind]
      | .int n, _ =>
        simp [decodeSnapshotPointLine, asInt, asOptInt, hta, vOptInt,
          Bind.bind, Except.bind]
    · simp only [encodeSnapshotPointLine, hta2, encOptInt_vOptInt _ hf]
      simp [encOptInt]
  case _ i a b f o vt u₆ u₇ =>
    simp only [Bool.and_eq_true] at h
    obtain ⟨⟨ha, hf⟩, hvt⟩ := h
    obtain ⟨ta, hta, hta2⟩ := textIndexA_rt a ha
    refine ⟨⟨i, ta, some b, vOptInt f, o, vOptInt vt, u₆, u₇⟩, ?_, ?_⟩
    · match f, hf, vt, hvt with
      | .null, _, .null, _ =>
        simp [decodeSnapshotPointLine, asInt, asOptInt, hta, vOptInt,
          Bind.bind, Except.bind]
      | .null, _, .int n₂, _ =>
        simp [decodeSnapshotPointLine, asInt, asOptInt, hta, vOptInt,
          Bind.bind, Except.bind]
      | .int n₁, _, .null, _ =>
        simp [decodeSnapshotPointLine, asInt, asOptInt, hta, vOptInt,
          Bind.bind, Except.bind]
      | .int n₁, _, .int n₂, _ =>
        simp [decodeSnapshotPointLine, asInt, asOptInt, hta, vOptInt,
          Bind.bind, Except.bind]
    · simp only [encodeSnapshotPointLine, hta2, encOptInt_vOptInt _ hf,
        encOptInt_vOptInt _ hvt]
      simp [encOptInt]
  case _ =>
    simp at h

theorem line_rt (v : Value) (h : legitLine v = true) :
    ∃ l, decodeLine v = .ok l ∧ encodeLine l = v := by
  unfold legitLine at h
  split at h
  case _ n =>
    exact ⟨.textIndex n, rfl, rfl⟩
  case _ s =>
    exact ⟨.resource s, rfl, rfl⟩
  case _ h₁ rest =>
    match h₁, h with
    | .str t, h =>
      obtain ⟨e, he, he2⟩ := event_rt (.arr (.str t :: rest)) h
      exact ⟨.event e, by simp [decodeLine, he, Except.map],
        by simp [encodeLine, he2]⟩
    | .int n, h =>
      obtain ⟨l, hl, hl2⟩ := snapshotPointLine_rt (.int n :: rest) h
      exact ⟨.snapshotPointLine l, by simp [decodeLine, hl, Except.map],
        by simp [encodeLine, hl2]⟩
  case _ =>
    simp at h

theorem dialogue_rt (v : Value) (h : legitDialogue v = true) :
    ∃ d, decodeDialogue v = .ok d ∧ encodeDialogue d = v := by
  unfold legitDialogue at h
  split at h
  case _ dn c =>
    refine ⟨⟨vOptStr dn, c, none⟩, ?_, ?_⟩
    · match dn, h with
      | .null, _ =>
        simp [decodeDialogue, asOptStr, asStr, asOptInt, vOptStr,
          Bind.bind, Except.bind]
      | .str s, _ =>
        simp [decodeDialogue, asOptStr, asStr, asOptInt, vOptStr,
          Bind.bind, Except.bind]
    · simp [encodeDialogue, encOptStr_vOptStr _ h]
  case _ dn c n =>
    refine ⟨⟨vOptStr dn, c, some n⟩, ?_, ?_⟩
    · match dn, h with
      | .null, _ =>
        simp [decodeDialogue, asOptStr, asStr, asOptInt, vOptStr,
          Bind.bind, Except.bind]
      | .str s, _ =>
        simp [decodeDialogue, asOptStr, asStr, asOptInt, vOptStr,
          Bind.bind, Except.bind]
    · simp [encodeDialogue, encOptStr_vOptStr _ h]
  case _ =>
    simp at h

theorem voiceData_rt (v : Value) (h : legitVoiceData v = true) :
    ∃ d, decodeVoiceData v = .ok d ∧ encodeVoiceData d = v := by
  unfold legitVoiceData at h
  split at h
  case _ n p t vo =>
    refine ⟨⟨n, p, t, vo⟩, ?_, rfl⟩
    simp [decodeVoiceData, reqStr, reqInt, getKey, Bind.bind, Except.bind]
  case _ =>
    simp at h

theorem next_rt (v : Value) (h : legitNext v = true) :
    ∃ d, decodeNext v = .ok d ∧ encodeNext d = v := by
  unfold legitNext at h
  split at h
  case _ s t ty =>
    refine ⟨⟨s, t, ty⟩, ?_, rfl⟩
    simp [decodeNext, reqStr, reqInt, getKey, Bind.bind, Except.bind]
  case _ =>
    simp at h

theorem strV_rt (v : Value) (h : isStrV v = true) :
    ∃ s, asStr "title" v = .ok s ∧ Value.str s = v := by
  match v, h with
  | .str s, _ => exact ⟨s, rfl, rfl⟩

theorem title_rt (v : Value) (h : legitTitle v = true) :
    ∃ t, decodeSceneTitle v = .ok t ∧ encodeSceneTitle t = v := by
  unfold legitTitle at h
  split at h
  case _ s =>
    exact ⟨.single s, rfl, rfl⟩
  case _ xs =>
    obtain ⟨ts, hts, hts2⟩ := mapM_rt_loop (asStr "title") Value.str isStrV
      strV_rt xs h
    exact ⟨.multi ts, by simp [decodeSceneTitle, hts, Except.map, List.mapM],
      by simp [encodeSceneTitle, hts2]⟩
  case _ =>
    simp at h

theorem asOptStr_eval (k : String) (v : Value) (h : isOptStrV v = true) :
    asOptStr k v = .ok (vOptStr v) := by
  cases v <;> simp_all [asOptStr, isOptStrV, vOptStr]

theorem asOptInt_eval (k : String) (v : Value) (h : isOptIntV v = true) :
    asOptInt k v = .ok (vOptInt v) := by
  cases v <;> simp_all [asOptInt, isOptIntV, vOptInt]

theorem text_rt (v : Value) (h : legitText v = true) :
    ∃ t, decodeText v = .ok t ∧ encodeText t = v := by
  unfold legitText at h
  split at h
  case _ ch ds vs n sp =>
    simp only [Bool.and_eq_true] at h
    obtain ⟨⟨⟨hch, hds⟩, hvs⟩, hsp⟩ := h
    obtain ⟨rds, hrds, hrds2⟩ := mapM_rt_loop decodeDialogue encodeDialogue
      legitDialogue dialogue_rt ds hds
    obtain ⟨rsp, hrsp, hrsp2⟩ := snapshotPoint_rt sp hsp
    match vs, hvs with
    | .null, _ =>
      refine ⟨⟨vOptStr ch, rds, none, n, rsp⟩, ?_, ?_⟩
      · rw [decodeText.eq_def]
        simp [asOptStr_eval _ _ hch, asInt, hrds, hrsp, Bind.bind, Except.bind,
          List.mapM]
      · simp [encodeText, encOptStr_vOptStr _ hch, hrds2, hrsp2]
    | .arr xs, hvs =>
      obtain ⟨rvs, hrvs, hrvs2⟩ := mapM_rt_loop decodeVoiceData encodeVoiceData
        legitVoiceData voiceData_rt xs hvs
      refine ⟨⟨vOptStr ch, rds, some rvs, n, rsp⟩, ?_, ?_⟩
      · rw [decodeText.eq_def]
        simp [asOptStr_eval _ _ hch, asInt, hrds, hrvs, hrsp, Bind.bind,
          Except.bind, List.mapM, Except.map]
      · simp [encodeText, encOptStr_vOptStr _ hch, hrds2, hrvs2, hrsp2]
  case _ =>
    simp at h

theorem intDict_mapM (k : String) (js : Entries)
    (h : js.all (fun p => isIntV p.2) = true) :
    ∃ rjs : List (String × Int),
      js.mapM (fun (p : String × Value) =>
        match p.2 with
        | .int n => Except.ok (p.1, n)
        | _ => (Except.error (k ++ ": value not an integer") :
            Except String (String × Int))) = .ok rjs ∧
      rjs.map (fun p => (p.1, Value.int p.2)) = js := by
  induction js with
  | nil => exact ⟨[], rfl, rfl⟩
  | cons p js ih =>
    rw [List.all_cons, Bool.and_eq_true] at h
    obtain ⟨rjs, hrjs, hrjs2⟩ := ih h.2
    match p, h.1 with
    | (a, .int n), _ =>
      refine ⟨(a, n) :: rjs, ?_, by simp [hrjs2]⟩
      rw [List.mapM_cons, hrjs]
      rfl

theorem optIntDict_eval (k : String) (kvs : Entries) (js : Entries)
    (hget : getKey k kvs = some (.obj js))
    (h : js.all (fun p => isIntV p.2) = true) :
    ∃ rjs : List (String × Int), optIntDict k kvs = .ok (some rjs) ∧
      rjs.map (fun p => (p.1, Value.int p.2)) = js := by
  obtain ⟨rjs, hrjs, hrjs2⟩ := intDict_mapM k js h
  refine ⟨rjs, ?_, hrjs2⟩
  have hrjs1 : List.mapM.loop (fun (p : String × Value) =>
      match p.2 with
      | .int n => Except.ok (p.1, n)
      | _ => (Except.error (k ++ ": value not an integer") :
          Except String (String × Int))) js [] = .ok rjs := by
    simpa [List.mapM] using hrjs
  unfold optIntDict
  rw [hget]
  simp [hrjs1, Except.map]

theorem optEvalList_eval (k : String) (kvs : Entries) (xs : List Value)
    (hget : getKey k kvs = some (.arr xs)) (h : xs.all isArrOrStr = true) :
    optEvalList k kvs = .ok (some xs) := by
  unfold optEvalList
  rw [hget]
  simp [h]
theorem scene_rt (v : Value) (h : legitScene v = true) :
    ∃ s, decodeScene v = .ok s ∧ encodeScene s = v := by
  unfold legitScene at h
  split at h
  · rename_i fl rest
    unfold legitSceneTail2 at h
    split at h
    · rename_i js rest
      rw [Bool.and_eq_true] at h
      obtain ⟨hjs, h⟩ := h
      unfold legitSceneTail3 at h
      split at h
      · rename_i lb rest
        unfold legitSceneTail4 at h
        split at h
        · rename_i ls rest
          rw [Bool.and_eq_true] at h
          obtain ⟨hls, h⟩ := h
          unfold legitSceneTail5 at h
          split at h
          · rename_i ns rest
            rw [Bool.and_eq_true] at h
            obtain ⟨hns, h⟩ := h
            unfold legitSceneTail6 at h
            split at h
            · rename_i pe rest
              rw [Bool.and_eq_true] at h
              obtain ⟨hpe, h⟩ := h
              unfold legitSceneTail7 at h
              split at h
              · rename_i po rest
                rw [Bool.and_eq_true] at h
                obtain ⟨hpo, h⟩ := h
                unfold legitSceneTail8 at h
                split at h
                · rename_i sc rest
                  unfold legitSceneTail9 at h
                  split at h
                  · rename_i ts rest
                    rw [Bool.and_eq_true] at h
                    obtain ⟨hts, h⟩ := h
                    unfold legitSceneTail10 at h
                    split at h
                    · rename_i tt vn
                      have htt := h
                      obtain ⟨rls, hrls, hrls2⟩ := mapM_rt_loop decodeLine encodeLine
                        legitLine line_rt ls hls
                      obtain ⟨rns, hrns, hrns2⟩ := mapM_rt_loop decodeNext encodeNext
                        legitNext next_rt ns hns
                      obtain ⟨rtt, hrtt, hrtt2⟩ := title_rt tt htt
                      obtain ⟨rjs, hrjs, hrjs2⟩ := optIntDict_eval "jumplabels"
                        ([("firstLine", Value.int fl), ("jumplabels", Value.obj js), ("label", Value.str lb), ("lines", Value.arr ls), ("nexts", Value.arr ns), ("preevals", Value.arr pe), ("postevals", Value.arr po), ("spCount", Value.int sc), ("texts", Value.arr ts), ("title", tt), ("version", Value.int vn)]) js (by simp [getKey]) hjs
                      have hrpe := optEvalList_eval "preevals" ([("firstLine", Value.int fl), ("jumplabels", Value.obj js), ("label", Value.str lb), ("lines", Value.arr ls), ("nexts", Value.arr ns), ("preevals", Value.arr pe), ("postevals", Value.arr po), ("spCount", Value.int sc), ("texts", Value.arr ts), ("title", tt), ("version", Value.int vn)]) pe (by simp [getKey]) hpe
                      have hrpo := optEvalList_eval "postevals" ([("firstLine", Value.int fl), ("jumplabels", Value.obj js), ("label", Value.str lb), ("lines", Value.arr ls), ("nexts", Value.arr ns), ("preevals", Value.arr pe), ("postevals", Value.arr po), ("spCount", Value.int sc), ("texts", Value.arr ts), ("title", tt), ("version", Value.int vn)]) po (by simp [getKey]) hpo
                      obtain ⟨rts, hrts, hrts2⟩ := mapM_rt_loop decodeText encodeText
                        legitText text_rt ts hts
                      refine ⟨⟨fl, some rjs, lb, rls, rns, some pe, some po, sc, some rts, rtt, vn⟩, ?_, ?_⟩
                      · simp [decodeScene, reqStr, reqInt, reqModel, getKey, hrjs, hrpe, hrpo, hrls, hrns, hrtt, Bind.bind, Except.bind, Except.map, List.mapM, hrts]
                      · simp [encodeScene, hrls2, hrns2, hrtt2, hrjs2, hrts2]
                    · simp at h
                  · rename_i hskip
                    clear hskip
                    unfold legitSceneTail10 at h
                    split at h
                    · rename_i tt vn
                      have htt := h
                      obtain ⟨rls, hrls, hrls2⟩ := mapM_rt_loop decodeLine encodeLine
                        legitLine line_rt ls hls
                      obtain ⟨rns, hrns, hrns2⟩ := mapM_rt_loop decodeNext encodeNext
                        legitNext next_rt ns hns
                      obtain ⟨rtt, hrtt, hrtt2⟩ := title_rt tt htt
                      obtain ⟨rjs, hrjs, hrjs2⟩ := optIntDict_eval "jumplabels"
                        ([("firstLine", Value.int fl), ("jumplabels", Value.obj js), ("label", Value.str lb), ("lines", Value.arr ls), ("nexts", Value.arr ns), ("preevals", Value.arr pe), ("postevals", Value.arr po), ("spCount", Value.int sc), ("title", tt), ("version", Value.int vn)]) js (by simp [getKey]) hjs
                      have hrpe := optEvalList_eval "preevals" ([("firstLine", Value.int fl), ("jumplabels", Value.obj js), ("label", Value.str lb), ("lines", Value.arr ls), ("nexts", Value.arr ns), ("preevals", Value.arr pe), ("postevals", Value.arr po), ("spCount", Value.int sc), ("title", tt), ("version", Value.int vn)]) pe (by simp [getKey]) hpe
                      have hrpo := optEvalList_eval "postevals" ([("firstLine", Value.int fl), ("jumplabels", Value.obj js), ("label", Value.str lb), ("lines", Value.arr ls), ("nexts", Value.arr ns), ("preevals", Value.arr pe), ("postevals", Value.arr po), ("spCount", Value.int sc), ("title", tt), ("version", Value.int vn)]) po (by simp [getKey]) hpo
                      refine ⟨⟨fl, some rjs, lb, rls, rns, some pe, some po, sc, none, rtt, vn⟩, ?_, ?_⟩
                      · simp [decodeScene, reqStr, reqInt, reqModel, getKey, hrjs, hrpe, hrpo, hrls, hrns, hrtt, Bind.bind, Except.bind, Except.map, List.mapM]
                      · simp [encodeScene, hrls2, hrns2, hrtt2, hrjs2]
                    · simp at h
                · simp at h
              · rename_i hskip
                clear hskip
                unfold legitSceneTail8 at h
                split at h
                · rename_i sc rest
                  unfold legitSceneTail9 at h
                  split at h
                  · rename_i ts rest
                    rw [Bool.and_eq_true] at h
                    obtain ⟨hts, h⟩ := h
                    unfold legitSceneTail10 at h
                    split at h
                    · rename_i tt vn
                      have htt := h
                      obtain ⟨rls, hrls, hrls2⟩ := mapM_rt_loop decodeLine encodeLine
                        legitLine line_rt ls hls
                      obtain ⟨rns, hrns, hrns2⟩ := mapM_rt_loop decodeNext encodeNext
                        legitNext next_rt ns hns
                      obtain ⟨rtt, hrtt, hrtt2⟩ := title_rt tt htt
                      obtain ⟨rjs, hrjs, hrjs2⟩ := optIntDict_eval "jumplabels"
                        ([("firstLine", Value.int fl), ("jumplabels", Value.obj js), ("label", Value.str lb), ("lines", Value.arr ls), ("nexts", Value.arr ns), ("preevals", Value.arr pe), ("spCount", Value.int sc), ("texts", Value.arr ts), ("title", tt), ("version", Value.int vn)]) js (by simp [getKey]) hjs
                      have hrpe := optEvalList_eval "preevals" ([("firstLine", Value.int fl), ("jumplabels", Value.obj js), ("label", Value.str lb), ("lines", Value.arr ls), ("nexts", Value.arr ns), ("preevals", Value.arr pe), ("spCount", Value.int sc), ("texts", Value.arr ts), ("title", tt), ("version", Value.int vn)]) pe (by simp [getKey]) hpe
                      have hrpo : optEvalList "postevals" ([("firstLine", Value.int fl), ("jumplabels", Value.obj js), ("label", Value.str lb), ("lines", Value.arr ls), ("nexts", Value.arr ns), ("preevals", Value.arr pe), ("spCount", Value.int sc), ("texts", Value.arr ts), ("title", tt), ("version", Value.int vn)]) = .ok none := by
                        simp [optEvalList, getKey]
                      obtain ⟨rts, hrts, hrts2⟩ := mapM_rt_loop decodeText encodeText
                        legitText text_rt ts hts
                      refine ⟨⟨fl, some rjs, lb, rls, rns, some pe, none, sc, some rts, rtt, vn⟩, ?_, ?_⟩
                      · simp [decodeScene, reqStr, reqInt, reqModel, getKey, hrjs, hrpe, hrpo, hrls, hrns, hrtt, Bind.bind, Except.bind, Except.map, List.mapM, hrts]
                      · simp [encodeScene, hrls2, hrns2, hrtt2, hrjs2, hrts2]
                    · simp at h
                  · rename_i hskip
                    clear hskip
                    unfold legitSceneTail10 at h
                    split at h
                    · rename_i tt vn
                      have htt := h
                      obtain ⟨rls, hrls, hrls2⟩ := mapM_rt_loop decodeLine encodeLine
                        legitLine line_rt ls hls
                      obtain ⟨rns, hrns, hrns2⟩ := mapM_rt_loop decodeNext encodeNext
                        legitNext next_rt ns hns
                      obtain ⟨rtt, hrtt, hrtt2⟩ := title_rt tt htt
                      obtain ⟨rjs, hrjs, hrjs2⟩ := optIntDict_eval "jumplabels"
                        ([("firstLine", Value.int fl), ("jumplabels", Value.obj js), ("label", Value.str lb), ("lines", Value.arr ls), ("nexts", Value.arr ns), ("preevals", Value.arr pe), ("spCount", Value.int sc), ("title", tt), ("version", Value.int vn)]) js (by simp [getKey]) hjs
                      have hrpe := optEvalList_eval "preevals" ([("firstLine", Value.int fl), ("jumplabels", Value.obj js), ("label", Value.str lb), ("lines", Value.arr ls), ("nexts", Value.arr ns), ("preevals", Value.arr pe), ("spCount", Value.int sc), ("title", tt), ("version", Value.int vn)]) pe (by simp [getKey]) hpe
                      have hrpo : optEvalList "postevals" ([("firstLine", Value.int fl), ("jumplabels", Value.obj js), ("label", Value.str lb), ("lines", Value.arr ls), ("nexts", Value.arr ns), ("preevals", Value.arr pe), ("spCount", Value.int sc), ("title", tt), ("version", Value.int vn)]) = .ok none := by
                        simp [optEvalList, getKey]
                      refine ⟨⟨fl, some rjs, lb, rls, rns, some pe, none, sc, none, rtt, vn⟩, ?_, ?_⟩
                      · simp [decodeScene, reqStr, reqInt, reqModel, getKey, hrjs, hrpe, hrpo, hrls, hrns, hrtt, Bind.bind, Except.bind, Except.map, List.mapM]
                      · simp [encodeScene, hrls2, hrns2, hrtt2, hrjs2]
                    · simp at h
                · simp at h
            · rename_i hskip
              clear hskip
              unfold legitSceneTail7 at h
              split at h
              · rename_i po rest
                rw [Bool.and_eq_true] at h
                obtain ⟨hpo, h⟩ := h
                unfold legitSceneTail8 at h
                split at h
                · rename_i sc rest
                  unfold legitSceneTail9 at h
                  split at h
                  · rename_i ts rest
                    rw [Bool.and_eq_true] at h
                    obtain ⟨hts, h⟩ := h
                    unfold legitSceneTail10 at h
                    split at h
                    · rename_i tt vn
                      have htt := h
                      obtain ⟨rls, hrls, hrls2⟩ := mapM_rt_loop decodeLine encodeLine
                        legitLine line_rt ls hls
                      obtain ⟨rns, hrns, hrns2⟩ := mapM_rt_loop decodeNext encodeNext
                        legitNext next_rt ns hns
                      obtain ⟨rtt, hrtt, hrtt2⟩ := title_rt tt htt
                      obtain ⟨rjs, hrjs, hrjs2⟩ := optIntDict_eval "jumplabels"
                        ([("firstLine", Value.int fl), ("jumplabels", Value.obj js), ("label", Value.str lb), ("lines", Value.arr ls), ("nexts", Value.arr ns), ("postevals", Value.arr po), ("spCount", Value.int sc), ("texts", Value.arr ts), ("title", tt), ("version", Value.int vn)]) js (by simp [getKey]) hjs
                      have hrpe : optEvalList "preevals" ([("firstLine", Value.int fl), ("jumplabels", Value.obj js), ("label", Value.str lb), ("lines", Value.arr ls), ("nexts", Value.arr ns), ("postevals", Value.arr po), ("spCount", Value.int sc), ("texts", Value.arr ts), ("title", tt), ("version", Value.int vn)]) = .ok none := by
                        simp [optEvalList, getKey]
                      have hrpo := optEvalList_eval "postevals" ([("firstLine", Value.int fl), ("jumplabels", Value.obj js), ("label", Value.str lb), ("lines", Value.arr ls), ("nexts", Value.arr ns), ("postevals", Value.arr po), ("spCount", Value.int sc), ("texts", Value.arr ts), ("title", tt), ("version", Value.int vn)]) po (by simp [getKey]) hpo
                      obtain ⟨rts, hrts, hrts2⟩ := mapM_rt_loop decodeText encodeText
                        legitText text_rt ts hts
                      refine ⟨⟨fl, some rjs, lb, rls, rns, none, some po, sc, some rts, rtt, vn⟩, ?_, ?_⟩
                      · simp [decodeScene, reqStr, reqInt, reqModel, getKey, hrjs, hrpe, hrpo, hrls, hrns, hrtt, Bind.bind, Except.bind, Except.map, List.mapM, hrts]
                      · simp [encodeScene, hrls2, hrns2, hrtt2, hrjs2, hrts2]
                    · simp at h
                  · rename_i hskip
                    clear hskip
                    unfold legitSceneTail10 at h
                    split at h
                    · rename_i tt vn
                      have htt := h
                      obtain ⟨rls, hrls, hrls2⟩ := mapM_rt_loop decodeLine encodeLine
                        legitLine line_rt ls hls
                      obtain ⟨rns, hrns, hrns2⟩ := mapM_rt_loop decodeNext encodeNext
                        legitNext next_rt ns hns
                      obtain ⟨rtt, hrtt, hrtt2⟩ := title_rt tt htt
                      obtain ⟨rjs, hrjs, hrjs2⟩ := optIntDict_eval "jumplabels"
                        ([("firstLine", Value.int fl), ("jumplabels", Value.obj js), ("label", Value.str lb), ("lines", Value.arr ls), ("nexts", Value.arr ns), ("postevals", Value.arr po), ("spCount", Value.int sc), ("title", tt), ("version", Value.int vn)]) js (by simp [getKey]) hjs
                      have hrpe : optEvalList "preevals" ([("firstLine", Value.int fl), ("jumplabels", Value.obj js), ("label", Value.str lb), ("lines", Value.arr ls), ("nexts", Value.arr ns), ("postevals", Value.arr po), ("spCount", Value.int sc), ("title", tt), ("version", Value.int vn)]) = .ok none := by
                        simp [optEvalList, getKey]
                      have hrpo := optEvalList_eval "postevals" ([("firstLine", Value.int fl), ("jumplabels", Value.obj js), ("label", Value.str lb), ("lines", Value.arr ls), ("nexts", Value.arr ns), ("postevals", Value.arr po), ("spCount", Value.int sc), ("title", tt), ("version", Value.int vn)]) po (by simp [getKey]) hpo
                      refine ⟨⟨fl, some rjs, lb, rls, rns, none, some po, sc, none, rtt, vn⟩, ?_, ?_⟩
                      · simp [decodeScene, reqStr, reqInt, reqModel, getKey, hrjs, hrpe, hrpo, hrls, hrns, hrtt, Bind.bind, Except.bind, Except.map, List.mapM]
                      · simp [encodeScene, hrls2, hrns2, hrtt2, hrjs2]
                    · simp at h
                · simp at h
              · rename_i hskip
                clear hskip
                unfold legitSceneTail8 at h
                split at h
                · rename_i sc rest
                  unfold legitSceneTail9 at h
                  split at h
                  · rename_i ts rest
                    rw [Bool.and_eq_true] at h
                    obtain ⟨hts, h⟩ := h
                    unfold legitSceneTail10 at h
                    split at h
                    · rename_i tt vn
                      have htt := h
                      obtain ⟨rls, hrls, hrls2⟩ := mapM_rt_loop decodeLine encodeLine
                        legitLine line_rt ls hls
                      obtain ⟨rns, hrns, hrns2⟩ := mapM_rt_loop decodeNext encodeNext
                        legitNext next_rt ns hns
                      obtain ⟨rtt, hrtt, hrtt2⟩ := title_rt tt htt
                      obtain ⟨rjs, hrjs, hrjs2⟩ := optIntDict_eval "jumplabels"
                        ([("firstLine", Value.int fl), ("jumplabels", Value.obj js), ("label", Value.str lb), ("lines", Value.arr ls), ("nexts", Value.arr ns), ("spCount", Value.int sc), ("texts", Value.arr ts), ("title", tt), ("version", Value.int vn)]) js (by simp [getKey]) hjs
                      have hrpe : optEvalList "preevals" ([("firstLine", Value.int fl), ("jumplabels", Value.obj js), ("label", Value.str lb), ("lines", Value.arr ls), ("nexts", Value.arr ns), ("spCount", Value.int sc), ("texts", Value.arr ts), ("title", tt), ("version", Value.int vn)]) = .ok none := by
                        simp [optEvalList, getKey]
                      have hrpo : optEvalList "postevals" ([("firstLine", Value.int fl), ("jumplabels", Value.obj js), ("label", Value.str lb), ("lines", Value.arr ls), ("nexts", Value.arr ns), ("spCount", Value.int sc), ("texts", Value.arr ts), ("title", tt), ("version", Value.int vn)]) = .ok none := by
                        simp [optEvalList, getKey]
                      obtain ⟨rts, hrts, hrts2⟩ := mapM_rt_loop decodeText encodeText
                        legitText text_rt ts hts
                      refine ⟨⟨fl, some rjs, lb, rls, rns, none, none, sc, some rts, rtt, vn⟩, ?_, ?_⟩
                      · simp [decodeScene, reqStr, reqInt, reqModel, getKey, hrjs, hrpe, hrpo, hrls, hrns, hrtt, Bind.bind, Except.bind, Except.map, List.mapM, hrts]
                      · simp [encodeScene, hrls2, hrns2, hrtt2, hrjs2, hrts2]
                    · simp at h
                  · rename_i hskip
                    clear hskip
                    unfold legitSceneTail10 at h
                    split at h
                    · rename_i tt vn
                      have htt := h
                      obtain ⟨rls, hrls, hrls2⟩ := mapM_rt_loop decodeLine encodeLine
                        legitLine line_rt ls hls
                      obtain ⟨rns, hrns, hrns2⟩ := mapM_rt_loop decodeNext encodeNext
                        legitNext next_rt ns hns
                      obtain ⟨rtt, hrtt, hrtt2⟩ := title_rt tt htt
                      obtain ⟨rjs, hrjs, hrjs2⟩ := optIntDict_eval "jumplabels"
                        ([("firstLine", Value.int fl), ("jumplabels", Value.obj js), ("label", Value.str lb), ("lines", Value.arr ls), ("nexts", Value.arr ns), ("spCount", Value.int sc), ("title", tt), ("version", Value.int vn)]) js (by simp [getKey]) hjs
                      have hrpe : optEvalList "preevals" ([("firstLine", Value.int fl), ("jumplabels", Value.obj js), ("label", Value.str lb), ("lines", Value.arr ls), ("nexts", Value.arr ns), ("spCount", Value.int sc), ("title", tt), ("version", Value.int vn)]) = .ok none := by
                        simp [optEvalList, getKey]
                      have hrpo : optEvalList "postevals" ([("firstLine", Value.int fl), ("jumplabels", Value.obj js), ("label", Value.str lb), ("lines", Value.arr ls), ("nexts", Value.arr ns), ("spCount", Value.int sc), ("title", tt), ("version", Value.int vn)]) = .ok none := by
                        simp [optEvalList, getKey]
                      refine ⟨⟨fl, some rjs, lb, rls, rns, none, none, sc, none, rtt, vn⟩, ?_, ?_⟩
                      · simp [decodeScene, reqStr, reqInt, reqModel, getKey, hrjs, hrpe, hrpo, hrls, hrns, hrtt, Bind.bind, Except.bind, Except.map, List.mapM]
                      · simp [encodeScene, hrls2, hrns2, hrtt2, hrjs2]
                    · simp at h
                · simp at h
          · simp at h
        · simp at h
      · simp at h
    · rename_i hskip
      clear hskip
      unfold legitSceneTail3 at h
      split at h
      · rename_i lb rest
        unfold legitSceneTail4 at h
        split at h
        · rename_i ls rest
          rw [Bool.and_eq_true] at h
          obtain ⟨hls, h⟩ := h
          unfold legitSceneTail5 at h
          split at h
          · rename_i ns rest
            rw [Bool.and_eq_true] at h
            obtain ⟨hns, h⟩ := h
            unfold legitSceneTail6 at h
            split at h
            · rename_i pe rest
              rw [Bool.and_eq_true] at h
              obtain ⟨hpe, h⟩ := h
              unfold legitSceneTail7 at h
              split at h
              · rename_i po rest
                rw [Bool.and_eq_true] at h
                obtain ⟨hpo, h⟩ := h
                unfold legitSceneTail8 at h
                split at h
                · rename_i sc rest
                  unfold legitSceneTail9 at h
                  split at h
                  · rename_i ts rest
                    rw [Bool.and_eq_true] at h
                    obtain ⟨hts, h⟩ := h
                    unfold legitSceneTail10 at h
                    split at h
                    · rename_i tt vn
                      have htt := h
                      obtain ⟨rls, hrls, hrls2⟩ := mapM_rt_loop decodeLine encodeLine
                        legitLine line_rt ls hls
                      obtain ⟨rns, hrns, hrns2⟩ := mapM_rt_loop decodeNext encodeNext
                        legitNext next_rt ns hns
                      obtain ⟨rtt, hrtt, hrtt2⟩ := title_rt tt htt
                      have hrjs : optIntDict "jumplabels" ([("firstLine", Value.int fl), ("label", Value.str lb), ("lines", Value.arr ls), ("nexts", Value.arr ns), ("preevals", Value.arr pe), ("postevals", Value.arr po), ("spCount", Value.int sc), ("texts", Value.arr ts), ("title", tt), ("version", Value.int vn)]) = .ok none := by
                        simp [optIntDict, getKey]
                      have hrpe := optEvalList_eval "preevals" ([("firstLine", Value.int fl), ("label", Value.str lb), ("lines", Value.arr ls), ("nexts", Value.arr ns), ("preevals", Value.arr pe), ("postevals", Value.arr po), ("spCount", Value.int sc), ("texts", Value.arr ts), ("title", tt), ("version", Value.int vn)]) pe (by simp [getKey]) hpe
                      have hrpo := optEvalList_eval "postevals" ([("firstLine", Value.int fl), ("label", Value.str lb), ("lines", Value.arr ls), ("nexts", Value.arr ns), ("preevals", Value.arr pe), ("postevals", Value.arr po), ("spCount", Value.int sc), ("texts", Value.arr ts), ("title", tt), ("version", Value.int vn)]) po (by simp [getKey]) hpo
                      obtain ⟨rts, hrts, hrts2⟩ := mapM_rt_loop decodeText encodeText
                        legitText text_rt ts hts
                      refine ⟨⟨fl, none, lb, rls, rns, some pe, some po, sc, some rts, rtt, vn⟩, ?_, ?_⟩
                      · simp [decodeScene, reqStr, reqInt, reqModel, getKey, hrjs, hrpe, hrpo, hrls, hrns, hrtt, Bind.bind, Except.bind, Except.map, List.mapM, hrts]
                      · simp [encodeScene, hrls2, hrns2, hrtt2, hrts2]
                    · simp at h
                  · rename_i hskip
                    clear hskip
                    unfold legitSceneTail10 at h
                    split at h
                    · rename_i tt vn
                      have htt := h
                      obtain ⟨rls, hrls, hrls2⟩ := mapM_rt_loop decodeLine encodeLine
                        legitLine line_rt ls hls
                      obtain ⟨rns, hrns, hrns2⟩ := mapM_rt_loop decodeNext encodeNext
                        legitNext next_rt ns hns
                      obtain ⟨rtt, hrtt, hrtt2⟩ := title_rt tt htt
                      have hrjs : optIntDict "jumplabels" ([("firstLine", Value.int fl), ("label", Value.str lb), ("lines", Value.arr ls), ("nexts", Value.arr ns), ("preevals", Value.arr pe), ("postevals", Value.arr po), ("spCount", Value.int sc), ("title", tt), ("version", Value.int vn)]) = .ok none := by
                        simp [optIntDict, getKey]
                      have hrpe := optEvalList_eval "preevals" ([("firstLine", Value.int fl), ("label", Value.str lb), ("lines", Value.arr ls), ("nexts", Value.arr ns), ("preevals", Value.arr pe), ("postevals", Value.arr po), ("spCount", Value.int sc), ("title", tt), ("version", Value.int vn)]) pe (by simp [getKey]) hpe
                      have hrpo := optEvalList_eval "postevals" ([("firstLine", Value.int fl), ("label", Value.str lb), ("lines", Value.arr ls), ("nexts", Value.arr ns), ("preevals", Value.arr pe), ("postevals", Value.arr po), ("spCount", Value.int sc), ("title", tt), ("version", Value.int vn)]) po (by simp [getKey]) hpo
                      refine ⟨⟨fl, none, lb, rls, rns, some pe, some po, sc, none, rtt, vn⟩, ?_, ?_⟩
                      · simp [decodeScene, reqStr, reqInt, reqModel, getKey, hrjs, hrpe, hrpo, hrls, hrns, hrtt, Bind.bind, Except.bind, Except.map, List.mapM]
                      · simp [encodeScene, hrls2, hrns2, hrtt2]
                    · simp at h
                · simp at h
              · rename_i hskip
                clear hskip
                unfold legitSceneTail8 at h
                split at h
                · rename_i sc rest
                  unfold legitSceneTail9 at h
                  split at h
                  · rename_i ts rest
                    rw [Bool.and_eq_true] at h
                    obtain ⟨hts, h⟩ := h
                    unfold legitSceneTail10 at h
                    split at h
                    · rename_i tt vn
                      have htt := h
                      obtain ⟨rls, hrls, hrls2⟩ := mapM_rt_loop decodeLine encodeLine
                        legitLine line_rt ls hls
                      obtain ⟨rns, hrns, hrns2⟩ := mapM_rt_loop decodeNext encodeNext
                        legitNext next_rt ns hns
                      obtain ⟨rtt, hrtt, hrtt2⟩ := title_rt tt htt
                      have hrjs : optIntDict "jumplabels" ([("firstLine", Value.int fl), ("label", Value.str lb), ("lines", Value.arr ls), ("nexts", Value.arr ns), ("preevals", Value.arr pe), ("spCount", Value.int sc), ("texts", Value.arr ts), ("title", tt), ("version", Value.int vn)]) = .ok none := by
                        simp [optIntDict, getKey]
                      have hrpe := optEvalList_eval "preevals" ([("firstLine", Value.int fl), ("label", Value.str lb), ("lines", Value.arr ls), ("nexts", Value.arr ns), ("preevals", Value.arr pe), ("spCount", Value.int sc), ("texts", Value.arr ts), ("title", tt), ("version", Value.int vn)]) pe (by simp [getKey]) hpe
                      have hrpo : optEvalList "postevals" ([("firstLine", Value.int fl), ("label", Value.str lb), ("lines", Value.arr ls), ("nexts", Value.arr ns), ("preevals", Value.arr pe), ("spCount", Value.int sc), ("texts", Value.arr ts), ("title", tt), ("version", Value.int vn)]) = .ok none := by
                        simp [optEvalList, getKey]
                      obtain ⟨rts, hrts, hrts2⟩ := mapM_rt_loop decodeText encodeText
                        legitText text_rt ts hts
                      refine ⟨⟨fl, none, lb, rls, rns, some pe, none, sc, some rts, rtt, vn⟩, ?_, ?_⟩
                      · simp [decodeScene, reqStr, reqInt, reqModel, getKey, hrjs, hrpe, hrpo, hrls, hrns, hrtt, Bind.bind, Except.bind, Except.map, List.mapM, hrts]
                      · simp [encodeScene, hrls2, hrns2, hrtt2, hrts2]
                    · simp at h
                  · rename_i hskip
                    clear hskip
                    unfold legitSceneTail10 at h
                    split at h
                    · rename_i tt vn
                      have htt := h
                      obtain ⟨rls, hrls, hrls2⟩ := mapM_rt_loop decodeLine encodeLine
                        legitLine line_rt ls hls
                      obtain ⟨rns, hrns, hrns2⟩ := mapM_rt_loop decodeNext encodeNext
                        legitNext next_rt ns hns
                      obtain ⟨rtt, hrtt, hrtt2⟩ := title_rt tt htt
                      have hrjs : optIntDict "jumplabels" ([("firstLine", Value.int fl), ("label", Value.str lb), ("lines", Value.arr ls), ("nexts", Value.arr ns), ("preevals", Value.arr pe), ("spCount", Value.int sc), ("title", tt), ("version", Value.int vn)]) = .ok none := by
                        simp [optIntDict, getKey]
                      have hrpe := optEvalList_eval "preevals" ([("firstLine", Value.int fl), ("label", Value.str lb), ("lines", Value.arr ls), ("nexts", Value.arr ns), ("preevals", Value.arr pe), ("spCount", Value.int sc), ("title", tt), ("version", Value.int vn)]) pe (by simp [getKey]) hpe
                      have hrpo : optEvalList "postevals" ([("firstLine", Value.int fl), ("label", Value.str lb), ("lines", Value.arr ls), ("nexts", Value.arr ns), ("preevals", Value.arr pe), ("spCount", Value.int sc), ("title", tt), ("version", Value.int vn)]) = .ok none := by
                        simp [optEvalList, getKey]
                      refine ⟨⟨fl, none, lb, rls, rns, some pe, none, sc, none, rtt, vn⟩, ?_, ?_⟩
                      · simp [decodeScene, reqStr, reqInt, reqModel, getKey, hrjs, hrpe, hrpo, hrls, hrns, hrtt, Bind.bind, Except.bind, Except.map, List.mapM]
                      · simp [encodeScene, hrls2, hrns2, hrtt2]
                    · simp at h
                · simp at h
            · rename_i hskip
              clear hskip
              unfold legitSceneTail7 at h
              split at h
              · rename_i po rest
                rw [Bool.and_eq_true] at h
                obtain ⟨hpo, h⟩ := h
                unfold legitSceneTail8 at h
                split at h
                · rename_i sc rest
                  unfold legitSceneTail9 at h
                  split at h
                  · rename_i ts rest
                    rw [Bool.and_eq_true] at h
                    obtain ⟨hts, h⟩ := h
                    unfold legitSceneTail10 at h
                    split at h
                    · rename_i tt vn
                      have htt := h
                      obtain ⟨rls, hrls, hrls2⟩ := mapM_rt_loop decodeLine encodeLine
                        legitLine line_rt ls hls
                      obtain ⟨rns, hrns, hrns2⟩ := mapM_rt_loop decodeNext encodeNext
                        legitNext next_rt ns hns
                      obtain ⟨rtt, hrtt, hrtt2⟩ := title_rt tt htt
                      have hrjs : optIntDict "jumplabels" ([("firstLine", Value.int fl), ("label", Value.str lb), ("lines", Value.arr ls), ("nexts", Value.arr ns), ("postevals", Value.arr po), ("spCount", Value.int sc), ("texts", Value.arr ts), ("title", tt), ("version", Value.int vn)]) = .ok none := by
                        simp [optIntDict, getKey]
                      have hrpe : optEvalList "preevals" ([("firstLine", Value.int fl), ("label", Value.str lb), ("lines", Value.arr ls), ("nexts", Value.arr ns), ("postevals", Value.arr po), ("spCount", Value.int sc), ("texts", Value.arr ts), ("title", tt), ("version", Value.int vn)]) = .ok none := by
                        simp [optEvalList, getKey]
                      have hrpo := optEvalList_eval "postevals" ([("firstLine", Value.int fl), ("label", Value.str lb), ("lines", Value.arr ls), ("nexts", Value.arr ns), ("postevals", Value.arr po), ("spCount", Value.int sc), ("texts", Value.arr ts), ("title", tt), ("version", Value.int vn)]) po (by simp [getKey]) hpo
                      obtain ⟨rts, hrts, hrts2⟩ := mapM_rt_loop decodeText encodeText
                        legitText text_rt ts hts
                      refine ⟨⟨fl, none, lb, rls, rns, none, some po, sc, some rts, rtt, vn⟩, ?_, ?_⟩
                      · simp [decodeScene, reqStr, reqInt, reqModel, getKey, hrjs, hrpe, hrpo, hrls, hrns, hrtt, Bind.bind, Except.bind, Except.map, List.mapM, hrts]
                      · simp [encodeScene, hrls2, hrns2, hrtt2, hrts2]
                    · simp at h
                  · rename_i hskip
                    clear hskip
                    unfold legitSceneTail10 at h
                    split at h
                    · rename_i tt vn
                      have htt := h
                      obtain ⟨rls, hrls, hrls2⟩ := mapM_rt_loop decodeLine encodeLine
                        legitLine line_rt ls hls
                      obtain ⟨rns, hrns, hrns2⟩ := mapM_rt_loop decodeNext encodeNext
                        legitNext next_rt ns hns
                      obtain ⟨rtt, hrtt, hrtt2⟩ := title_rt tt htt
                      have hrjs : optIntDict "jumplabels" ([("firstLine", Value.int fl), ("label", Value.str lb), ("lines", Value.arr ls), ("nexts", Value.arr ns), ("postevals", Value.arr po), ("spCount", Value.int sc), ("title", tt), ("version", Value.int vn)]) = .ok none := by
                        simp [optIntDict, getKey]
                      have hrpe : optEvalList "preevals" ([("firstLine", Value.int fl), ("label", Value.str lb), ("lines", Value.arr ls), ("nexts", Value.arr ns), ("postevals", Value.arr po), ("spCount", Value.int sc), ("title", tt), ("version", Value.int vn)]) = .ok none := by
                        simp [optEvalList, getKey]
                      have hrpo := optEvalList_eval "postevals" ([("firstLine", Value.int fl), ("label", Value.str lb), ("lines", Value.arr ls), ("nexts", Value.arr ns), ("postevals", Value.arr po), ("spCount", Value.int sc), ("title", tt), ("version", Value.int vn)]) po (by simp [getKey]) hpo
                      refine ⟨⟨fl, none, lb, rls, rns, none, some po, sc, none, rtt, vn⟩, ?_, ?_⟩
                      · simp [decodeScene, reqStr, reqInt, reqModel, getKey, hrjs, hrpe, hrpo, hrls, hrns, hrtt, Bind.bind, Except.bind, Except.map, List.mapM]
                      · simp [encodeScene, hrls2, hrns2, hrtt2]
                    · simp at h
                · simp at h
              · rename_i hskip
                clear hskip
                unfold legitSceneTail8 at h
                split at h
                · rename_i sc rest
                  unfold legitSceneTail9 at h
                  split at h
                  · rename_i ts rest
                    rw [Bool.and_eq_true] at h
                    obtain ⟨hts, h⟩ := h
                    unfold legitSceneTail10 at h
                    split at h
                    · rename_i tt vn
                      have htt := h
                      obtain ⟨rls, hrls, hrls2⟩ := mapM_rt_loop decodeLine encodeLine
                        legitLine line_rt ls hls
                      obtain ⟨rns, hrns, hrns2⟩ := mapM_rt_loop decodeNext encodeNext
                        legitNext next_rt ns hns
                      obtain ⟨rtt, hrtt, hrtt2⟩ := title_rt tt htt
                      have hrjs : optIntDict "jumplabels" ([("firstLine", Value.int fl), ("label", Value.str lb), ("lines", Value.arr ls), ("nexts", Value.arr ns), ("spCount", Value.int sc), ("texts", Value.arr ts), ("title", tt), ("version", Value.int vn)]) = .ok none := by
                        simp [optIntDict, getKey]
                      have hrpe : optEvalList "preevals" ([("firstLine", Value.int fl), ("label", Value.str lb), ("lines", Value.arr ls), ("nexts", Value.arr ns), ("spCount", Value.int sc), ("texts", Value.arr ts), ("title", tt), ("version", Value.int vn)]) = .ok none := by
                        simp [optEvalList, getKey]
                      have hrpo : optEvalList "postevals" ([("firstLine", Value.int fl), ("label", Value.str lb), ("lines", Value.arr ls), ("nexts", Value.arr ns), ("spCount", Value.int sc), ("texts", Value.arr ts), ("title", tt), ("version", Value.int vn)]) = .ok none := by
                        simp [optEvalList, getKey]
                      obtain ⟨rts, hrts, hrts2⟩ := mapM_rt_loop decodeText encodeText
                        legitText text_rt ts hts
                      refine ⟨⟨fl, none, lb, rls, rns, none, none, sc, some rts, rtt, vn⟩, ?_, ?_⟩
                      · simp [decodeScene, reqStr, reqInt, reqModel, getKey, hrjs, hrpe, hrpo, hrls, hrns, hrtt, Bind.bind, Except.bind, Except.map, List.mapM, hrts]
                      · simp [encodeScene, hrls2, hrns2, hrtt2, hrts2]
                    · simp at h
                  · rename_i hskip
                    clear hskip
                    unfold legitSceneTail10 at h
                    split at h
                    · rename_i tt vn
                      have htt := h
                      obtain ⟨rls, hrls, hrls2⟩ := mapM_rt_loop decodeLine encodeLine
                        legitLine line_rt ls hls
                      obtain ⟨rns, hrns, hrns2⟩ := mapM_rt_loop decodeNext encodeNext
                        legitNext next_rt ns hns
                      obtain ⟨rtt, hrtt, hrtt2⟩ := title_rt tt htt
                      have hrjs : optIntDict "jumplabels" ([("firstLine", Value.int fl), ("label", Value.str lb), ("lines", Value.arr ls), ("nexts", Value.arr ns), ("spCount", Value.int sc), ("title", tt), ("version", Value.int vn)]) = .ok none := by
                        simp [optIntDict, getKey]
                      have hrpe : optEvalList "preevals" ([("firstLine", Value.int fl), ("label", Value.str lb), ("lines", Value.arr ls), ("nexts", Value.arr ns), ("spCount", Value.int sc), ("title", tt), ("version", Value.int vn)]) = .ok none := by
                        simp [optEvalList, getKey]
                      have hrpo : optEvalList "postevals" ([("firstLine", Value.int fl), ("label", Value.str lb), ("lines", Value.arr ls), ("nexts", Value.arr ns), ("spCount", Value.int sc), ("title", tt), ("version", Value.int vn)]) = .ok none := by
                        simp [optEvalList, getKey]
                      refine ⟨⟨fl, none, lb, rls, rns, none, none, sc, none, rtt, vn⟩, ?_, ?_⟩
                      · simp [decodeScene, reqStr, reqInt, reqModel, getKey, hrjs, hrpe, hrpo, hrls, hrns, hrtt, Bind.bind, Except.bind, Except.map, List.mapM]
                      · simp [encodeScene, hrls2, hrns2, hrtt2]
                    · simp at h
                · simp at h
          · simp at h
        · simp at h
      · simp at h
  · simp at h

theorem language_rt (v : Value) (h : legitLanguage v = true) :
    ∃ s, decodeLanguage v = .ok s ∧ Value.str s = v := by
  unfold legitLanguage at h
  split at h
  case _ s =>
    refine ⟨s, ?_, rfl⟩
    simp only [decodeLanguage]
    rw [if_pos h]
  case _ =>
    simp at h

theorem llmapEntry_rt (v : Value) (h : legitLLMapEntry v = true) :
    ∃ kvs, decodeLLMapEntry v = .ok kvs ∧ Value.obj kvs = v := by
  unfold legitLLMapEntry at h
  split at h
  case _ kvs =>
    exact ⟨kvs, by simp [decodeLLMapEntry, h], rfl⟩
  case _ =>
    simp at h

theorem scn_rt (v : Value) (h : legitScn v = true) :
    ∃ d, decodeScn v = .ok d ∧ encodeScn d = v := by
  unfold legitScn at h
  split at h
  case _ hs ls ms nm os ss =>
    simp only [Bool.and_eq_true] at h
    obtain ⟨⟨hls, hms⟩, hss⟩ := h
    obtain ⟨rls, hrls, hrls2⟩ := mapM_rt_loop decodeLanguage Value.str
      legitLanguage language_rt ls hls
    obtain ⟨rms, hrms, hrms2⟩ := mapM_rt_loop decodeLLMapEntry Value.obj
      legitLLMapEntry llmapEntry_rt ms hms
    obtain ⟨rss, hrss, hrss2⟩ := mapM_rt_loop decodeScene encodeScene
      legitScene scene_rt ss hss
    refine ⟨⟨hs, rls, rms, nm, os, rss⟩, ?_, ?_⟩
    · simp [decodeScn, reqStr, getKey, hrls, hrms, hrss, Bind.bind,
        Except.bind, Except.map, List.mapM]
    · simp [encodeScn, hrls2, hrms2, hrss2]
  case _ =>
    simp at h

/-! ## Claim theorems -/

/-- Claim C1: for every Value tree that is a legitimate instance of the
SCN format — including values carrying unrecognized event tags,
unrecognized snapshot-object class names and extra object keys, all of
which `legitScn` admits — decoding the document and encoding it again
yields a Value tree structurally equal to the original. -/
theorem C1_scn_round_trip (v : Value) (h : legitScn v = true) :
    ∃ d, decodeScn v = .ok d ∧ encodeScn d = v :=
  scn_rt v h

/-- Witness for C1: a concrete multi-scene document containing an
`envupdate` whose `update` list mixes an Instruction array and a
`DataItemDetails` object, an unknown event tag, an unknown
snapshot-object class and both snapshot-point-line arities. -/
theorem C1_scn_round_trip_witness :
    legitScn fixDoc = true ∧
    ∃ d, decodeScn fixDoc = .ok d ∧ encodeScn d = fixDoc :=
  ⟨by rfl, C1_scn_round_trip fixDoc (by rfl)⟩

/-- Claim C2: inside `envupdate` decoding, every element of the
`update`/`revupdate` lists is classified by its own shape alone: an
array element is decoded as an Instruction through its own element-0
tag dispatch, an object element is decoded as a `DataItemDetails`, any
other element is a decode error, and the `envupdate` pair scanner
applies exactly this classifier to every element of those two lists. -/
theorem C2_update_entry_classifier :
    (∀ xs : List Value, decodeUpdateEntry (.arr xs) =
      (decodeInstruction (.arr xs)).map UpdateEntry.instr) ∧
    (∀ kvs : Entries, decodeUpdateEntry (.obj kvs) =
      (decodeDataItemDetails (.obj kvs)).map UpdateEntry.details) ∧
    (∀ v : Value, isArr v = false → isObjV v = false →
      ∃ m, decodeUpdateEntry v = .error m) ∧
    (∀ k : String, ∀ xs : List Value, (k == "update" || k == "revupdate") = true →
      processEnvPair (.str k) (.arr xs) =
        (xs.mapM decodeUpdateEntry).map EnvVal.entries) := by
  refine ⟨fun xs => rfl, fun kvs => rfl, ?_, ?_⟩
  · intro v ha ho
    match v, ha, ho with
    | .null, _, _ => exact ⟨_, rfl⟩
    | .bool b, _, _ => exact ⟨_, rfl⟩
    | .int n, _, _ => exact ⟨_, rfl⟩
    | .flt q, _, _ => exact ⟨_, rfl⟩
    | .str s, _, _ => exact ⟨_, rfl⟩
  · intro k xs hk
    have hp : processEnvPair (.str k) (.arr xs) =
        (if (k == "update" || k == "revupdate") = true then
          (xs.mapM decodeUpdateEntry).map EnvVal.entries
        else if (k == "pretrans" || k == "revpretrans") = true then
          (xs.mapM decodeInstruction).map EnvVal.instrs
        else .ok (.raw (.arr xs))) := rfl
    rw [hp, if_pos hk]

/-- Witness for C2: the classifier at a concrete instruction array, a
concrete object, a concrete scalar, and a concrete `update` pair. -/
theorem C2_update_entry_classifier_witness :
    (decodeUpdateEntry (.arr [.str "init", .int 1]) =
      (decodeInstruction (.arr [.str "init", .int 1])).map UpdateEntry.instr) ∧
    (decodeUpdateEntry fixDet =
      (decodeDataItemDetails fixDet).map UpdateEntry.details) ∧
    (∃ m, decodeUpdateEntry (.int 5) = .error m) ∧
    (processEnvPair (.str "update") (.arr [fixInstr, fixDet]) =
      ([fixInstr, fixDet].mapM decodeUpdateEntry).map EnvVal.entries) :=
  ⟨C2_update_entry_classifier.1 _,
   C2_update_entry_classifier.2.1 _,
   C2_update_entry_classifier.2.2.1 (.int 5) rfl rfl,
   C2_update_entry_classifier.2.2.2 "update" [fixInstr, fixDet] rfl⟩

/-- Claim C3: decoding an event array whose element-0 tag string is not
in the event registry does not fail: it emits exactly one diagnostic,
keeps the entire array as the raw-passthrough fallback variant, and
re-encoding that fallback yields exactly the original array. -/
theorem C3_unknown_event_tag (t : String) (rest : List Value)
    (h : eventTags.contains t = false) :
    decodeEvent (.arr (.str t :: rest)) = .ok (.fallback (.str t :: rest)) ∧
    eventWarnings (.arr (.str t :: rest)) =
      ["Warning: Unknown event type: " ++ t] ∧
    encodeEvent (.fallback (.str t :: rest)) = .arr (.str t :: rest) := by
  refine ⟨?_, ?_, rfl⟩
  · have hd : decodeEvent (.arr (.str t :: rest)) =
        (if eventTags.contains t = true then decodeEventByTag t (.str t :: rest)
         else .ok (.fallback (.str t :: rest))) := rfl
    rw [hd, if_neg (by intro hc; rw [h] at hc; simp at hc)]
  · have hw : eventWarnings (.arr (.str t :: rest)) =
        (if eventTags.contains t = true then []
         else ["Warning: Unknown event type: " ++ t]) := rfl
    rw [hw, if_neg (by intro hc; rw [h] at hc; simp at hc)]

/-- Witness for C3: the unknown tag fixture of the specification,
decoding to the fallback and re-encoding to exactly itself. -/
theorem C3_unknown_event_tag_witness :
    decodeEvent fixFall = .ok (.fallback [.str "zzzfuturetag", .int 1, .int 2]) ∧
    eventWarnings fixFall = ["Warning: Unknown event type: zzzfuturetag"] ∧
    encodeEvent (.fallback [.str "zzzfuturetag", .int 1, .int 2]) = fixFall :=
  C3_unknown_event_tag "zzzfuturetag" [.int 1, .int 2] (by rfl)

/-- Claim C4: decoding a snapshot-object value whose class-name
discriminator is not in the `details_map` registry is recoverable: the
`DataItem` decoder emits a diagnostic and keeps the object unchanged as
the generic-map fallback instead of aborting, the union validation of
a bare mapping likewise yields the generic map, and re-encoding
reproduces the identical object. -/
theorem C4_unknown_class_fallback (nm c : String) (kvs : Entries)
    (h : detailsTags.contains c = false) :
    decodeDataItem (.arr [.str nm, .str c, .obj kvs]) =
      .ok ⟨nm, c, .fallback kvs⟩ ∧
    dataItemWarnings (.arr [.str nm, .str c, .obj kvs]) =
      ["Warning: Unknown class name: " ++ c] ∧
    encodeDataItem ⟨nm, c, .fallback kvs⟩ = .arr [.str nm, .str c, .obj kvs] ∧
    decodeDataItemDetails (.obj kvs) = .ok (.fallback kvs) ∧
    encodeDataItemDetails (.fallback kvs) = .obj kvs := by
  refine ⟨?_, ?_, rfl, rfl, rfl⟩
  · have hdd : decodeDataItem (.arr [.str nm, .str c, .obj kvs]) =
        (if detailsTags.contains c = true then
          (decodeDetailsByClass c (.obj kvs)).bind
            (fun det => Except.ok ⟨nm, c, det⟩)
        else
          (decodeDataItemDetails (.obj kvs)).bind
            (fun det => Except.ok ⟨nm, c, det⟩)) := rfl
    rw [hdd, if_neg (by intro hc; rw [h] at hc; simp at hc)]
    rfl
  · have hdw : dataItemWarnings (.arr [.str nm, .str c, .obj kvs]) =
        (if detailsTags.contains c = true then []
         else ["Warning: Unknown class name: " ++ c]) := rfl
    rw [hdw, if_neg (by intro hc; rw [h] at hc; simp at hc)]

/-- Witness for C4: the unknown-class object of the specification,
both as the details of a `DataItem` array and as a bare
`DataItemDetails` value. -/
theorem C4_unknown_class_fallback_witness :
    decodeDataItem (.arr [.str "x", .str "newwidget", fixDet]) =
      .ok ⟨"x", "newwidget", .fallback [("class", .str "newwidget"),
        ("name", .str "x"), ("foo", .int 1)]⟩ ∧
    dataItemWarnings (.arr [.str "x", .str "newwidget", fixDet]) =
      ["Warning: Unknown class name: newwidget"] ∧
    encodeDataItem ⟨"x", "newwidget", .fallback [("class", .str "newwidget"),
      ("name", .str "x"), ("foo", .int 1)]⟩ =
      .arr [.str "x", .str "newwidget", fixDet] ∧
    decodeDataItemDetails fixDet = .ok (.fallback [("class", .str "newwidget"),
      ("name", .str "x"), ("foo", .int 1)]) ∧
    encodeDataItemDetails (.fallback [("class", .str "newwidget"),
      ("name", .str "x"), ("foo", .int 1)]) = fixDet :=
  C4_unknown_class_fallback "x" "newwidget"
    [("class", .str "newwidget"), ("name", .str "x"), ("foo", .int 1)] (by rfl)

theorem instr_unknown_tag (t : String) (rest : List Value)
    (h : instructionTags.contains t = false) :
    decodeInstruction (.arr (.str t :: rest)) = .error ("KeyError: " ++ t) := by
  simp [instructionTags] at h
  obtain ⟨h1, h2, h3, h4⟩ := h
  unfold decodeInstruction
  split
  · rename_i items heq
    injection heq with heq
    subst heq
    split <;> simp_all
  · simp_all

theorem init_wrong_len (rest : List Value) (h : rest.length ≠ 1) :
    decodeInstruction (.arr (.str "init" :: rest)) = .error "Invalid length" := by
  have hd : decodeInstruction (.arr (.str "init" :: rest)) =
      decodeInitInstruction (.str "init" :: rest) := rfl
  rw [hd]
  unfold decodeInitInstruction
  split <;> simp_all

theorem new_wrong_len (rest : List Value) (h : rest.length ≠ 2) :
    decodeInstruction (.arr (.str "new" :: rest)) = .error "Invalid length" := by
  have hd : decodeInstruction (.arr (.str "new" :: rest)) =
      decodeNewInstruction (.str "new" :: rest) := rfl
  rw [hd]
  unfold decodeNewInstruction
  split <;> simp_all

theorem del_wrong_len (rest : List Value) (h : rest.length ≠ 1) :
    decodeInstruction (.arr (.str "del" :: rest)) = .error "Invalid length" := by
  have hd : decodeInstruction (.arr (.str "del" :: rest)) =
      decodeDeleteInstruction (.str "del" :: rest) := rfl
  rw [hd]
  unfold decodeDeleteInstruction
  split <;> simp_all

theorem ren_wrong_len (rest : List Value) (h : rest.length ≠ 2) :
    decodeInstruction (.arr (.str "ren" :: rest)) = .error "Invalid length" := by
  have hd : decodeInstruction (.arr (.str "ren" :: rest)) =
      decodeRenameInstruction (.str "ren" :: rest) := rfl
  rw [hd]
  unfold decodeRenameInstruction
  split <;> simp_all

theorem playvoice_wrong_len (items : List Value) (h : items.length ≠ 9) :
    decodePlayVoiceEvent items = .error "Invalid length" := by
  unfold decodePlayVoiceEvent
  split <;> simp_all

/-- Claim C5: Instruction decode is fatal (an error propagated to the
caller, never a fallback) whenever the array arity does not match the
tag (init and del take 2 elements, new and ren take 3) or the tag is not
one of init/new/del/ren; likewise a recognized event tag with the wrong
arity is fatal: a `playvoice` array whose length is not exactly 9 fails
inside event decoding. -/
theorem C5_arity_and_tag_fatal :
    (∀ t : String, ∀ rest : List Value, instructionTags.contains t = false →
      decodeInstruction (.arr (.str t :: rest)) = .error ("KeyError: " ++ t)) ∧
    (∀ rest : List Value, rest.length ≠ 1 →
      decodeInstruction (.arr (.str "init" :: rest)) = .error "Invalid length") ∧
    (∀ rest : List Value, rest.length ≠ 2 →
      decodeInstruction (.arr (.str "new" :: rest)) = .error "Invalid length") ∧
    (∀ rest : List Value, rest.length ≠ 1 →
      decodeInstruction (.arr (.str "del" :: rest)) = .error "Invalid length") ∧
    (∀ rest : List Value, rest.length ≠ 2 →
      decodeInstruction (.arr (.str "ren" :: rest)) = .error "Invalid length") ∧
    (∀ rest : List Value, rest.length ≠ 8 →
      decodeEvent (.arr (.str "playvoice" :: rest)) = .error "Invalid length") := by
  refine ⟨instr_unknown_tag, init_wrong_len, new_wrong_len, del_wrong_len,
    ren_wrong_len, ?_⟩
  intro rest h
  have hd : decodeEvent (.arr (.str "playvoice" :: rest)) =
      (decodePlayVoiceEvent (.str "playvoice" :: rest)).map Event.playvoice := rfl
  rw [hd, playvoice_wrong_len _ (by simpa using h)]
  rfl

/-- Witness for C5: an unknown instruction tag; init and del arrays of
lengths 1 and 4; playvoice arrays of lengths 8 and 10. -/
theorem C5_arity_and_tag_fatal_witness :
    decodeInstruction (.arr [.str "frobnicate", .int 1]) =
      .error "KeyError: frobnicate" ∧
    decodeInstruction (.arr [.str "init"]) = .error "Invalid length" ∧
    decodeInstruction (.arr [.str "init", .int 1, .int 2, .int 3]) =
      .error "Invalid length" ∧
    decodeInstruction (.arr [.str "del"]) = .error "Invalid length" ∧
    decodeInstruction (.arr [.str "del", .str "a", .str "b", .str "c"]) =
      .error "Invalid length" ∧
    decodeEvent (.arr [.str "playvoice", .str "loop", .int 1, .str "name",
      .str "a", .str "type", .int 2, .str "voice"]) = .error "Invalid length" ∧
    decodeEvent (.arr [.str "playvoice", .str "loop", .int 1, .str "name",
      .str "a", .str "type", .int 2, .str "voice", .str "v", .null]) =
      .error "Invalid length" :=
  ⟨C5_arity_and_tag_fatal.1 "frobnicate" [.int 1] (by rfl),
   C5_arity_and_tag_fatal.2.1 [] (by simp),
   C5_arity_and_tag_fatal.2.1 [.int 1, .int 2, .int 3] (by simp),
   C5_arity_and_tag_fatal.2.2.2.1 [] (by simp),
   C5_arity_and_tag_fatal.2.2.2.1 [.str "a", .str "b", .str "c"] (by simp),
   C5_arity_and_tag_fatal.2.2.2.2.2 [.str "loop", .int 1, .str "name",
     .str "a", .str "type", .int 2, .str "voice"] (by simp),
   C5_arity_and_tag_fatal.2.2.2.2.2 [.str "loop", .int 1, .str "name",
     .str "a", .str "type", .int 2, .str "voice", .str "v", .null] (by simp)⟩

/-- Claim C6: `SnapshotPointLine` decode accepts exactly arities 5 and
8; the three trailing positions are emitted on encode exactly when the
conditional-presence predicate (`text_index_b is not None`) holds; the
5-element fixture round-trips with the trailing fields absent and the
8-element fixture round-trips with all fields populated. -/
theorem C6_spl_conditional_presence :
    (∀ items : List Value, items.length ≠ 5 → items.length ≠ 8 →
      decodeSnapshotPointLine items = .error "Line must have 5 or 8 elements") ∧
    (∀ l : SnapshotPointLine, ∃ xs : List Value,
      encodeSnapshotPointLine l = .arr xs ∧
      ((l.text_index_b ≠ none ∧ xs.length = 8) ∨
       (l.text_index_b = none ∧ xs.length = 5))) ∧
    (∃ l5, decodeSnapshotPointLine [.int 3, .int 12, .null, .null, .int 40] =
        .ok l5 ∧ l5.text_index_b = none ∧ l5.voice_tag = none ∧
      encodeSnapshotPointLine l5 = fixSPL5) ∧
    (∃ l8, decodeSnapshotPointLine
        [.int 3, .int 12, .int 7, .int 1, .int 40, .int 2, .null, .null] =
        .ok l8 ∧ l8.text_index_b = some 7 ∧ l8.voice_tag = some 2 ∧
      encodeSnapshotPointLine l8 = fixSPL8) := by
  refine ⟨?_, ?_, ?_, ?_⟩
  · intro items h5 h8
    unfold decodeSnapshotPointLine
    split <;> simp_all
  · intro l
    by_cases h : l.text_index_b = none
    · exact ⟨_, rfl, .inr ⟨h, by simp [h]⟩⟩
    · exact ⟨_, rfl, .inl ⟨h, by simp [h]⟩⟩
  · exact ⟨⟨3, .int 12, none, none, 40, none, .null, .null⟩, rfl, rfl, rfl, rfl⟩
  · exact ⟨⟨3, .int 12, some 7, some 1, 40, some 2, .null, .null⟩,
      rfl, rfl, rfl, rfl⟩

/-- Witness for C6: a 2-element array is rejected with the length
error. -/
theorem C6_spl_conditional_presence_witness :
    decodeSnapshotPointLine [.int 1, .int 2] =
      .error "Line must have 5 or 8 elements" :=
  C6_spl_conditional_presence.1 [.int 1, .int 2] (by decide) (by decide)

/-- Counterexample to claim C7: the codec does NOT validate the literal
key names at positions 1, 3 and 5 of a 7-element startline array — an
array carrying the wrong tokens at the key positions is accepted and the
following values are trusted anyway. -/
theorem C7_startline_counterexample :
    decodeStartlineEvent [.str "startline", .str "zzz", .int 2, .str "yyy",
      .str "Yuki", .str "xxx", .int 1] = .ok ⟨some 2, some "Yuki", some 1⟩ := rfl

/-- Claim C7 (amended): startline decode accepts exactly the 1-element
dummy form and the 7-element form, and in the latter it reads only
positions 2, 4 and 6 — the key positions 1, 3 and 5 are never inspected
(decode is invariant under replacing them); encode does emit the literal
tokens vflag/name/text verbatim; the two fixture shapes round-trip. -/
theorem C7_startline_keys_not_validated :
    (∀ items : List Value, items.length ≠ 1 → items.length ≠ 7 →
      decodeStartlineEvent items = .error "Invalid length") ∧
    (∀ k1 k3 k5 j1 j3 j5 v2 v4 v6 : Value,
      decodeStartlineEvent [.str "startline", k1, v2, k3, v4, k5, v6] =
      decodeStartlineEvent [.str "startline", j1, v2, j3, v4, j5, v6]) ∧
    (∀ e : StartlineEvent, ∀ v : Int, e.vflag = some v →
      encodeStartlineEvent e = .arr [.str "startline", .str "vflag", .int v,
        .str "name", encOptStr e.name, .str "text", encOptInt e.text]) ∧
    (decodeStartlineEvent [.str "startline"] =
        .ok (⟨none, none, none⟩ : StartlineEvent) ∧
      encodeStartlineEvent ⟨none, none, none⟩ = .arr [.str "startline"]) ∧
    (∃ e, decodeEvent fixStart7 = .ok e ∧ encodeEvent e = fixStart7) := by
  refine ⟨?_, ?_, ?_, ⟨rfl, rfl⟩, ?_⟩
  · intro items h1 h7
    unfold decodeStartlineEvent
    split <;> simp_all
  · intro k1 k3 k5 j1 j3 j5 v2 v4 v6
    rfl
  · intro e v h
    simp [encodeStartlineEvent, h]
  · exact ⟨.startline ⟨some 2, some "Yuki", some 1⟩, rfl, rfl⟩

/-- Witness for C7: a 2-element array is rejected, and encoding the
populated record emits the literal key tokens. -/
theorem C7_startline_keys_not_validated_witness :
    decodeStartlineEvent [.int 1, .int 2] = .error "Invalid length" ∧
    encodeStartlineEvent ⟨some 2, some "Yuki", some 1⟩ =
      .arr [.str "startline", .str "vflag", .int 2, .str "name", .str "Yuki",
        .str "text", .int 1] :=
  ⟨C7_startline_keys_not_validated.1 [.int 1, .int 2] (by decide) (by decide),
   by simpa [encOptStr, encOptInt] using
     C7_startline_keys_not_validated.2.2.1 ⟨some 2, some "Yuki", some 1⟩ 2 rfl⟩

/-- Counterexample to claim C8: the new/ren list parsers require exactly
3 elements, so a new array carrying a trailing object suffix is rejected
with a length error rather than merged into an extra-fields bag; and the
serializer of a new instruction that does carry extra named fields emits
only the three positional elements — no trailing object is appended. -/
theorem C8_instr_counterexample :
    decodeInstruction (.arr [.str "new", .str "n", .str "c",
      .obj [("foo", .int 1)]]) = .error "Invalid length" ∧
    decodeInstruction (.arr [.str "ren", .str "a", .str "b",
      .obj [("foo", .int 1)]]) = .error "Invalid length" ∧
    encodeInstruction (.new ⟨"n", "c", [("foo", .int 1)]⟩) =
      .arr [.str "new", .str "n", .str "c"] :=
  ⟨rfl, rfl, rfl⟩

/-- Claim C8 (amended): instruction encode emits the tag followed by the
positional fields in the fixed source order (new: name then class; ren:
name then new_name), and nothing else — the extra-fields bag is never
serialized; on decode the list form of new/ren accepts exactly 3
elements, so there is no object-suffix form to merge. -/
theorem C8_instruction_encode_order :
    (∀ i : InitInstruction,
      encodeInstruction (.init i) = .arr [.str "init", .int i.status]) ∧
    (∀ n c : String, ∀ ex : Entries,
      encodeInstruction (.new ⟨n, c, ex⟩) = .arr [.str "new", .str n, .str c]) ∧
    (∀ n : String, encodeInstruction (.del ⟨n⟩) = .arr [.str "del", .str n]) ∧
    (∀ n m : String, ∀ ex : Entries,
      encodeInstruction (.ren ⟨n, m, ex⟩) = .arr [.str "ren", .str n, .str m]) ∧
    (∀ rest : List Value, rest.length ≠ 2 →
      decodeInstruction (.arr (.str "new" :: rest)) = .error "Invalid length") ∧
    (∀ rest : List Value, rest.length ≠ 2 →
      decodeInstruction (.arr (.str "ren" :: rest)) = .error "Invalid length") :=
  ⟨fun _ => rfl, fun _ _ _ => rfl, fun _ => rfl, fun _ _ _ => rfl,
   new_wrong_len, ren_wrong_len⟩

/-- Witness for C8: 2-element new and ren arrays are rejected. -/
theorem C8_instruction_encode_order_witness :
    decodeInstruction (.arr [.str "new", .str "x"]) = .error "Invalid length" ∧
    decodeInstruction (.arr [.str "ren", .str "x"]) = .error "Invalid length" :=
  ⟨C8_instruction_encode_order.2.2.2.2.1 [.str "x"] (by decide),
   C8_instruction_encode_order.2.2.2.2.2 [.str "x"] (by decide)⟩

theorem foldr_kv (f : String → Option Value) (ks : List String) :
    ∃ pairs : List (String × Value),
      ks.foldr (fun k acc =>
        match f k with
        | some v => .str k :: v :: acc
        | none => acc) [] =
        (pairs.map (fun p => [Value.str p.1, p.2])).flatten ∧
      pairs.map Prod.fst = ks.filter (fun k => (f k).isSome) ∧
      ∀ p ∈ pairs, f p.1 = some p.2 := by
  induction ks with
  | nil => exact ⟨[], rfl, rfl, by simp⟩
  | cons k ks ih =>
    obtain ⟨pairs, h1, h2, h3⟩ := ih
    cases hf : f k with
    | none =>
      exact ⟨pairs, by simp only [List.foldr_cons, hf, h1],
        by simp [List.filter_cons, hf, h2], h3⟩
    | some v =>
      refine ⟨(k, v) :: pairs, ?_, ?_, ?_⟩
      · simp [List.foldr_cons, hf, h1]
      · simp [List.filter_cons, hf, h2]
      · intro p hp
        rcases List.mem_cons.mp hp with h | h
        · subst h; exact hf
        · exact h3 _ h

/-- Claim C9: the envupdate serializer output is exactly the tag
followed by a flat list of alternating key/value pairs; the keys that
appear are exactly the canonical keys whose field is present, in the
fixed canonical order (pretrans, update, revpretrans, revupdate, wait,
trans, msgoff), each immediately followed by its serialized value —
absent optional fields contribute neither a key nor a placeholder. -/
theorem C9_envupdate_canonical_order (e : EnvUpdateEvent) :
    ∃ pairs : List (String × Value),
      encodeEnvUpdateEvent e = .arr (.str "envupdate" ::
        (pairs.map (fun p => [Value.str p.1, p.2])).flatten) ∧
      pairs.map Prod.fst =
        envCanonicalKeys.filter (fun k => (envFieldValue e k).isSome) ∧
      ∀ p ∈ pairs, envFieldValue e p.1 = some p.2 := by
  obtain ⟨pairs, h1, h2, h3⟩ := foldr_kv (envFieldValue e) envCanonicalKeys
  exact ⟨pairs, by simp only [encodeEnvUpdateEvent, h1], h2, h3⟩

/-- Witness for C9: the characterization at a concrete event carrying
only the required update list and msgoff. -/
theorem C9_envupdate_canonical_order_witness :
    ∃ pairs : List (String × Value),
      encodeEnvUpdateEvent ⟨none, [], none, none, none, none, some 1⟩ =
        .arr (.str "envupdate" ::
          (pairs.map (fun p => [Value.str p.1, p.2])).flatten) ∧
      pairs.map Prod.fst = envCanonicalKeys.filter (fun k =>
        (envFieldValue ⟨none, [], none, none, none, none, some 1⟩ k).isSome) ∧
      ∀ p ∈ pairs,
        envFieldValue ⟨none, [], none, none, none, none, some 1⟩ p.1 = some p.2 :=
  C9_envupdate_canonical_order ⟨none, [], none, none, none, none, some 1⟩

/-- Claim C10: the encoded array of a `SnapshotPointLine` has length 8
exactly when `text_index_b` is present and length 5 otherwise; hence an
8-element input whose third element is null decodes successfully but
re-encodes as the 5-element prefix, dropping the trailing
voice_tag/unused_a/unused_b positions. -/
theorem C10_spl_encoded_length :
    (∀ l : SnapshotPointLine, ∃ xs : List Value,
      encodeSnapshotPointLine l = .arr xs ∧
      (xs.length = 8 ↔ l.text_index_b ≠ none) ∧
      (xs.length = 5 ↔ l.text_index_b = none)) ∧
    (∀ i n ol : Int, ∀ fl vt : Option Int, ∀ u6 u7 : Value,
      decodeSnapshotPointLine [.int i, .int n, .null, encOptInt fl, .int ol,
        encOptInt vt, u6, u7] = .ok ⟨i, .int n, none, fl, ol, vt, u6, u7⟩ ∧
      encodeSnapshotPointLine ⟨i, .int n, none, fl, ol, vt, u6, u7⟩ =
        .arr [.int i, .int n, .null, encOptInt fl, .int ol]) := by
  constructor
  · intro l
    by_cases h : l.text_index_b = none
    · exact ⟨_, rfl, by simp [h], by simp [h]⟩
    · exact ⟨_, rfl, by simp [h], by simp [h]⟩
  · intro i n ol fl vt u6 u7
    cases fl <;> cases vt <;> exact ⟨rfl, rfl⟩

/-- Witness for C10: a concrete 8-element array with a null third
element decodes and re-encodes as its 5-element prefix. -/
theorem C10_spl_encoded_length_witness :
    decodeSnapshotPointLine [.int 3, .int 12, .null, .null, .int 40,
        .int 2, .null, .null] =
      .ok ⟨3, .int 12, none, none, 40, some 2, .null, .null⟩ ∧
    encodeSnapshotPointLine ⟨3, .int 12, none, none, 40, some 2, .null, .null⟩ =
      .arr [.int 3, .int 12, .null, .null, .int 40] := by
  have h := C10_spl_encoded_length.2 3 12 40 none (some 2) .null .null
  simpa [encOptInt] using h
